import Mathlib

/-! DeVAS geometry discontinuities: a shallow embedding.

Embedding of `src/geometry-discontinuities.c` (the position-deviation filter,
the orientation-deviation filter, the mask combiner and the orchestrator) and of
the unit handling of `src/read-geometry.c` (unit selection, `standard_units_3D`,
`standard_units_1D`).

Modelling conventions

* C `int` values (patch sizes, image dimensions, loop counters, pixel
  coordinates) are `Int`; `int` is 32 bits wide.  `%` and `/` on `int` are the
  truncating `Int.tmod` and `Int.tdiv`.  The two products that the filters
  form in `int` before the conversion to `double`, the normalisation divisors
  `half_patch_size * position_patch_size` (line 296) and
  `( orientation_patch_size + 1 ) * half_patch_size` (lines 392-393), leave
  the range of `int` from patch size 65537 on; they are computed by `int_mul`
  and `int_add`, which reduce modulo `2 ^ 32` (the two's-complement result).
  The other `int` expressions (loop bounds, pixel coordinates) stay between
  `- n` and `n` for an image dimension `n` and are not reduced.
* `float`/`double` values are elements of an arbitrary linearly ordered field
  `α`: arithmetic is exact, rounding is not modelled.  A quotient whose
  divisor is `0.0` is not a number of the field (it is a NaN or an infinity):
  `double_div` hands it to the argument `div_by_zero`.  The definitions
  compute at `α = ℚ`; statements that need `acos` are instantiated at `α = ℝ`.
* A `DeVAS_*_image` is its two dimensions together with the pixel accessor
  `DeVAS_image_data ( img, row, col )`; the layout of the pixel buffer (header
  `devas-image.h`, which is not part of the sources) is abstracted.
* `exit ( EXIT_FAILURE )` is an `Except.error` carrying the check that fired.
-/

namespace DeVAS

/-! ## Data model -/

/-- Three-component vector `DeVAS_XYZ` with fields `X`, `Y`, `Z`. -/
structure DeVAS_XYZ (α : Type) where
  X : α
  Y : α
  Z : α

/-- Image object: `n_rows`, `n_cols` and the pixel accessor
`DeVAS_image_data ( img, row, col )`. -/
structure DeVAS_image (β : Type) where
  n_rows : Int
  n_cols : Int
  data : Int → Int → β

/-- The assignment `DeVAS_image_data ( img, row, col ) = v`. -/
def DeVAS_image.set {β : Type} (img : DeVAS_image β) (row col : Int) (v : β) :
    DeVAS_image β :=
  { img with data := fun r c => if r = row ∧ c = col then v else img.data r c }

/-- Modelled from the spec: `DeVAS_image_samesize` (header `devas-image.h`, not in
the sources) holds when the two images have identical dimensions. -/
def DeVAS_image_samesize {β γ : Type} (i1 : DeVAS_image β) (i2 : DeVAS_image γ) : Bool :=
  decide (i1.n_rows = i2.n_rows) && decide (i1.n_cols = i2.n_cols)

/-- Modelled from the spec: `DeVAS_float_image_new` / `DeVAS_gray_image_new`
(library code, not in the sources) allocate an image of the given dimensions.
The content of a fresh buffer is unspecified: it is the argument `fresh`. -/
def DeVAS_image_new {β : Type} (fresh : Int → Int → β) (n_rows n_cols : Int) :
    DeVAS_image β :=
  { n_rows := n_rows, n_cols := n_cols, data := fresh }

/-- Modelled from the spec: `DeVAS_float_image_setvalue` (library code, not in the
sources) stores the value at every pixel. -/
def DeVAS_float_image_setvalue {β : Type} (img : DeVAS_image β) (v : β) : DeVAS_image β :=
  { img with data := fun _ _ => v }

/-- Modelled from the spec: `imin` (header `devas-utils.h`, not in the sources) is
the minimum of two `int`s. -/
def imin (a b : Int) : Int := if a < b then a else b

/-- The value of type `int` (32 bits, two's complement) that an arithmetic
result `x` is stored as: `x` reduced modulo `2 ^ 32` into the range from
`- 2 ^ 31` to `2 ^ 31 - 1`. -/
def int_wrap (x : Int) : Int := (x + 2 ^ 31) % 2 ^ 32 - 2 ^ 31

/-- The C expression `a + b` on `int` operands. -/
def int_add (a b : Int) : Int := int_wrap (a + b)

/-- The C expression `a * b` on `int` operands. -/
def int_mul (a b : Int) : Int := int_wrap (a * b)

/-- The C expression `x / y` on `double` operands.  With a divisor other than
`0.0` it is the quotient of the field; with the divisor `0.0` the result is a
NaN (`x` zero) or an infinity, which is no element of the field: it is the
value `div_by_zero x` of an argument. -/
def double_div {α : Type} [LinearOrderedField α] (div_by_zero : α → α) (x y : α) : α :=
  if y = 0 then div_by_zero x else x / y

/-- The checks that end the process with `exit ( EXIT_FAILURE )`, one constructor
per `fprintf` message of `geometry-discontinuities.c`, and one for the unit
selection of `read-geometry.c`. -/
inductive ExitFailure where
  /-- geometry_discontinuities: geometry image size mismatch! -/
  | gd_size_mismatch
  /-- geometry_discontinuities: position_patch_size must >= 3! -/
  | gd_position_patch_lt_3
  /-- geometry_discontinuities: orientation_patch_size must >= 3! -/
  | gd_orientation_patch_lt_3
  /-- geometry_discontinuities: position_patch_size must be odd! -/
  | gd_position_patch_not_odd
  /-- geometry_discontinuities: orientation_patch_size must be odd! -/
  | gd_orientation_patch_not_odd
  /-- geometry_discontinuities: position_patch_size exceeds data size! -/
  | gd_position_patch_exceeds
  /-- geometry_discontinuities: orientation_patch_size exceeds data size! -/
  | gd_orientation_patch_exceeds
  /-- compute_position_deviation: image sizes do not match! -/
  | cpd_size_mismatch
  /-- compute_position_deviation: patch size exceeds data size! -/
  | cpd_patch_exceeds
  /-- compute_position_deviation: patch-size must be odd! -/
  | cpd_patch_not_odd
  /-- In compute_orientation_deviation (the message names
  compute_position_deviation): patch size exceeds data size! -/
  | cod_patch_exceeds
  /-- In compute_orientation_deviation (the message names
  compute_position_deviation): patch-size must be odd! -/
  | cod_patch_not_odd
  /-- DeVAS_gray_or: image sizes do not match! -/
  | gray_or_size_mismatch
  /-- In DeVAS_coordinates_from_file: invalid UNITS value! -/
  | invalid_units
  deriving DecidableEq

/-- The call ended the process (`exit ( EXIT_FAILURE )`). -/
def fails {ε β : Type} : Except ε β → Bool
  | .error _ => true
  | .ok _ => false

/-- The unit-of-length enumeration stored in `coordinates->units`. -/
inductive DeVAS_units where
  | unknown_unit
  | centimeters
  | meters
  | inches
  | feet
  deriving DecidableEq

/-- The descriptor `DeVAS_coordinates`: the unit and the factor
`convert_to_centimeters`.  Its third member `view` (type `VIEW` of the Radiance
headers, not in the sources) is not read by any function embedded here and is
left out. -/
structure DeVAS_coordinates (α : Type) where
  units : DeVAS_units
  convert_to_centimeters : α

/-! ## Loops -/

/-- The iterations of a counting loop: `n` remaining passes, counter at `x`. -/
def forLoopAux {σ : Type} (body : Int → σ → σ) : Nat → Int → σ → σ
  | 0, _, s => s
  | n + 1, x, s => forLoopAux body n (x + 1) (body x s)

/-- The loop `for ( x = lo; x < hi; x++ ) body`, as a state transformer. -/
def forLoop {σ : Type} (lo hi : Int) (body : Int → σ → σ) (s : σ) : σ :=
  forLoopAux body (hi - lo).toNat lo s

/-! ## Vector utilities (lines 435-455) -/

/-- Component-wise difference `v1 - v2`. -/
def v3d_subtract {α : Type} [LinearOrderedField α] (v1 v2 : DeVAS_XYZ α) : DeVAS_XYZ α :=
  { X := v1.X - v2.X, Y := v1.Y - v2.Y, Z := v1.Z - v2.Z }

/-- Dot product of two vectors. -/
def v3d_dotprod {α : Type} [LinearOrderedField α] (v1 v2 : DeVAS_XYZ α) : α :=
  (v1.X * v2.X) + (v1.Y * v2.Y) + (v1.Z * v2.Z)

/-! ## Position-deviation filter (lines 200-305) -/

/-- Lines 260-282: `total_deviation` after the two offset loops at the centre
pixel `(row, col)`. -/
def position_total_deviation {α : Type} [LinearOrderedField α] (half_patch_size : Int)
    (position surface_normal : DeVAS_image (DeVAS_XYZ α)) (row col : Int) : α :=
  let center_position := position.data row col
  let center_normal := surface_normal.data row col
  forLoop (-half_patch_size) (half_patch_size + 1) (fun i total_deviation =>
    forLoop (-half_patch_size) (half_patch_size + 1) (fun j total_deviation =>
      let deviation_vector :=
        v3d_subtract (position.data (row + i) (col + j)) center_position
      let deviation := v3d_dotprod center_normal deviation_vector
      total_deviation + deviation) total_deviation) 0

/-- Lines 267-278: the value `deviation` that one pass of the inner offset loop
adds to `total_deviation`, at the centre pixel `(row, col)` and offset `(i, j)`. -/
def position_deviation_term {α : Type} [LinearOrderedField α]
    (position surface_normal : DeVAS_image (DeVAS_XYZ α)) (row col i j : Int) : α :=
  let center_position := position.data row col
  let center_normal := surface_normal.data row col
  let deviation_vector :=
    v3d_subtract (position.data (row + i) (col + j)) center_position
  v3d_dotprod center_normal deviation_vector

/-- The function `compute_position_deviation`.  The quotient of lines 295-296 is the
quotient of the field: it is formed only when `total_deviation < 0.0`, which
needs a patch of more than one pixel, and then the divisor is not zero for a
patch size in the range of `int`. -/
def compute_position_deviation {α : Type} [LinearOrderedField α] (fresh : Int → Int → α)
    (position_patch_size : Int) (position surface_normal : DeVAS_image (DeVAS_XYZ α)) :
    Except ExitFailure (DeVAS_image α) :=
  let n_rows := position.n_rows
  let n_cols := position.n_cols
  if !DeVAS_image_samesize position surface_normal then
    .error .cpd_size_mismatch
  else if position_patch_size > imin n_rows n_cols then
    .error .cpd_patch_exceeds
  else if position_patch_size.tmod 2 ≠ 1 then
    .error .cpd_patch_not_odd
  else
    let position_deviation :=
      DeVAS_float_image_setvalue (DeVAS_image_new fresh n_rows n_cols) 0
    let half_patch_size := (position_patch_size - 1).tdiv 2
    .ok (forLoop half_patch_size (n_rows - half_patch_size) (fun row position_deviation =>
      forLoop half_patch_size (n_cols - half_patch_size) (fun col position_deviation =>
        let total_deviation :=
          position_total_deviation half_patch_size position surface_normal row col
        if total_deviation < 0 then
          position_deviation.set row col
            (-total_deviation /
              ((int_mul half_patch_size position_patch_size : Int) : α))
        else
          position_deviation.set row col 0) position_deviation) position_deviation)

/-! ## Orientation-deviation filter (lines 307-411) -/

/-- The argument handed to `acos` in lines 368-374 and 381-385:
`fmin ( v3d_dotprod ( n1, n2 ), 1.0 )`. -/
def acos_argument {α : Type} [LinearOrderedField α] (n1 n2 : DeVAS_XYZ α) : α :=
  min (v3d_dotprod n1 n2) 1

/-- The expression `radian2degree ( acos ( fmin ( v3d_dotprod ( n1, n2 ), 1.0 ) ) )`.
`acos` is the C library function and `radian2degree` a macro of `devas-utils.h`
(not in the sources); both are arguments. -/
def deviation_angle {α : Type} [LinearOrderedField α] (acos radian2degree : α → α)
    (n1 n2 : DeVAS_XYZ α) : α :=
  radian2degree (acos (min (v3d_dotprod n1 n2) 1))

/-- Lines 355-388: `total_deviation` after the loops over the pairs of opposite
offsets at the centre pixel `(row, col)`. -/
def orientation_total_deviation {α : Type} [LinearOrderedField α]
    (acos radian2degree : α → α) (half_patch_size : Int)
    (surface_normal : DeVAS_image (DeVAS_XYZ α)) (row col : Int) : α :=
  let total_deviation : α :=
    forLoop (-half_patch_size) 0 (fun i total_deviation =>
      forLoop (-half_patch_size) (half_patch_size + 1) (fun j total_deviation =>
        total_deviation + deviation_angle acos radian2degree
          (surface_normal.data (row + i) (col + j))
          (surface_normal.data (row - i) (col - j))) total_deviation) 0
  forLoop (-half_patch_size) 0 (fun j total_deviation =>
    total_deviation + deviation_angle acos radian2degree
      (surface_normal.data row (col + j))
      (surface_normal.data row (col - j))) total_deviation

/-- Lines 357-388, instrumented: the loops of `orientation_total_deviation` with
the accumulator replaced by the trace of the comparisons.  Each pass appends the
offset `(i, j)` of the first normal of the compared pair (the second normal is
at the offset `(-i, -j)`); the passes of the last loop are on the centre row,
`i = 0`. -/
def orientation_compared_offsets (half_patch_size : Int) : List (Int × Int) :=
  let trace : List (Int × Int) :=
    forLoop (-half_patch_size) 0 (fun i trace =>
      forLoop (-half_patch_size) (half_patch_size + 1) (fun j trace =>
        trace ++ [(i, j)]) trace) []
  forLoop (-half_patch_size) 0 (fun j trace => trace ++ [(0, j)]) trace

/-- The function `compute_orientation_deviation` (`SMOOTH_ORIENTATION` is not
defined, so the field is returned unsmoothed).  The quotient of lines 391-393 is
formed at every interior pixel; at patch size 1 its divisor is zero, and the
stored value is `div_by_zero` of the sum. -/
def compute_orientation_deviation {α : Type} [LinearOrderedField α]
    (div_by_zero acos radian2degree : α → α) (fresh : Int → Int → α)
    (orientation_patch_size : Int) (surface_normal : DeVAS_image (DeVAS_XYZ α)) :
    Except ExitFailure (DeVAS_image α) :=
  let n_rows := surface_normal.n_rows
  let n_cols := surface_normal.n_cols
  if orientation_patch_size > imin n_rows n_cols then
    .error .cod_patch_exceeds
  else if orientation_patch_size.tmod 2 ≠ 1 then
    .error .cod_patch_not_odd
  else
    let orientation_deviation :=
      DeVAS_float_image_setvalue (DeVAS_image_new fresh n_rows n_cols) 0
    let half_patch_size := (orientation_patch_size - 1).tdiv 2
    .ok (forLoop half_patch_size (n_rows - half_patch_size) (fun row orientation_deviation =>
      forLoop half_patch_size (n_cols - half_patch_size) (fun col orientation_deviation =>
        let total_deviation :=
          orientation_total_deviation acos radian2degree half_patch_size surface_normal
            row col
        orientation_deviation.set row col
          (double_div div_by_zero total_deviation
            ((int_mul (int_add orientation_patch_size 1) half_patch_size : Int) : α)))
        orientation_deviation) orientation_deviation)

/-! ## Mask combiner (lines 457-484) -/

/-- The C expression `a || b` on pixel values: 1 when either operand is non-zero,
0 otherwise. -/
def logical_or (a b : Nat) : Nat := if a ≠ 0 ∨ b ≠ 0 then 1 else 0

/-- The function `DeVAS_gray_or`.  Gray pixels are unsigned 8-bit values, held
in `Nat`. -/
def DeVAS_gray_or (fresh : Int → Int → Nat) (i1 i2 : DeVAS_image Nat) :
    Except ExitFailure (DeVAS_image Nat) :=
  if !DeVAS_image_samesize i1 i2 then
    .error .gray_or_size_mismatch
  else
    let n_rows := i1.n_rows
    let n_cols := i1.n_cols
    let new := DeVAS_image_new fresh n_rows n_cols
    .ok (forLoop 0 n_rows (fun row new =>
      forLoop 0 n_cols (fun col new =>
        new.set row col (logical_or (i1.data row col) (i2.data row col))) new) new)

/-! ## Orchestrator (lines 45-198) -/

/-- Lines 99-152 of `geometry_discontinuities`: the sanity check of the
arguments. -/
def geometry_discontinuities_sanity_check {α : Type} (xyz : DeVAS_image (DeVAS_XYZ α))
    (dist : DeVAS_image α) (nor : DeVAS_image (DeVAS_XYZ α))
    (position_patch_size orientation_patch_size : Int) : Except ExitFailure Unit :=
  if !DeVAS_image_samesize xyz dist || !DeVAS_image_samesize xyz nor then
    .error .gd_size_mismatch
  else if position_patch_size < 3 then
    .error .gd_position_patch_lt_3
  else if orientation_patch_size < 3 then
    .error .gd_orientation_patch_lt_3
  else if position_patch_size.tmod 2 ≠ 1 then
    .error .gd_position_patch_not_odd
  else if orientation_patch_size.tmod 2 ≠ 1 then
    .error .gd_orientation_patch_not_odd
  else
    let min_image_size := if xyz.n_rows < xyz.n_cols then xyz.n_rows else xyz.n_cols
    if position_patch_size > min_image_size then
      .error .gd_position_patch_exceeds
    else if orientation_patch_size > min_image_size then
      .error .gd_orientation_patch_exceeds
    else
      .ok ()

/-- The function `geometry_discontinuities`.  The operator
`find_directional_maxima` and the constant `DMAX_PATCH_SIZE` come from
`directional-maxima.h` (not in the sources) and are arguments, like `acos`,
`radian2degree` and `div_by_zero` of the orientation filter; `coordinates` is
an argument that the body never reads.  The buffers allocated for the two
deviation fields and for the combined mask start from `fresh_float` and
`fresh_gray`. -/
def geometry_discontinuities {α : Type} [LinearOrderedField α]
    (div_by_zero acos radian2degree : α → α) (fresh_float : Int → Int → α)
    (fresh_gray : Int → Int → Nat)
    (find_directional_maxima : Int → Int → DeVAS_image α → DeVAS_image Nat)
    (DMAX_PATCH_SIZE : Int) (_coordinates : DeVAS_coordinates α)
    (xyz : DeVAS_image (DeVAS_XYZ α)) (dist : DeVAS_image α)
    (nor : DeVAS_image (DeVAS_XYZ α))
    (position_patch_size orientation_patch_size : Int)
    (position_threshold orientation_threshold : Int) :
    Except ExitFailure (DeVAS_image Nat) := do
  geometry_discontinuities_sanity_check xyz dist nor position_patch_size
    orientation_patch_size
  let position_deviations ←
    compute_position_deviation fresh_float position_patch_size xyz nor
  let position_discontinuities :=
    find_directional_maxima DMAX_PATCH_SIZE position_threshold position_deviations
  let orientation_deviations ←
    compute_orientation_deviation div_by_zero acos radian2degree fresh_float
      orientation_patch_size nor
  let orientation_discontinuities :=
    find_directional_maxima DMAX_PATCH_SIZE orientation_threshold orientation_deviations
  DeVAS_gray_or fresh_gray position_discontinuities orientation_discontinuities

/-! ## Units (`read-geometry.c`, lines 26-29, 868-886 and 947-989) -/

/-- Lines 868-886 of `DeVAS_coordinates_from_file`: the chain of `strcmp` tests
that turns `units_string` into the unit and its conversion factor
(`CENTIMETERS_TO_CENTIMETERS` 1.0, `METERS_TO_CENTIMETERS` 100.0,
`INCHES_TO_CENTIMETERS` 2.54, `FEET_TO_CENTIMETERS` 30.48). -/
def DeVAS_coordinates_from_file_units {α : Type} [LinearOrderedField α]
    (units_string : String) : Except ExitFailure (DeVAS_coordinates α) :=
  if units_string = "centimeters" then
    .ok { units := .centimeters, convert_to_centimeters := 1.0 }
  else if units_string = "meters" then
    .ok { units := .meters, convert_to_centimeters := 100.0 }
  else if units_string = "inches" then
    .ok { units := .inches, convert_to_centimeters := 2.54 }
  else if units_string = "feet" then
    .ok { units := .feet, convert_to_centimeters := 30.48 }
  else
    .error .invalid_units

/-- The function `standard_units_3D`; the image is updated in place, the
updated image is the result. -/
def standard_units_3D {α : Type} [LinearOrderedField α]
    (threeDgeom : DeVAS_image (DeVAS_XYZ α)) (coordinates : DeVAS_coordinates α) :
    DeVAS_image (DeVAS_XYZ α) :=
  let conversion := coordinates.convert_to_centimeters
  forLoop 0 threeDgeom.n_rows (fun row threeDgeom =>
    forLoop 0 threeDgeom.n_cols (fun col threeDgeom =>
      let threeDgeom := threeDgeom.set row col
        { threeDgeom.data row col with X := (threeDgeom.data row col).X * conversion }
      let threeDgeom := threeDgeom.set row col
        { threeDgeom.data row col with Y := (threeDgeom.data row col).Y * conversion }
      threeDgeom.set row col
        { threeDgeom.data row col with Z := (threeDgeom.data row col).Z * conversion })
      threeDgeom) threeDgeom

/-- The function `standard_units_1D`; the image is updated in place, the
updated image is the result. -/
def standard_units_1D {α : Type} [LinearOrderedField α]
    (oneDgeom : DeVAS_image α) (coordinates : DeVAS_coordinates α) : DeVAS_image α :=
  let conversion := coordinates.convert_to_centimeters
  forLoop 0 oneDgeom.n_rows (fun row oneDgeom =>
    forLoop 0 oneDgeom.n_cols (fun col oneDgeom =>
      oneDgeom.set row col (oneDgeom.data row col * conversion)) oneDgeom) oneDgeom

/-! ## Sample scenes -/

/-- A descriptor for a scene measured in feet. -/
def feet_coordinates : DeVAS_coordinates ℚ :=
  { units := .feet, convert_to_centimeters := 30.48 }

/-- A descriptor for a scene measured in meters. -/
def meters_coordinates : DeVAS_coordinates ℚ :=
  { units := .meters, convert_to_centimeters := 100.0 }


/-- The field of the same dimensions whose pixel is `f` of the pixel of `img`:
the scaled, translated and negated scenes are fields of this form. -/
def map_pixels {β γ : Type} (f : β → γ) (img : DeVAS_image β) : DeVAS_image γ :=
  { n_rows := img.n_rows, n_cols := img.n_cols, data := fun r c => f (img.data r c) }

/-- A 3x3 position field on the plane `z = 0`: pixel `(r, c)` holds `(c, r, 0)`. -/
def flat_position : DeVAS_image (DeVAS_XYZ ℚ) :=
  { n_rows := 3, n_cols := 3, data := fun r c => { X := (c : ℚ), Y := (r : ℚ), Z := 0 } }

/-- A 3x3 normal field holding `(0, 0, 1)` at every pixel. -/
def up_normal : DeVAS_image (DeVAS_XYZ ℚ) :=
  { n_rows := 3, n_cols := 3, data := fun _ _ => { X := 0, Y := 0, Z := 1 } }

/-- A 3x3 normal field over the reals holding `(0, 0, 1)` at every pixel. -/
def up_normal_real : DeVAS_image (DeVAS_XYZ ℝ) :=
  { n_rows := 3, n_cols := 3, data := fun _ _ => { X := 0, Y := 0, Z := 1 } }

/-- The 5x5 position field of the occlusion scenario: the plane `z = 0` with the
centre pixel `(2, 2)` moved to `z = -10`; the `X` and `Y` components are the
arbitrary `x` and `y`. -/
def bump_position {α : Type} [LinearOrderedField α] (x y : Int → Int → α) :
    DeVAS_image (DeVAS_XYZ α) :=
  { n_rows := 5, n_cols := 5,
    data := fun r c => { X := x r c, Y := y r c, Z := if r = 2 ∧ c = 2 then -10 else 0 } }

/-- The 5x5 normal field holding `(0, 0, 1)` at every pixel. -/
def up_normal_5x5 {α : Type} [LinearOrderedField α] : DeVAS_image (DeVAS_XYZ α) :=
  { n_rows := 5, n_cols := 5, data := fun _ _ => { X := 0, Y := 0, Z := 1 } }

/-- The 5x5 normal field of the crease scenario: columns `< s` hold `A`, columns
`>= s` hold `B`. -/
def split_normal {α : Type} [LinearOrderedField α] (A B : DeVAS_XYZ α) (s : Int) :
    DeVAS_image (DeVAS_XYZ α) :=
  { n_rows := 5, n_cols := 5, data := fun _ c => if c < s then A else B }

/-- The 1x1 position field whose single pixel holds `(1, 1, 1)`. -/
def single_pixel {α : Type} [LinearOrderedField α] : DeVAS_image (DeVAS_XYZ α) :=
  { n_rows := 1, n_cols := 1, data := fun _ _ => { X := 1, Y := 1, Z := 1 } }

/-- A 3x3 distance field holding 1 at every pixel. -/
def unit_dist : DeVAS_image ℚ :=
  { n_rows := 3, n_cols := 3, data := fun _ _ => 1 }

/-- A 3x3 distance field holding 500 at every pixel. -/
def far_dist : DeVAS_image ℚ :=
  { n_rows := 3, n_cols := 3, data := fun _ _ => 500 }

/-- A stand-in for the external maxima operator: the all-FALSE mask of the
dimensions of its input. -/
def no_maxima (_patch_size _threshold : Int) (field : DeVAS_image ℚ) : DeVAS_image Nat :=
  { n_rows := field.n_rows, n_cols := field.n_cols, data := fun _ _ => 0 }

/-- A 2x2 mask that is TRUE (1) at `(0, 0)` only. -/
def mask_a : DeVAS_image Nat :=
  { n_rows := 2, n_cols := 2, data := fun r c => if r = 0 ∧ c = 0 then 1 else 0 }

/-- A 2x2 mask that is TRUE (255) on its first row. -/
def mask_b : DeVAS_image Nat :=
  { n_rows := 2, n_cols := 2, data := fun r _ => if r = 0 then 255 else 0 }

/-- The all-FALSE mask of the given dimensions. -/
def zero_mask (n_rows n_cols : Int) : DeVAS_image Nat :=
  { n_rows := n_rows, n_cols := n_cols, data := fun _ _ => 0 }

/-- A 1x1 mask whose pixel holds 255. -/
def white_mask : DeVAS_image Nat :=
  { n_rows := 1, n_cols := 1, data := fun _ _ => 255 }

/-- The 65537x65537 position field of the scenario at patch size 65537: the
plane `z = 0` with the pixel `(32768, 32769)`, the right-hand neighbour of the
centre pixel `(32768, 32768)`, moved to `z = -1`. -/
def dent_position_65537 {α : Type} [LinearOrderedField α] : DeVAS_image (DeVAS_XYZ α) :=
  { n_rows := 65537, n_cols := 65537,
    data := fun r c => { X := 0, Y := 0, Z := if r = 32768 ∧ c = 32769 then -1 else 0 } }

/-- The 65537x65537 normal field holding `n` at every pixel. -/
def constant_normal_65537 {α : Type} [LinearOrderedField α] (n : DeVAS_XYZ α) :
    DeVAS_image (DeVAS_XYZ α) :=
  { n_rows := 65537, n_cols := 65537, data := fun _ _ => n }

/-- The 65537x65537 normal field of a crease through the centre column: columns
`< 32768` hold `A`, columns `>= 32768` hold `B`. -/
def split_normal_65537 {α : Type} [LinearOrderedField α] (A B : DeVAS_XYZ α) :
    DeVAS_image (DeVAS_XYZ α) :=
  { n_rows := 65537, n_cols := 65537, data := fun _ c => if c < 32768 then A else B }

/-! ## Loop lemmas -/

/-- Invariant rule for the iterations of a counting loop. -/
theorem forLoopAux_inv {σ : Type} (body : Int → σ → σ) (P : Int → σ → Prop) :
    ∀ (n : Nat) (x : Int) (s : σ), P x s →
      (∀ y t, x ≤ y → y < x + n → P y t → P (y + 1) (body y t)) →
      P (x + n) (forLoopAux body n x s) := by
  intro n
  induction n with
  | zero =>
    intro x s h0 _
    simpa [forLoopAux] using h0
  | succ k ih =>
    intro x s h0 hstep
    have h1 : P (x + 1) (body x s) := hstep x s le_rfl (by push_cast; omega) h0
    have h2 := ih (x + 1) (body x s) h1 (fun y t hy1 hy2 hP =>
      hstep y t (by omega) (by push_cast; omega) hP)
    have e : x + ((k + 1 : Nat) : Int) = x + 1 + (k : Int) := by push_cast; ring
    rw [e]
    exact h2

/-- Invariant rule for `for ( x = lo; x < hi; x++ )` when the range is not
empty or is exactly empty. -/
theorem forLoop_inv {σ : Type} (lo hi : Int) (body : Int → σ → σ) (s : σ)
    (P : Int → σ → Prop) (hle : lo ≤ hi) (h0 : P lo s)
    (hstep : ∀ y t, lo ≤ y → y < hi → P y t → P (y + 1) (body y t)) :
    P hi (forLoop lo hi body s) := by
  have e : lo + (((hi - lo).toNat : Nat) : Int) = hi := by
    rw [Int.toNat_of_nonneg (by omega)]; ring
  have h := forLoopAux_inv body P (hi - lo).toNat lo s h0 (fun y t hy1 hy2 hP =>
    hstep y t hy1 (by rw [e] at hy2; exact hy2) hP)
  rw [e] at h
  exact h

/-- A loop whose upper bound does not exceed its start runs no iteration. -/
theorem forLoop_empty {σ : Type} (lo hi : Int) (body : Int → σ → σ) (s : σ)
    (h : hi ≤ lo) : forLoop lo hi body s = s := by
  have e : (hi - lo).toNat = 0 := by
    apply Int.toNat_eq_zero.mpr; omega
  simp [forLoop, e, forLoopAux]

/-- A state property kept by every iteration holds after the loop. -/
theorem forLoop_preserves {σ : Type} (lo hi : Int) (body : Int → σ → σ) (s : σ)
    (Q : σ → Prop) (h0 : Q s)
    (hstep : ∀ y t, lo ≤ y → y < hi → Q t → Q (body y t)) :
    Q (forLoop lo hi body s) := by
  rcases le_or_lt lo hi with hle | hlt
  · exact forLoop_inv lo hi body s (fun _ t => Q t) hle h0 hstep
  · rw [forLoop_empty lo hi body s (le_of_lt hlt)]
    exact h0

/-- One scan line: the loop over `col` that stores `f col` at `(row, col)`. -/
theorem forLoop_set_row {β : Type} (f : Int → β) (row c0 c1 : Int) (img : DeVAS_image β) :
    (forLoop c0 c1 (fun col im => im.set row col (f col)) img).n_rows = img.n_rows ∧
    (forLoop c0 c1 (fun col im => im.set row col (f col)) img).n_cols = img.n_cols ∧
    ∀ r c, (forLoop c0 c1 (fun col im => im.set row col (f col)) img).data r c =
      if r = row ∧ c0 ≤ c ∧ c < c1 then f c else img.data r c := by
  rcases le_or_lt c0 c1 with hle | hlt
  · refine forLoop_inv c0 c1 _ img (fun y t => t.n_rows = img.n_rows ∧
      t.n_cols = img.n_cols ∧ ∀ r c, t.data r c =
        if r = row ∧ c0 ≤ c ∧ c < y then f c else img.data r c) hle ?_ ?_
    · refine ⟨rfl, rfl, ?_⟩
      intro r c
      have : ¬ (r = row ∧ c0 ≤ c ∧ c < c0) := by omega
      simp [this]
    · rintro y t hy1 hy2 ⟨hr, hc, hd⟩
      refine ⟨hr, hc, ?_⟩
      intro r c
      simp only [DeVAS_image.set, hd]
      by_cases h1 : r = row ∧ c = y
      · obtain ⟨h1a, h1b⟩ := h1
        subst h1a h1b
        have : c0 ≤ c ∧ c < c + 1 := by omega
        simp [this]
      · rw [if_neg h1]
        by_cases h2 : r = row ∧ c0 ≤ c ∧ c < y
        · have : r = row ∧ c0 ≤ c ∧ c < y + 1 := by omega
          rw [if_pos h2, if_pos this]
        · have : ¬ (r = row ∧ c0 ≤ c ∧ c < y + 1) := by
            rintro ⟨a, b, c'⟩
            rcases eq_or_lt_of_le (Int.lt_add_one_iff.mp c') with h3 | h3
            · exact h1 ⟨a, h3⟩
            · exact h2 ⟨a, b, h3⟩
          rw [if_neg h2, if_neg this]
  · rw [forLoop_empty c0 c1 _ img (le_of_lt hlt)]
    refine ⟨rfl, rfl, ?_⟩
    intro r c
    have : ¬ (r = row ∧ c0 ≤ c ∧ c < c1) := by omega
    simp [this]

/-- The raster scan: the loop over `row` and `col` that stores `f row col` at
every pixel of the rectangle and leaves every other pixel as it was. -/
theorem forLoop_set_rect {β : Type} (f : Int → Int → β) (r0 r1 c0 c1 : Int)
    (img : DeVAS_image β) :
    (forLoop r0 r1 (fun row im =>
      forLoop c0 c1 (fun col im => im.set row col (f row col)) im) img).n_rows
        = img.n_rows ∧
    (forLoop r0 r1 (fun row im =>
      forLoop c0 c1 (fun col im => im.set row col (f row col)) im) img).n_cols
        = img.n_cols ∧
    ∀ r c, (forLoop r0 r1 (fun row im =>
      forLoop c0 c1 (fun col im => im.set row col (f row col)) im) img).data r c =
      if r0 ≤ r ∧ r < r1 ∧ c0 ≤ c ∧ c < c1 then f r c else img.data r c := by
  rcases le_or_lt r0 r1 with hle | hlt
  · refine forLoop_inv r0 r1 _ img (fun y t => t.n_rows = img.n_rows ∧
      t.n_cols = img.n_cols ∧ ∀ r c, t.data r c =
        if r0 ≤ r ∧ r < y ∧ c0 ≤ c ∧ c < c1 then f r c else img.data r c) hle ?_ ?_
    · refine ⟨rfl, rfl, ?_⟩
      intro r c
      have : ¬ (r0 ≤ r ∧ r < r0 ∧ c0 ≤ c ∧ c < c1) := by omega
      simp [this]
    · rintro y t hy1 hy2 ⟨hr, hc, hd⟩
      obtain ⟨h1, h2, h3⟩ := forLoop_set_row (f y) y c0 c1 t
      refine ⟨h1.trans hr, h2.trans hc, ?_⟩
      intro r c
      rw [h3, hd]
      by_cases ha : r = y ∧ c0 ≤ c ∧ c < c1
      · have : r0 ≤ r ∧ r < y + 1 ∧ c0 ≤ c ∧ c < c1 := by omega
        rw [if_pos ha, if_pos this, ha.1]
      · rw [if_neg ha]
        by_cases hb : r0 ≤ r ∧ r < y ∧ c0 ≤ c ∧ c < c1
        · have : r0 ≤ r ∧ r < y + 1 ∧ c0 ≤ c ∧ c < c1 := by omega
          rw [if_pos hb, if_pos this]
        · have : ¬ (r0 ≤ r ∧ r < y + 1 ∧ c0 ≤ c ∧ c < c1) := by omega
          rw [if_neg hb, if_neg this]
  · rw [forLoop_empty r0 r1 _ img (le_of_lt hlt)]
    refine ⟨rfl, rfl, ?_⟩
    intro r c
    have : ¬ (r0 ≤ r ∧ r < r1 ∧ c0 ≤ c ∧ c < c1) := by omega
    simp [this]

/-! ## The filters as pixel-wise specifications -/

/-- The dot product distributes over `v3d_subtract`. -/
theorem v3d_dotprod_subtract {α : Type} [LinearOrderedField α] (n a b : DeVAS_XYZ α) :
    v3d_dotprod n (v3d_subtract a b) = v3d_dotprod n a - v3d_dotprod n b := by
  simp only [v3d_dotprod, v3d_subtract]
  ring

/-- The truncating remainder by 2 of a negative `int` is never positive. -/
theorem tmod_two_of_neg {p : Int} (hp : p < 0) : p.tmod 2 = -((-p) % 2) := by
  have h1 := Int.tmod_add_tdiv p 2
  have h2 : p.tdiv 2 = -((-p).tdiv 2) := by rw [← Int.neg_tdiv]; simp
  have h3 : (-p).tdiv 2 = (-p) / 2 := Int.tdiv_eq_ediv (by omega) (by norm_num)
  omega

/-- The test `( p % 2 ) != 1` of the C code passes exactly the positive odd
values. -/
theorem tmod_two_eq_one_iff (p : Int) : p.tmod 2 = 1 ↔ 0 < p ∧ p % 2 = 1 := by
  rcases lt_or_le p 0 with hneg | hpos
  · rw [tmod_two_of_neg hneg]
    omega
  · rw [Int.tmod_eq_emod hpos (by norm_num)]
    omega

/-- A patch size that passes the oddness check is at least 1, and the half patch
size is then non-negative with `patch_size = 2 * half_patch_size + 1`. -/
theorem half_patch_of_tmod {p : Int} (h : p.tmod 2 = 1) :
    0 ≤ (p - 1).tdiv 2 ∧ p = 2 * (p - 1).tdiv 2 + 1 := by
  obtain ⟨hp, h2⟩ := (tmod_two_eq_one_iff p).mp h
  have h3 : (p - 1).tdiv 2 = (p - 1) / 2 := Int.tdiv_eq_ediv (by omega) (by norm_num)
  rw [h3]
  omega

/-- A value in the range of `int` is stored unchanged. -/
theorem int_wrap_of_fits (x : Int) (h1 : -2 ^ 31 ≤ x) (h2 : x < 2 ^ 31) : int_wrap x = x := by
  unfold int_wrap
  omega

/-- The stored value is zero exactly for the multiples of `2 ^ 32`. -/
theorem int_wrap_eq_zero_iff (x : Int) : int_wrap x = 0 ↔ (2 : Int) ^ 32 ∣ x := by
  unfold int_wrap
  omega

/-- The stored value differs from the arithmetic result by a multiple of
`2 ^ 32`. -/
theorem int_wrap_sub_dvd (x : Int) : (2 : Int) ^ 32 ∣ int_wrap x - x := by
  unfold int_wrap
  omega

/-- Up to patch size 65535 the divisor `half_patch_size * position_patch_size`
of line 296 fits in `int`. -/
theorem position_divisor_fits (p : Int) (hodd : p.tmod 2 = 1) (hmax : p ≤ 65535) :
    int_mul ((p - 1).tdiv 2) p = (p - 1).tdiv 2 * p := by
  obtain ⟨h0, hp2⟩ := half_patch_of_tmod hodd
  have h1 : (p - 1).tdiv 2 ≤ 32767 := by omega
  have hp : 0 ≤ p := by omega
  have : (p - 1).tdiv 2 * p ≤ 32767 * 65535 := Int.mul_le_mul h1 hmax hp (by norm_num)
  have : 0 ≤ (p - 1).tdiv 2 * p := Int.mul_nonneg h0 hp
  unfold int_mul
  apply int_wrap_of_fits <;> omega

/-- Up to patch size 65535 the divisor
`( orientation_patch_size + 1 ) * half_patch_size` of lines 392-393 fits in
`int`. -/
theorem orientation_divisor_fits (p : Int) (hodd : p.tmod 2 = 1) (hmax : p ≤ 65535) :
    int_mul (int_add p 1) ((p - 1).tdiv 2) = (p + 1) * ((p - 1).tdiv 2) := by
  obtain ⟨h0, hp2⟩ := half_patch_of_tmod hodd
  have h1 : (p - 1).tdiv 2 ≤ 32767 := by omega
  have hp : 0 ≤ p + 1 := by omega
  have hq : p + 1 ≤ 65536 := by omega
  have : (p + 1) * ((p - 1).tdiv 2) ≤ 65536 * 32767 := Int.mul_le_mul hq h1 h0 (by norm_num)
  have : 0 ≤ (p + 1) * ((p - 1).tdiv 2) := Int.mul_nonneg hp h0
  have ha : int_add p 1 = p + 1 := by
    unfold int_add
    apply int_wrap_of_fits <;> omega
  rw [ha]
  unfold int_mul
  apply int_wrap_of_fits <;> omega

/-- For every odd patch size from 3 on that is an `int`, the divisor of line 296
as the code forms it is not zero, also where the product has left the range of
`int`. -/
theorem position_divisor_ne_zero (p : Int) (h3 : 3 ≤ p) (hodd : p.tmod 2 = 1)
    (hmax : p < 2 ^ 31) : int_mul ((p - 1).tdiv 2) p ≠ 0 := by
  obtain ⟨h0, hp2⟩ := half_patch_of_tmod hodd
  generalize (p - 1).tdiv 2 = h at h0 hp2
  intro hz
  unfold int_mul at hz
  rw [int_wrap_eq_zero_iff] at hz
  have hc : IsCoprime ((2 : Int) ^ 32) p := by
    apply IsCoprime.pow_left
    exact ⟨-h, 1, by rw [hp2]; ring⟩
  have := hc.dvd_of_dvd_mul_right hz
  omega

/-- For every odd patch size from 3 on that is an `int`, the divisor of lines
392-393 as the code forms it is not zero, also where the sum or the product has
left the range of `int`. -/
theorem orientation_divisor_ne_zero (p : Int) (h3 : 3 ≤ p) (hodd : p.tmod 2 = 1)
    (hmax : p < 2 ^ 31) : int_mul (int_add p 1) ((p - 1).tdiv 2) ≠ 0 := by
  obtain ⟨h0, hp2⟩ := half_patch_of_tmod hodd
  generalize (p - 1).tdiv 2 = h at h0 hp2
  intro hz
  unfold int_mul at hz
  rw [int_wrap_eq_zero_iff] at hz
  have h1 : (2 : Int) ^ 32 ∣ (int_add p 1 - (p + 1)) * h :=
    Dvd.dvd.mul_right (int_wrap_sub_dvd (p + 1)) h
  have h2 : (2 : Int) ^ 32 ∣ (p + 1) * h := by
    have hsub := Int.dvd_sub hz h1
    have e : int_add p 1 * h - (int_add p 1 - (p + 1)) * h = (p + 1) * h := by ring
    rwa [e] at hsub
  have h4 : (2 : Int) ^ 31 ∣ (h + 1) * h := by
    have e : (p + 1) * h = 2 * ((h + 1) * h) := by rw [hp2]; ring
    rw [e] at h2
    have e2 : (2 : Int) ^ 32 = 2 * 2 ^ 31 := by norm_num
    rw [e2] at h2
    exact Int.dvd_of_mul_dvd_mul_left (by norm_num) h2
  rcases Int.even_or_odd h with he | ho
  · have hc : IsCoprime ((2 : Int) ^ 31) (h + 1) := by
      apply IsCoprime.pow_left
      obtain ⟨m, hm⟩ := he
      exact ⟨-m, 1, by rw [hm]; ring⟩
    have := hc.dvd_of_dvd_mul_left h4
    omega
  · have hc : IsCoprime ((2 : Int) ^ 31) h := by
      apply IsCoprime.pow_left
      obtain ⟨m, hm⟩ := ho
      exact ⟨-m, 1, by rw [hm]; ring⟩
    have := hc.dvd_of_dvd_mul_right h4
    omega

/-- When its three checks pass, `compute_position_deviation` returns a field of
the input dimensions whose pixels are given by the raster scan. -/
theorem compute_position_deviation_ok {α : Type} [LinearOrderedField α]
    (fresh : Int → Int → α) (p : Int) (position surface_normal : DeVAS_image (DeVAS_XYZ α))
    (hs : DeVAS_image_samesize position surface_normal = true)
    (hle : p ≤ imin position.n_rows position.n_cols) (hodd : p.tmod 2 = 1) :
    ∃ out, compute_position_deviation fresh p position surface_normal = .ok out ∧
      out.n_rows = position.n_rows ∧ out.n_cols = position.n_cols ∧
      ∀ r c, out.data r c =
        if (p - 1).tdiv 2 ≤ r ∧ r < position.n_rows - (p - 1).tdiv 2 ∧
            (p - 1).tdiv 2 ≤ c ∧ c < position.n_cols - (p - 1).tdiv 2 then
          (if position_total_deviation ((p - 1).tdiv 2) position surface_normal r c < 0 then
            -position_total_deviation ((p - 1).tdiv 2) position surface_normal r c /
              ((int_mul ((p - 1).tdiv 2) p : Int) : α)
          else 0)
        else 0 := by
  have hbody : (fun (row : Int) (im : DeVAS_image α) =>
      forLoop ((p - 1).tdiv 2) (position.n_cols - (p - 1).tdiv 2)
        (fun col (im : DeVAS_image α) =>
          if position_total_deviation ((p - 1).tdiv 2) position surface_normal row col < 0 then
            im.set row col
              (-position_total_deviation ((p - 1).tdiv 2) position surface_normal row col /
                ((int_mul ((p - 1).tdiv 2) p : Int) : α))
          else im.set row col 0) im) =
      (fun (row : Int) (im : DeVAS_image α) =>
      forLoop ((p - 1).tdiv 2) (position.n_cols - (p - 1).tdiv 2)
        (fun col (im : DeVAS_image α) => im.set row col
          (if position_total_deviation ((p - 1).tdiv 2) position surface_normal row col < 0 then
            -position_total_deviation ((p - 1).tdiv 2) position surface_normal row col /
              ((int_mul ((p - 1).tdiv 2) p : Int) : α)
          else 0)) im) := by
    funext row im
    congr 1
    funext col im2
    split_ifs <;> rfl
  obtain ⟨h1, h2, h3⟩ := forLoop_set_rect
    (fun r c => if position_total_deviation ((p - 1).tdiv 2) position surface_normal r c < 0
      then -position_total_deviation ((p - 1).tdiv 2) position surface_normal r c /
        ((int_mul ((p - 1).tdiv 2) p : Int) : α) else 0)
    ((p - 1).tdiv 2) (position.n_rows - (p - 1).tdiv 2)
    ((p - 1).tdiv 2) (position.n_cols - (p - 1).tdiv 2)
    (DeVAS_float_image_setvalue (DeVAS_image_new fresh position.n_rows position.n_cols) 0)
  simp only [compute_position_deviation, hs, Bool.not_true, Bool.false_eq_true, if_false,
    gt_iff_lt, not_lt.mpr hle, hodd, ne_eq, not_true_eq_false]
  rw [hbody]
  refine ⟨_, rfl, h1, h2, ?_⟩
  intro r c
  rw [h3]
  rfl

/-- With a divisor other than zero, `double_div` is the quotient of the field. -/
theorem double_div_of_ne {α : Type} [LinearOrderedField α] (div_by_zero : α → α) (x y : α)
    (hy : y ≠ 0) : double_div div_by_zero x y = x / y :=
  if_neg hy

/-- With the divisor zero, `double_div` is the value `div_by_zero` of the
dividend. -/
theorem double_div_zero {α : Type} [LinearOrderedField α] (div_by_zero : α → α) (x : α) :
    double_div div_by_zero x 0 = div_by_zero x :=
  if_pos rfl

/-- The divisor of lines 392-393, converted to `double`, is not zero for an odd
patch size from 3 on that is an `int`. -/
theorem orientation_divisor_cast_ne_zero {α : Type} [LinearOrderedField α] (p : Int)
    (h3 : 3 ≤ p) (hodd : p.tmod 2 = 1) (hmax : p < 2 ^ 31) :
    ((int_mul (int_add p 1) ((p - 1).tdiv 2) : Int) : α) ≠ 0 :=
  Int.cast_ne_zero.mpr (orientation_divisor_ne_zero p h3 hodd hmax)

/-- When its two checks pass, `compute_orientation_deviation` returns a field of
the input dimensions whose pixels are given by the raster scan. -/
theorem compute_orientation_deviation_ok {α : Type} [LinearOrderedField α]
    (div_by_zero acos radian2degree : α → α) (fresh : Int → Int → α) (p : Int)
    (surface_normal : DeVAS_image (DeVAS_XYZ α))
    (hle : p ≤ imin surface_normal.n_rows surface_normal.n_cols) (hodd : p.tmod 2 = 1) :
    ∃ out, compute_orientation_deviation div_by_zero acos radian2degree fresh p
        surface_normal = .ok out ∧
      out.n_rows = surface_normal.n_rows ∧ out.n_cols = surface_normal.n_cols ∧
      ∀ r c, out.data r c =
        if (p - 1).tdiv 2 ≤ r ∧ r < surface_normal.n_rows - (p - 1).tdiv 2 ∧
            (p - 1).tdiv 2 ≤ c ∧ c < surface_normal.n_cols - (p - 1).tdiv 2 then
          double_div div_by_zero
            (orientation_total_deviation acos radian2degree ((p - 1).tdiv 2) surface_normal r c)
            ((int_mul (int_add p 1) ((p - 1).tdiv 2) : Int) : α)
        else 0 := by
  obtain ⟨h1, h2, h3⟩ := forLoop_set_rect
    (fun r c => double_div div_by_zero
      (orientation_total_deviation acos radian2degree ((p - 1).tdiv 2) surface_normal r c)
      ((int_mul (int_add p 1) ((p - 1).tdiv 2) : Int) : α))
    ((p - 1).tdiv 2) (surface_normal.n_rows - (p - 1).tdiv 2)
    ((p - 1).tdiv 2) (surface_normal.n_cols - (p - 1).tdiv 2)
    (DeVAS_float_image_setvalue
      (DeVAS_image_new fresh surface_normal.n_rows surface_normal.n_cols) 0)
  simp only [compute_orientation_deviation, gt_iff_lt, not_lt.mpr hle, if_false, hodd,
    ne_eq, not_true_eq_false]
  refine ⟨_, rfl, h1, h2, ?_⟩
  intro r c
  rw [h3]
  rfl

/-- The raster scan of `compute_position_deviation` for the patch sizes up to
65535, where the divisor of line 296 is the product `half_patch_size *
position_patch_size` itself. -/
theorem compute_position_deviation_ok_fits {α : Type} [LinearOrderedField α]
    (fresh : Int → Int → α) (p : Int) (position surface_normal : DeVAS_image (DeVAS_XYZ α))
    (hs : DeVAS_image_samesize position surface_normal = true)
    (hle : p ≤ imin position.n_rows position.n_cols) (hodd : p.tmod 2 = 1)
    (hmax : p ≤ 65535) :
    ∃ out, compute_position_deviation fresh p position surface_normal = .ok out ∧
      out.n_rows = position.n_rows ∧ out.n_cols = position.n_cols ∧
      ∀ r c, out.data r c =
        if (p - 1).tdiv 2 ≤ r ∧ r < position.n_rows - (p - 1).tdiv 2 ∧
            (p - 1).tdiv 2 ≤ c ∧ c < position.n_cols - (p - 1).tdiv 2 then
          (if position_total_deviation ((p - 1).tdiv 2) position surface_normal r c < 0 then
            -position_total_deviation ((p - 1).tdiv 2) position surface_normal r c /
              ((((p - 1).tdiv 2) * p : Int) : α)
          else 0)
        else 0 := by
  have h := compute_position_deviation_ok fresh p position surface_normal hs hle hodd
  rw [position_divisor_fits p hodd hmax] at h
  exact h

/-- The raster scan of `compute_orientation_deviation` for the patch sizes from
3 to 65535, where the divisor of lines 392-393 is the product
`( orientation_patch_size + 1 ) * half_patch_size` itself and is not zero. -/
theorem compute_orientation_deviation_ok_fits {α : Type} [LinearOrderedField α]
    (div_by_zero acos radian2degree : α → α) (fresh : Int → Int → α) (p : Int)
    (surface_normal : DeVAS_image (DeVAS_XYZ α))
    (hle : p ≤ imin surface_normal.n_rows surface_normal.n_cols) (hodd : p.tmod 2 = 1)
    (h3 : 3 ≤ p) (hmax : p ≤ 65535) :
    ∃ out, compute_orientation_deviation div_by_zero acos radian2degree fresh p
        surface_normal = .ok out ∧
      out.n_rows = surface_normal.n_rows ∧ out.n_cols = surface_normal.n_cols ∧
      ∀ r c, out.data r c =
        if (p - 1).tdiv 2 ≤ r ∧ r < surface_normal.n_rows - (p - 1).tdiv 2 ∧
            (p - 1).tdiv 2 ≤ c ∧ c < surface_normal.n_cols - (p - 1).tdiv 2 then
          orientation_total_deviation acos radian2degree ((p - 1).tdiv 2) surface_normal r c /
            (((p + 1) * ((p - 1).tdiv 2) : Int) : α)
        else 0 := by
  obtain ⟨out, hout, hr, hc, hdata⟩ :=
    compute_orientation_deviation_ok div_by_zero acos radian2degree fresh p surface_normal
      hle hodd
  refine ⟨out, hout, hr, hc, ?_⟩
  intro r c
  rw [hdata r c, double_div_of_ne _ _ _
    (orientation_divisor_cast_ne_zero p h3 hodd (by omega)),
    orientation_divisor_fits p hodd hmax]

/-- On images of equal dimensions `DeVAS_gray_or` returns a mask of those
dimensions holding `i1 || i2` at every pixel of the grid. -/
theorem DeVAS_gray_or_ok (fresh : Int → Int → Nat) (i1 i2 : DeVAS_image Nat)
    (hs : DeVAS_image_samesize i1 i2 = true) :
    ∃ out, DeVAS_gray_or fresh i1 i2 = .ok out ∧
      out.n_rows = i1.n_rows ∧ out.n_cols = i1.n_cols ∧
      ∀ r c, out.data r c =
        if 0 ≤ r ∧ r < i1.n_rows ∧ 0 ≤ c ∧ c < i1.n_cols then
          logical_or (i1.data r c) (i2.data r c)
        else fresh r c := by
  obtain ⟨h1, h2, h3⟩ := forLoop_set_rect
    (fun r c => logical_or (i1.data r c) (i2.data r c)) 0 i1.n_rows 0 i1.n_cols
    (DeVAS_image_new fresh i1.n_rows i1.n_cols)
  simp only [DeVAS_gray_or, hs, Bool.not_true, Bool.false_eq_true, if_false]
  refine ⟨_, rfl, h1, h2, ?_⟩
  intro r c
  rw [h3]
  rfl

/-- On a planar scene every projection is zero, so the accumulated
`total_deviation` is zero at every interior pixel. -/
theorem position_total_deviation_planar {α : Type} [LinearOrderedField α] (h : Int)
    (position surface_normal : DeVAS_image (DeVAS_XYZ α)) (n : DeVAS_XYZ α) (d : α)
    (hs : DeVAS_image_samesize position surface_normal = true)
    (hplane : ∀ r c, 0 ≤ r → r < position.n_rows → 0 ≤ c → c < position.n_cols →
      v3d_dotprod n (position.data r c) = d)
    (hnormal : ∀ r c, 0 ≤ r → r < surface_normal.n_rows → 0 ≤ c →
      c < surface_normal.n_cols → surface_normal.data r c = n)
    (h0 : 0 ≤ h) (r c : Int) (hr1 : h ≤ r) (hr2 : r < position.n_rows - h)
    (hc1 : h ≤ c) (hc2 : c < position.n_cols - h) :
    position_total_deviation h position surface_normal r c = 0 := by
  simp only [DeVAS_image_samesize, Bool.and_eq_true, decide_eq_true_eq] at hs
  obtain ⟨hrows, hcols⟩ := hs
  have hn : surface_normal.data r c = n :=
    hnormal r c (by omega) (by omega) (by omega) (by omega)
  simp only [position_total_deviation]
  refine forLoop_preserves _ _ _ _ (fun t => t = 0) rfl ?_
  intro i t hi1 hi2 ht
  refine forLoop_preserves _ _ _ _ (fun t => t = 0) ht ?_
  intro j u hj1 hj2 hu
  rw [hu, hn, v3d_dotprod_subtract,
    hplane (r + i) (c + j) (by omega) (by omega) (by omega) (by omega),
    hplane r c (by omega) (by omega) (by omega) (by omega)]
  simp

/-- On a constant field of unit normals every compared pair has angle zero, so
the accumulated `total_deviation` is zero at every interior pixel. -/
theorem orientation_total_deviation_constant {α : Type} [LinearOrderedField α]
    (acos radian2degree : α → α) (h : Int) (surface_normal : DeVAS_image (DeVAS_XYZ α))
    (n : DeVAS_XYZ α) (hacos : acos 1 = 0) (hdeg : radian2degree 0 = 0)
    (hunit : v3d_dotprod n n = 1)
    (hconst : ∀ r c, 0 ≤ r → r < surface_normal.n_rows → 0 ≤ c →
      c < surface_normal.n_cols → surface_normal.data r c = n)
    (h0 : 0 ≤ h) (r c : Int) (hr1 : h ≤ r) (hr2 : r < surface_normal.n_rows - h)
    (hc1 : h ≤ c) (hc2 : c < surface_normal.n_cols - h) :
    orientation_total_deviation acos radian2degree h surface_normal r c = 0 := by
  have hangle : deviation_angle acos radian2degree n n = 0 := by
    simp [deviation_angle, hunit, hacos, hdeg]
  simp only [orientation_total_deviation]
  refine forLoop_preserves _ _ _ _ (fun t => t = 0) ?_ ?_
  · refine forLoop_preserves _ _ _ _ (fun t => t = 0) rfl ?_
    intro i t hi1 hi2 ht
    refine forLoop_preserves _ _ _ _ (fun t => t = 0) ht ?_
    intro j u hj1 hj2 hu
    rw [hu, hconst (r + i) (c + j) (by omega) (by omega) (by omega) (by omega),
      hconst (r - i) (c - j) (by omega) (by omega) (by omega) (by omega), hangle]
    simp
  · intro j u hj1 hj2 hu
    rw [hu, hconst r (c + j) (by omega) (by omega) (by omega) (by omega),
      hconst r (c - j) (by omega) (by omega) (by omega) (by omega), hangle]
    simp

/-! ## Claims -/

/-- C1: for every position field whose points all lie in one plane
`{ x | n . x = d }`, every normal field of the same dimensions whose pixels all
equal the normal `n` of that plane, and every patch size that passes the checks
of the filter, `compute_position_deviation` returns a field of the input
dimensions that is 0 at every pixel. -/
theorem position_deviation_flat_surface {α : Type} [LinearOrderedField α]
    (fresh : Int → Int → α) (p : Int) (position surface_normal : DeVAS_image (DeVAS_XYZ α))
    (n : DeVAS_XYZ α) (d : α)
    (hs : DeVAS_image_samesize position surface_normal = true)
    (hle : p ≤ imin position.n_rows position.n_cols) (hodd : p.tmod 2 = 1)
    (hplane : ∀ r c, 0 ≤ r → r < position.n_rows → 0 ≤ c → c < position.n_cols →
      v3d_dotprod n (position.data r c) = d)
    (hnormal : ∀ r c, 0 ≤ r → r < surface_normal.n_rows → 0 ≤ c →
      c < surface_normal.n_cols → surface_normal.data r c = n) :
    ∃ out, compute_position_deviation fresh p position surface_normal = .ok out ∧
      out.n_rows = position.n_rows ∧ out.n_cols = position.n_cols ∧
      ∀ r c, 0 ≤ r → r < out.n_rows → 0 ≤ c → c < out.n_cols → out.data r c = 0 := by
  obtain ⟨out, hout, hr, hc, hdata⟩ :=
    compute_position_deviation_ok fresh p position surface_normal hs hle hodd
  refine ⟨out, hout, hr, hc, ?_⟩
  intro r c _ _ _ _
  rw [hdata]
  split_ifs with h1 h2
  · exfalso
    rw [position_total_deviation_planar _ position surface_normal n d hs hplane hnormal
      (half_patch_of_tmod hodd).1 r c h1.1 h1.2.1 h1.2.2.1 h1.2.2.2] at h2
    exact lt_irrefl _ h2
  · rfl
  · rfl

/-- C1 at a concrete scene: the 3x3 field on the plane `z = 0` with normal
`(0, 0, 1)` and patch size 3. -/
theorem position_deviation_flat_surface_witness :
    DeVAS_image_samesize flat_position up_normal = true ∧
    (3 : Int) ≤ imin flat_position.n_rows flat_position.n_cols ∧ (3 : Int).tmod 2 = 1 ∧
    ∃ out, compute_position_deviation (fun _ _ => 1) 3 flat_position up_normal = .ok out ∧
      out.n_rows = flat_position.n_rows ∧ out.n_cols = flat_position.n_cols ∧
      ∀ r c, 0 ≤ r → r < out.n_rows → 0 ≤ c → c < out.n_cols → out.data r c = 0 :=
  ⟨by decide, by decide, by decide,
    position_deviation_flat_surface (fun _ _ => 1) 3 flat_position up_normal
      { X := 0, Y := 0, Z := 1 } 0 (by decide) (by decide) (by decide)
      (by intro r c _ _ _ _; simp [v3d_dotprod, flat_position])
      (by intro r c _ _ _ _; rfl)⟩

/-- C2, counterexample: the filter accepts patch size 1, and there the field is
not 0: on the 3x3 field of unit normals `(0, 0, 1)` every pixel is interior, the
sum of angles is `0.0` and the divisor `( 1 + 1 ) * 0` is zero, so every pixel
of the returned field is the quotient `0.0 / 0.0` (a NaN in the C code, the
value `div_by_zero 0` here, for every `div_by_zero`) and not 0; the last part
is the run with -1 standing for the NaN. -/
theorem orientation_deviation_constant_normal_patch_one :
    (1 : Int) ≤ imin (up_normal : DeVAS_image (DeVAS_XYZ ℚ)).n_rows
      (up_normal : DeVAS_image (DeVAS_XYZ ℚ)).n_cols ∧ (1 : Int).tmod 2 = 1 ∧
    v3d_dotprod ({ X := 0, Y := 0, Z := 1 } : DeVAS_XYZ ℚ) { X := 0, Y := 0, Z := 1 } = 1 ∧
    int_mul (int_add 1 1) (((1 : Int) - 1).tdiv 2) = 0 ∧
    (∀ div_by_zero : ℚ → ℚ,
      ∃ out, compute_orientation_deviation div_by_zero (fun x => 1 - x) (fun x => 90 * x)
          (fun _ _ => 1) 1 up_normal = .ok out ∧
        out.n_rows = 3 ∧ out.n_cols = 3 ∧
        (∀ r c, 0 ≤ r → r < 3 → 0 ≤ c → c < 3 → out.data r c = div_by_zero 0) ∧
        (div_by_zero 0 ≠ 0 → out.data 1 1 ≠ 0)) ∧
    ∃ out, compute_orientation_deviation (fun _ => -1) (fun x => 1 - x) (fun x => 90 * x)
        (fun _ _ => 1) 1 up_normal = .ok out ∧
      out.data 1 1 = -1 ∧ out.data 1 1 ≠ 0 := by
  have hall : ∀ div_by_zero : ℚ → ℚ,
      ∃ out, compute_orientation_deviation div_by_zero (fun x => 1 - x) (fun x => 90 * x)
          (fun _ _ => 1) 1 up_normal = .ok out ∧
        out.n_rows = 3 ∧ out.n_cols = 3 ∧
        (∀ r c, 0 ≤ r → r < 3 → 0 ≤ c → c < 3 → out.data r c = div_by_zero 0) ∧
        (div_by_zero 0 ≠ 0 → out.data 1 1 ≠ 0) := ?_
  · refine ⟨by decide, by decide, by simp [v3d_dotprod], by decide, hall, ?_⟩
    obtain ⟨out, hout, -, -, hval, hne⟩ := hall (fun _ => -1)
    exact ⟨out, hout, hval 1 1 (by decide) (by decide) (by decide) (by decide),
      hne (by norm_num)⟩
  intro div_by_zero
  obtain ⟨out, hout, hr, hc, hdata⟩ :=
    compute_orientation_deviation_ok div_by_zero (fun x => 1 - x) (fun x => 90 * x)
      (fun _ _ => (1 : ℚ)) 1 up_normal (by decide) (by decide)
  have hh : ((1 : Int) - 1).tdiv 2 = 0 := by decide
  have hd : int_mul (int_add 1 1) 0 = 0 := by decide
  have htot : ∀ r c, orientation_total_deviation (fun x : ℚ => 1 - x) (fun x => 90 * x) 0
      up_normal r c = 0 := by
    intro r c
    simp [orientation_total_deviation, forLoop, forLoopAux]
  have hval : ∀ r c, 0 ≤ r → r < 3 → 0 ≤ c → c < 3 → out.data r c = div_by_zero 0 := by
    intro r c hr0 hr3 hc0 hc3
    have hin : (0 : Int) ≤ r ∧ r < (up_normal : DeVAS_image (DeVAS_XYZ ℚ)).n_rows - 0 ∧
        (0 : Int) ≤ c ∧ c < (up_normal : DeVAS_image (DeVAS_XYZ ℚ)).n_cols - 0 := by
      refine ⟨hr0, ?_, hc0, ?_⟩
      · show r < 3 - 0
        omega
      · show c < 3 - 0
        omega
    rw [hdata r c, hh, if_pos hin, hd, htot r c, Int.cast_zero, double_div_zero]
  refine ⟨out, hout, hr, hc, hval, ?_⟩
  intro hne
  rw [hval 1 1 (by decide) (by decide) (by decide) (by decide)]
  exact hne

/-- C2, amended (patch sizes from 3 on): for every normal field in which
every pixel holds the same unit normal `n`, and every patch size `>= 3` that
passes the checks of the filter (an `int`, so below `2 ^ 31`),
`compute_orientation_deviation` returns a field of the input dimensions that is 0
at every pixel (with `acos 1 = 0` and `radian2degree 0 = 0`).  The divisor is
not zero, also where its product has left the range of `int`, and the sum of
angles is 0. -/
theorem orientation_deviation_constant_normal {α : Type} [LinearOrderedField α]
    (div_by_zero acos radian2degree : α → α) (fresh : Int → Int → α) (p : Int)
    (surface_normal : DeVAS_image (DeVAS_XYZ α)) (n : DeVAS_XYZ α)
    (hacos : acos 1 = 0) (hdeg : radian2degree 0 = 0) (h3 : 3 ≤ p) (hmax : p < 2 ^ 31)
    (hle : p ≤ imin surface_normal.n_rows surface_normal.n_cols) (hodd : p.tmod 2 = 1)
    (hunit : v3d_dotprod n n = 1)
    (hconst : ∀ r c, 0 ≤ r → r < surface_normal.n_rows → 0 ≤ c →
      c < surface_normal.n_cols → surface_normal.data r c = n) :
    ∃ out, compute_orientation_deviation div_by_zero acos radian2degree fresh p
        surface_normal = .ok out ∧
      out.n_rows = surface_normal.n_rows ∧ out.n_cols = surface_normal.n_cols ∧
      ∀ r c, 0 ≤ r → r < out.n_rows → 0 ≤ c → c < out.n_cols → out.data r c = 0 := by
  obtain ⟨out, hout, hr, hc, hdata⟩ :=
    compute_orientation_deviation_ok div_by_zero acos radian2degree fresh p surface_normal
      hle hodd
  refine ⟨out, hout, hr, hc, ?_⟩
  intro r c _ _ _ _
  rw [hdata]
  split_ifs with h1
  · rw [orientation_total_deviation_constant acos radian2degree _ surface_normal n hacos hdeg
      hunit hconst (half_patch_of_tmod hodd).1 r c h1.1 h1.2.1 h1.2.2.1 h1.2.2.2,
      double_div_of_ne _ _ _ (orientation_divisor_cast_ne_zero p h3 hodd hmax)]
    exact zero_div _
  · rfl

/-- C2, amended, at a concrete scene over the reals, with the real arc cosine and the
conversion `x * (180 / pi)`: the 3x3 field of normals `(0, 0, 1)`, patch size 3. -/
theorem orientation_deviation_constant_normal_witness :
    Real.arccos 1 = 0 ∧ (0 : ℝ) * (180 / Real.pi) = 0 ∧ (3 : Int) ≤ 3 ∧ (3 : Int) < 2 ^ 31 ∧
    (3 : Int) ≤ imin up_normal_real.n_rows up_normal_real.n_cols ∧ (3 : Int).tmod 2 = 1 ∧
    v3d_dotprod ({ X := 0, Y := 0, Z := 1 } : DeVAS_XYZ ℝ) { X := 0, Y := 0, Z := 1 } = 1 ∧
    ∃ out, compute_orientation_deviation (fun _ => -1) Real.arccos (fun x => x * (180 / Real.pi))
        (fun _ _ => 1) 3 up_normal_real = .ok out ∧
      out.n_rows = up_normal_real.n_rows ∧ out.n_cols = up_normal_real.n_cols ∧
      ∀ r c, 0 ≤ r → r < out.n_rows → 0 ≤ c → c < out.n_cols → out.data r c = 0 :=
  ⟨Real.arccos_one, by simp, by decide, by decide, by decide, by decide,
    by simp [v3d_dotprod],
    orientation_deviation_constant_normal (fun _ => -1) Real.arccos
      (fun x => x * (180 / Real.pi)) (fun _ _ => 1) 3 up_normal_real { X := 0, Y := 0, Z := 1 }
      Real.arccos_one (by simp) (by decide) (by decide) (by decide) (by decide)
      (by simp [v3d_dotprod]) (by intro r c _ _ _ _; rfl)⟩

/-- C3: for every patch size that passes the checks of the filters (with
`h = (patch_size - 1) / 2`) and every input, `compute_position_deviation` and
`compute_orientation_deviation` both return a field of the input dimensions
whose value is 0 at every pixel `(r, c)` with `r < h`, `r >= n_rows - h`,
`c < h` or `c >= n_cols - h`. -/
theorem deviation_border_zero {α : Type} [LinearOrderedField α]
    (div_by_zero acos radian2degree : α → α) (fresh : Int → Int → α) (p : Int)
    (position surface_normal : DeVAS_image (DeVAS_XYZ α))
    (hs : DeVAS_image_samesize position surface_normal = true)
    (hle : p ≤ imin surface_normal.n_rows surface_normal.n_cols) (hodd : p.tmod 2 = 1) :
    (∃ out, compute_position_deviation fresh p position surface_normal = .ok out ∧
      out.n_rows = position.n_rows ∧ out.n_cols = position.n_cols ∧
      ∀ r c, (r < (p - 1).tdiv 2 ∨ r ≥ out.n_rows - (p - 1).tdiv 2 ∨
          c < (p - 1).tdiv 2 ∨ c ≥ out.n_cols - (p - 1).tdiv 2) → out.data r c = 0) ∧
    (∃ out, compute_orientation_deviation div_by_zero acos radian2degree fresh p surface_normal
        = .ok out ∧
      out.n_rows = surface_normal.n_rows ∧ out.n_cols = surface_normal.n_cols ∧
      ∀ r c, (r < (p - 1).tdiv 2 ∨ r ≥ out.n_rows - (p - 1).tdiv 2 ∨
          c < (p - 1).tdiv 2 ∨ c ≥ out.n_cols - (p - 1).tdiv 2) → out.data r c = 0) := by
  have hdim := hs
  simp only [DeVAS_image_samesize, Bool.and_eq_true, decide_eq_true_eq] at hdim
  have hle1 : p ≤ imin position.n_rows position.n_cols := by
    rw [hdim.1, hdim.2]; exact hle
  constructor
  · obtain ⟨out, hout, hr, hc, hdata⟩ :=
      compute_position_deviation_ok fresh p position surface_normal hs hle1 hodd
    refine ⟨out, hout, hr, hc, ?_⟩
    intro r c hb
    rw [hdata, if_neg]
    rw [hr, hc] at hb
    omega
  · obtain ⟨out, hout, hr, hc, hdata⟩ :=
      compute_orientation_deviation_ok div_by_zero acos radian2degree fresh p surface_normal hle
          hodd
    refine ⟨out, hout, hr, hc, ?_⟩
    intro r c hb
    rw [hdata, if_neg]
    rw [hr, hc] at hb
    omega

/-- C3 at a concrete scene: the 3x3 planar field, patch size 3 (`h = 1`), with
rational stand-ins for `acos` and `radian2degree`. -/
theorem deviation_border_zero_witness :
    DeVAS_image_samesize flat_position up_normal = true ∧
    (3 : Int) ≤ imin up_normal.n_rows up_normal.n_cols ∧ (3 : Int).tmod 2 = 1 ∧
    (∃ out, compute_position_deviation (fun _ _ => 1) 3 flat_position up_normal = .ok out ∧
      out.n_rows = flat_position.n_rows ∧ out.n_cols = flat_position.n_cols ∧
      ∀ r c, (r < ((3 : Int) - 1).tdiv 2 ∨ r ≥ out.n_rows - ((3 : Int) - 1).tdiv 2 ∨
          c < ((3 : Int) - 1).tdiv 2 ∨ c ≥ out.n_cols - ((3 : Int) - 1).tdiv 2) →
        out.data r c = 0) ∧
    (∃ out, compute_orientation_deviation (fun _ => -1) (fun x => 1 - x) (fun x => 90 * x)
        (fun _ _ => 1)
        3 up_normal = .ok out ∧
      out.n_rows = up_normal.n_rows ∧ out.n_cols = up_normal.n_cols ∧
      ∀ r c, (r < ((3 : Int) - 1).tdiv 2 ∨ r ≥ out.n_rows - ((3 : Int) - 1).tdiv 2 ∨
          c < ((3 : Int) - 1).tdiv 2 ∨ c ≥ out.n_cols - ((3 : Int) - 1).tdiv 2) →
        out.data r c = 0) :=
  ⟨by decide, by decide, by decide,
    deviation_border_zero (fun _ => -1) (fun x => 1 - x) (fun x => 90 * x) (fun _ _ => 1) 3
      flat_position up_normal (by decide) (by decide) (by decide)⟩

/-- C4: for the 5x5 position field with `z = 0` everywhere except `z = -10` at
the centre pixel `(2, 2)` (`x`, `y` arbitrary), the uniform normal field
`(0, 0, 1)` and patch size 3, `compute_position_deviation` returns a 5x5 field
that equals `10 / 3 > 0` at the four pixels `(1,2)`, `(2,1)`, `(2,3)`, `(3,2)`
adjacent to the centre, and is 0 at every pixel of the outermost ring and at
every pixel whose 3x3 window does not contain the centre. -/
theorem position_deviation_bump_scenario {α : Type} [LinearOrderedField α]
    (fresh x y : Int → Int → α) :
    ∃ out, compute_position_deviation fresh 3 (bump_position x y) up_normal_5x5 = .ok out ∧
      out.n_rows = 5 ∧ out.n_cols = 5 ∧
      out.data 1 2 = 10 / 3 ∧ out.data 2 1 = 10 / 3 ∧
      out.data 2 3 = 10 / 3 ∧ out.data 3 2 = 10 / 3 ∧ (0 : α) < 10 / 3 ∧
      ∀ r c, 0 ≤ r → r < 5 → 0 ≤ c → c < 5 →
        (r = 0 ∨ r = 4 ∨ c = 0 ∨ c = 4 ∨ 1 < |r - 2| ∨ 1 < |c - 2|) → out.data r c = 0 := by
  obtain ⟨out, hout, hr, hc, hdata⟩ :=
    compute_position_deviation_ok fresh 3 (bump_position x y) up_normal_5x5
      (by simp [DeVAS_image_samesize, bump_position, up_normal_5x5])
      (by simp [imin, bump_position]) (by decide)
  have hh : ((3 : Int) - 1).tdiv 2 = 1 := by decide
  rw [hh] at hdata
  have hrows : (bump_position x y).n_rows = 5 := rfl
  have hcols : (bump_position x y).n_cols = 5 := rfl
  rw [hrows, hcols] at hdata
  have t12 : position_total_deviation 1 (bump_position x y) up_normal_5x5 1 2 = -10 := by
    simp [position_total_deviation, forLoop, forLoopAux, v3d_dotprod, v3d_subtract,
      bump_position, up_normal_5x5]
  have t21 : position_total_deviation 1 (bump_position x y) up_normal_5x5 2 1 = -10 := by
    simp [position_total_deviation, forLoop, forLoopAux, v3d_dotprod, v3d_subtract,
      bump_position, up_normal_5x5]
  have t23 : position_total_deviation 1 (bump_position x y) up_normal_5x5 2 3 = -10 := by
    simp [position_total_deviation, forLoop, forLoopAux, v3d_dotprod, v3d_subtract,
      bump_position, up_normal_5x5]
  have t32 : position_total_deviation 1 (bump_position x y) up_normal_5x5 3 2 = -10 := by
    simp [position_total_deviation, forLoop, forLoopAux, v3d_dotprod, v3d_subtract,
      bump_position, up_normal_5x5]
  have hneg : (-10 : α) < 0 := by norm_num
  have hdiv : int_mul 1 3 = 3 := by decide
  have hval : -(-10 : α) / ((int_mul 1 3 : Int) : α) = 10 / 3 := by
    rw [hdiv]
    norm_num
  refine ⟨out, hout, hr, hc, ?_, ?_, ?_, ?_, by norm_num, ?_⟩
  · rw [hdata, if_pos (by decide), t12, if_pos hneg, hval]
  · rw [hdata, if_pos (by decide), t21, if_pos hneg, hval]
  · rw [hdata, if_pos (by decide), t23, if_pos hneg, hval]
  · rw [hdata, if_pos (by decide), t32, if_pos hneg, hval]
  · intro r c hr0 hr5 hc0 hc5 hb
    rw [hdata, if_neg]
    rintro ⟨a1, a2, a3, a4⟩
    have e1 : ¬ (1 < |r - 2|) := by
      rw [not_lt, abs_le]; constructor <;> omega
    have e2 : ¬ (1 < |c - 2|) := by
      rw [not_lt, abs_le]; constructor <;> omega
    omega

/-- C4 at concrete `x`, `y` over the rationals (`x = col`, `y = row`). -/
theorem position_deviation_bump_scenario_witness :
    ∃ out, compute_position_deviation (fun _ _ => (1 : ℚ)) 3
        (bump_position (fun _ c => (c : ℚ)) (fun r _ => (r : ℚ))) up_normal_5x5 = .ok out ∧
      out.n_rows = 5 ∧ out.n_cols = 5 ∧
      out.data 1 2 = 10 / 3 ∧ out.data 2 1 = 10 / 3 ∧
      out.data 2 3 = 10 / 3 ∧ out.data 3 2 = 10 / 3 ∧ (0 : ℚ) < 10 / 3 ∧
      ∀ r c, 0 ≤ r → r < 5 → 0 ≤ c → c < 5 →
        (r = 0 ∨ r = 4 ∨ c = 0 ∨ c = 4 ∨ 1 < |r - 2| ∨ 1 < |c - 2|) → out.data r c = 0 :=
  position_deviation_bump_scenario (fun _ _ => (1 : ℚ)) (fun _ c => (c : ℚ))
    (fun r _ => (r : ℚ))

/-- With patch size 3 the orientation filter compares four pairs of normals. -/
theorem orientation_total_deviation_one {α : Type} [LinearOrderedField α]
    (acos radian2degree : α → α) (nor : DeVAS_image (DeVAS_XYZ α)) (r c : Int) :
    orientation_total_deviation acos radian2degree 1 nor r c =
      deviation_angle acos radian2degree (nor.data (r - 1) (c - 1)) (nor.data (r + 1) (c + 1)) +
      deviation_angle acos radian2degree (nor.data (r - 1) c) (nor.data (r + 1) c) +
      deviation_angle acos radian2degree (nor.data (r - 1) (c + 1)) (nor.data (r + 1) (c - 1)) +
      deviation_angle acos radian2degree (nor.data r (c - 1)) (nor.data r (c + 1)) := by
  simp [orientation_total_deviation, forLoop, forLoopAux, sub_eq_add_neg]

/-- C5: for every 5x5 normal field split at a column `s` (any `s`, in particular
`1 <= s <= 4`) into two uniform halves (columns `< s` hold the unit normal `A`, columns `>= s` the unit
normal `B`, with `A` and `B` orthogonal) and patch size 3,
`compute_orientation_deviation` is 67.5 degrees at every interior pixel `(r, c)`
whose columns `c - 1` and `c + 1` lie in different halves, is 0 at every other
interior pixel, and is 0 on the outermost ring (with `acos 1 = 0` and
`radian2degree` sending 0 to 0 and `acos 0` to 90). -/
theorem orientation_deviation_split_scenario {α : Type} [LinearOrderedField α]
    (div_by_zero acos radian2degree : α → α) (fresh : Int → Int → α) (A B : DeVAS_XYZ α) (s : Int)
    (hacos : acos 1 = 0) (hdeg : radian2degree 0 = 0) (hright : radian2degree (acos 0) = 90)
    (hA : v3d_dotprod A A = 1) (hB : v3d_dotprod B B = 1) (hAB : v3d_dotprod A B = 0) :
    ∃ out, compute_orientation_deviation div_by_zero acos radian2degree fresh 3 (split_normal A B s)
        = .ok out ∧
      out.n_rows = 5 ∧ out.n_cols = 5 ∧
      (∀ r c, 1 ≤ r → r ≤ 3 → 1 ≤ c → c ≤ 3 →
        out.data r c = if c - 1 < s ∧ s ≤ c + 1 then 135 / 2 else 0) ∧
      (∀ r c, 0 ≤ r → r < 5 → 0 ≤ c → c < 5 → (r = 0 ∨ r = 4 ∨ c = 0 ∨ c = 4) →
        out.data r c = 0) := by
  obtain ⟨out, hout, hr, hc, hdata⟩ :=
    compute_orientation_deviation_ok div_by_zero acos radian2degree fresh 3 (split_normal A B s)
      (by simp [imin, split_normal]) (by decide)
  have hh : ((3 : Int) - 1).tdiv 2 = 1 := by decide
  rw [hh] at hdata
  have hrows : (split_normal A B s).n_rows = 5 := rfl
  have hcols : (split_normal A B s).n_cols = 5 := rfl
  rw [hrows, hcols] at hdata
  have hBA : v3d_dotprod B A = 0 := by
    rw [← hAB]; simp only [v3d_dotprod]; ring
  have aAA : deviation_angle acos radian2degree A A = 0 := by
    simp [deviation_angle, hA, hacos, hdeg]
  have aBB : deviation_angle acos radian2degree B B = 0 := by
    simp [deviation_angle, hB, hacos, hdeg]
  have aAB : deviation_angle acos radian2degree A B = 90 := by
    simp [deviation_angle, hAB, hright]
  have aBA : deviation_angle acos radian2degree B A = 90 := by
    simp [deviation_angle, hBA, hright]
  have hdiv : int_mul (int_add 3 1) 1 = 4 := by decide
  have hquot : ∀ x : α,
      double_div div_by_zero x ((int_mul (int_add 3 1) 1 : Int) : α) = x / 4 := by
    intro x
    rw [hdiv, double_div_of_ne _ _ _ (by norm_num)]
    norm_num
  refine ⟨out, hout, hr, hc, ?_, ?_⟩
  · intro r c hr1 hr3 hc1 hc3
    rw [hdata, if_pos (by omega), orientation_total_deviation_one, hquot]
    simp only [split_normal]
    by_cases h1 : c - 1 < s <;> by_cases h2 : c < s <;> by_cases h3 : c + 1 < s
    all_goals first
      | (exfalso; omega)
      | (have hcond : c - 1 < s ∧ s ≤ c + 1 := by omega
         rw [if_pos hcond]
         simp only [h1, h2, h3, if_true, if_false, aAA, aBB, aAB, aBA]
         norm_num)
      | (have hcond : ¬ (c - 1 < s ∧ s ≤ c + 1) := by omega
         rw [if_neg hcond]
         simp only [h1, h2, h3, if_true, if_false, aAA, aBB, aAB, aBA]
         norm_num)
  · intro r c hr0 hr5 hc0 hc5 hb
    rw [hdata, if_neg]
    omega

/-- C5 over the reals, with the real arc cosine and the conversion
`x * (180 / pi)`: `A = (1, 0, 0)`, `B = (0, 0, 1)`, seam at column 2. -/
theorem orientation_deviation_split_scenario_witness :
    Real.arccos 1 = 0 ∧ Real.arccos 0 * (180 / Real.pi) = 90 ∧
    v3d_dotprod ({ X := 1, Y := 0, Z := 0 } : DeVAS_XYZ ℝ) { X := 0, Y := 0, Z := 1 } = 0 ∧
    ∃ out, compute_orientation_deviation (fun _ => -1) Real.arccos (fun x => x * (180 / Real.pi))
        (fun _ _ => 1) 3 (split_normal { X := 1, Y := 0, Z := 0 } { X := 0, Y := 0, Z := 1 } 2)
        = .ok out ∧
      out.n_rows = 5 ∧ out.n_cols = 5 ∧
      (∀ r c, 1 ≤ r → r ≤ 3 → 1 ≤ c → c ≤ 3 →
        out.data r c = if c - 1 < 2 ∧ 2 ≤ c + 1 then 135 / 2 else 0) ∧
      (∀ r c, 0 ≤ r → r < 5 → 0 ≤ c → c < 5 → (r = 0 ∨ r = 4 ∨ c = 0 ∨ c = 4) →
        out.data r c = 0) :=
  have hright : Real.arccos 0 * (180 / Real.pi) = 90 := by
    rw [Real.arccos_zero]
    have hpi : Real.pi ≠ 0 := Real.pi_ne_zero
    field_simp
    ring
  ⟨Real.arccos_one, hright, by simp [v3d_dotprod],
    orientation_deviation_split_scenario (fun _ => -1) Real.arccos (fun x => x * (180 / Real.pi))
      (fun _ _ => 1) { X := 1, Y := 0, Z := 0 } { X := 0, Y := 0, Z := 1 } 2
      Real.arccos_one (by simp) hright (by simp [v3d_dotprod]) (by simp [v3d_dotprod])
      (by simp [v3d_dotprod])⟩

/-- The sanity check passes exactly when none of its eight tests fires. -/
theorem sanity_check_ok_iff {α : Type} (xyz : DeVAS_image (DeVAS_XYZ α))
    (dist : DeVAS_image α) (nor : DeVAS_image (DeVAS_XYZ α)) (pp op : Int) :
    geometry_discontinuities_sanity_check xyz dist nor pp op = .ok () ↔
      (DeVAS_image_samesize xyz dist = true ∧ DeVAS_image_samesize xyz nor = true ∧
        3 ≤ pp ∧ 3 ≤ op ∧ pp.tmod 2 = 1 ∧ op.tmod 2 = 1 ∧
        pp ≤ (if xyz.n_rows < xyz.n_cols then xyz.n_rows else xyz.n_cols) ∧
        op ≤ (if xyz.n_rows < xyz.n_cols then xyz.n_rows else xyz.n_cols)) := by
  unfold geometry_discontinuities_sanity_check
  dsimp only
  generalize (if xyz.n_rows < xyz.n_cols then xyz.n_rows else xyz.n_cols) = m
  constructor
  · intro h
    split_ifs at h with h1 h2 h3 h4 h5 h6 h7
    simp only [Bool.or_eq_true, Bool.not_eq_true', not_or, Bool.not_eq_false] at h1
    exact ⟨h1.1, h1.2, not_lt.mp h2, not_lt.mp h3, not_not.mp h4, not_not.mp h5,
      not_lt.mp h6, not_lt.mp h7⟩
  · rintro ⟨a1, a2, a3, a4, a5, a6, a7, a8⟩
    simp [a1, a2, not_lt.mpr a3, not_lt.mpr a4, a5, a6, not_lt.mpr a7, not_lt.mpr a8]

/-- A call whose sanity check fails ends with the error of the sanity check. -/
theorem geometry_discontinuities_of_check_error {α : Type} [LinearOrderedField α]
    (div_by_zero acos radian2degree : α → α) (fresh_float : Int → Int → α)
    (fresh_gray : Int → Int → Nat)
    (find_directional_maxima : Int → Int → DeVAS_image α → DeVAS_image Nat)
    (DMAX_PATCH_SIZE : Int)
    (xyz : DeVAS_image (DeVAS_XYZ α)) (dist : DeVAS_image α)
    (nor : DeVAS_image (DeVAS_XYZ α)) (pp op pt ot : Int) (e : ExitFailure)
    (coordinates : DeVAS_coordinates α)
    (h : geometry_discontinuities_sanity_check xyz dist nor pp op = .error e) :
    geometry_discontinuities div_by_zero acos radian2degree fresh_float fresh_gray
      find_directional_maxima DMAX_PATCH_SIZE coordinates xyz dist nor pp op pt ot
        = .error e := by
  simp only [geometry_discontinuities, h]
  rfl

/-- The tests of the sanity check, read as the preconditions of the spec. -/
theorem sanity_conditions_iff {α : Type} (xyz : DeVAS_image (DeVAS_XYZ α))
    (dist : DeVAS_image α) (nor : DeVAS_image (DeVAS_XYZ α)) (pp op : Int) :
    (DeVAS_image_samesize xyz dist = true ∧ DeVAS_image_samesize xyz nor = true ∧
        3 ≤ pp ∧ 3 ≤ op ∧ pp.tmod 2 = 1 ∧ op.tmod 2 = 1 ∧
        pp ≤ (if xyz.n_rows < xyz.n_cols then xyz.n_rows else xyz.n_cols) ∧
        op ≤ (if xyz.n_rows < xyz.n_cols then xyz.n_rows else xyz.n_cols)) ↔
      (xyz.n_rows = dist.n_rows ∧ xyz.n_cols = dist.n_cols ∧
        xyz.n_rows = nor.n_rows ∧ xyz.n_cols = nor.n_cols ∧
        3 ≤ pp ∧ 3 ≤ op ∧ Odd pp ∧ Odd op ∧
        pp ≤ min xyz.n_rows xyz.n_cols ∧ op ≤ min xyz.n_rows xyz.n_cols) := by
  have hmin : (if xyz.n_rows < xyz.n_cols then xyz.n_rows else xyz.n_cols)
      = min xyz.n_rows xyz.n_cols := by
    split_ifs with h
    · exact (min_eq_left (le_of_lt h)).symm
    · exact (min_eq_right (not_lt.mp h)).symm
  rw [hmin]
  simp only [DeVAS_image_samesize, Bool.and_eq_true, decide_eq_true_eq]
  constructor
  · rintro ⟨⟨a, b⟩, ⟨c, d⟩, h3, h4, h5, h6, h7, h8⟩
    exact ⟨a, b, c, d, h3, h4, Int.odd_iff.mpr ((tmod_two_eq_one_iff pp).mp h5).2,
      Int.odd_iff.mpr ((tmod_two_eq_one_iff op).mp h6).2, h7, h8⟩
  · rintro ⟨a, b, c, d, h3, h4, h5, h6, h7, h8⟩
    exact ⟨⟨a, b⟩, ⟨c, d⟩, h3, h4,
      (tmod_two_eq_one_iff pp).mpr ⟨by omega, Int.odd_iff.mp h5⟩,
      (tmod_two_eq_one_iff op).mpr ⟨by omega, Int.odd_iff.mp h6⟩, h7, h8⟩

/-- C6: `geometry_discontinuities` passes its argument validation if and only if
`xyz`, `dist` and `nor` have identical dimensions, both patch sizes are at least 3,
both are odd and both are at most `min(n_rows, n_cols)`; in every other case
(patch size 2, patch size 1, patch size above the smaller grid dimension,
mismatched field dimensions, ...) the call fails with the error raised by the
validation, before any field is computed. -/
theorem geometry_discontinuities_validation {α : Type} [LinearOrderedField α]
    (div_by_zero acos radian2degree : α → α) (fresh_float : Int → Int → α)
    (fresh_gray : Int → Int → Nat)
    (find_directional_maxima : Int → Int → DeVAS_image α → DeVAS_image Nat)
    (DMAX_PATCH_SIZE : Int) (coordinates : DeVAS_coordinates α)
    (xyz : DeVAS_image (DeVAS_XYZ α)) (dist : DeVAS_image α)
    (nor : DeVAS_image (DeVAS_XYZ α)) (pp op pt ot : Int) :
    (geometry_discontinuities_sanity_check xyz dist nor pp op = .ok () ↔
      (xyz.n_rows = dist.n_rows ∧ xyz.n_cols = dist.n_cols ∧
        xyz.n_rows = nor.n_rows ∧ xyz.n_cols = nor.n_cols ∧
        3 ≤ pp ∧ 3 ≤ op ∧ Odd pp ∧ Odd op ∧
        pp ≤ min xyz.n_rows xyz.n_cols ∧ op ≤ min xyz.n_rows xyz.n_cols)) ∧
    (¬ (xyz.n_rows = dist.n_rows ∧ xyz.n_cols = dist.n_cols ∧
        xyz.n_rows = nor.n_rows ∧ xyz.n_cols = nor.n_cols ∧
        3 ≤ pp ∧ 3 ≤ op ∧ Odd pp ∧ Odd op ∧
        pp ≤ min xyz.n_rows xyz.n_cols ∧ op ≤ min xyz.n_rows xyz.n_cols) →
      ∃ e, geometry_discontinuities_sanity_check xyz dist nor pp op = .error e ∧
        geometry_discontinuities div_by_zero acos radian2degree fresh_float fresh_gray
          find_directional_maxima DMAX_PATCH_SIZE coordinates xyz dist nor pp op pt ot
            = .error e ∧
        fails (geometry_discontinuities div_by_zero acos radian2degree fresh_float fresh_gray
          find_directional_maxima DMAX_PATCH_SIZE coordinates xyz dist nor pp op pt ot)
            = true) := by
  have hiff := (sanity_check_ok_iff xyz dist nor pp op).trans
    (sanity_conditions_iff xyz dist nor pp op)
  refine ⟨hiff, ?_⟩
  intro hbad
  cases hres : geometry_discontinuities_sanity_check xyz dist nor pp op with
  | ok u =>
    cases u
    exact absurd (hiff.mp hres) hbad
  | error e =>
    have hgd := geometry_discontinuities_of_check_error div_by_zero acos radian2degree fresh_float
      fresh_gray find_directional_maxima DMAX_PATCH_SIZE xyz dist nor pp op pt ot e
      coordinates hres
    refine ⟨e, rfl, hgd, ?_⟩
    rw [hgd]
    rfl

/-- C6 at concrete calls on the 3x3 scene: patch size 2 fails, patch size 1
fails, patch size 5 (above the grid size 3) fails. -/
theorem geometry_discontinuities_validation_witness :
    fails (geometry_discontinuities (fun _ => -1) (fun x => 1 - x) (fun x => 90 * x) (fun _ _ => 1)
      (fun _ _ => 7) no_maxima 3 feet_coordinates flat_position unit_dist up_normal
      2 3 2 20) = true ∧
    fails (geometry_discontinuities (fun _ => -1) (fun x => 1 - x) (fun x => 90 * x) (fun _ _ => 1)
      (fun _ _ => 7) no_maxima 3 feet_coordinates flat_position unit_dist up_normal
      3 1 2 20) = true ∧
    fails (geometry_discontinuities (fun _ => -1) (fun x => 1 - x) (fun x => 90 * x) (fun _ _ => 1)
      (fun _ _ => 7) no_maxima 3 feet_coordinates flat_position unit_dist up_normal
      5 3 2 20) = true ∧
    geometry_discontinuities_sanity_check flat_position unit_dist up_normal 3 3 = .ok () := by
  refine ⟨?_, ?_, ?_, ?_⟩
  · obtain ⟨_, _, _, h⟩ := (geometry_discontinuities_validation (fun _ => -1) (fun x => 1 - x)
      (fun x => 90 * x) (fun _ _ => 1) (fun _ _ => 7) no_maxima 3 feet_coordinates
      flat_position unit_dist
      up_normal 2 3 2 20).2 (fun h => by have := h.2.2.2.2.2.2.1; revert this; decide)
    exact h
  · obtain ⟨_, _, _, h⟩ := (geometry_discontinuities_validation (fun _ => -1) (fun x => 1 - x)
      (fun x => 90 * x) (fun _ _ => 1) (fun _ _ => 7) no_maxima 3 feet_coordinates
      flat_position unit_dist
      up_normal 3 1 2 20).2 (fun h => by have := h.2.2.2.2.2.1; omega)
    exact h
  · obtain ⟨_, _, _, h⟩ := (geometry_discontinuities_validation (fun _ => -1) (fun x => 1 - x)
      (fun x => 90 * x) (fun _ _ => 1) (fun _ _ => 7) no_maxima 3 feet_coordinates
      flat_position unit_dist
      up_normal 5 3 2 20).2 (fun h => by
        have := h.2.2.2.2.2.2.2.2.1
        simp [flat_position] at this)
    exact h
  · exact (geometry_discontinuities_validation (fun _ => -1) (fun x => 1 - x)
      (fun x => 90 * x) (fun _ _ => 1) (fun _ _ => 7) no_maxima 3 feet_coordinates
      flat_position unit_dist
      up_normal 3 3 2 20).1.mpr
      ⟨rfl, rfl, rfl, rfl, by decide, by decide, by decide, by decide,
        by simp [flat_position], by simp [flat_position]⟩

/-- `imin` is the minimum. -/
theorem imin_eq_min (a b : Int) : imin a b = min a b := by
  unfold imin
  split_ifs with h
  · exact (min_eq_left (le_of_lt h)).symm
  · exact (min_eq_right (not_lt.mp h)).symm

/-- `compute_position_deviation` fails exactly when one of its three checks
fires. -/
theorem compute_position_deviation_fails_iff {α : Type} [LinearOrderedField α]
    (fresh : Int → Int → α) (p : Int) (position surface_normal : DeVAS_image (DeVAS_XYZ α)) :
    fails (compute_position_deviation fresh p position surface_normal) = true ↔
      ¬ (DeVAS_image_samesize position surface_normal = true ∧
        p ≤ imin position.n_rows position.n_cols ∧ p.tmod 2 = 1) := by
  constructor
  · rintro hf ⟨hs, hle, hodd⟩
    obtain ⟨out, hout, _⟩ :=
      compute_position_deviation_ok fresh p position surface_normal hs hle hodd
    rw [hout] at hf
    exact Bool.false_ne_true hf
  · intro hbad
    unfold compute_position_deviation
    dsimp only
    split_ifs with h1 h2 h3
    · rfl
    · rfl
    · rfl
    · exfalso
      apply hbad
      simp only [Bool.not_eq_true', Bool.not_eq_false] at h1
      exact ⟨h1, not_lt.mp h2, not_not.mp h3⟩

/-- `compute_orientation_deviation` fails exactly when one of its two checks
fires. -/
theorem compute_orientation_deviation_fails_iff {α : Type} [LinearOrderedField α]
    (div_by_zero acos radian2degree : α → α) (fresh : Int → Int → α) (p : Int)
    (surface_normal : DeVAS_image (DeVAS_XYZ α)) :
    fails (compute_orientation_deviation div_by_zero acos radian2degree fresh p surface_normal) =
        true ↔
      ¬ (p ≤ imin surface_normal.n_rows surface_normal.n_cols ∧ p.tmod 2 = 1) := by
  constructor
  · rintro hf ⟨hle, hodd⟩
    obtain ⟨out, hout, _⟩ :=
      compute_orientation_deviation_ok div_by_zero acos radian2degree fresh p surface_normal hle
          hodd
    rw [hout] at hf
    exact Bool.false_ne_true hf
  · intro hbad
    unfold compute_orientation_deviation
    dsimp only
    split_ifs with h2 h3
    · rfl
    · rfl
    · exfalso
      apply hbad
      exact ⟨not_lt.mp h2, not_not.mp h3⟩

/-- A patch size below 3 other than 1, or an even patch size, does not pass the
oddness test of the filters. -/
theorem tmod_two_ne_one_of_bad {p : Int} (h : (p < 3 ∧ p ≠ 1) ∨ Even p) : p.tmod 2 ≠ 1 := by
  intro h1
  obtain ⟨hpos, hodd⟩ := (tmod_two_eq_one_iff p).mp h1
  rcases h with ⟨h3, hne⟩ | hev
  · omega
  · have := Int.even_iff.mp hev
    omega

/-- C7, counterexample: patch size 1 is below 3, yet neither filter fails on the
3x3 scene. -/
theorem filters_accept_patch_size_one :
    (1 : Int) < 3 ∧
    fails (compute_position_deviation (fun _ _ => (1 : ℚ)) 1 flat_position up_normal) = false ∧
    fails (compute_orientation_deviation (fun _ => -1) (fun x => 1 - x) (fun x => 90 * x)
      (fun _ _ => (1 : ℚ)) 1 up_normal) = false := by
  refine ⟨by decide, ?_, ?_⟩
  · obtain ⟨out, hout, _⟩ := compute_position_deviation_ok (fun _ _ => (1 : ℚ)) 1
      flat_position up_normal (by decide) (by decide) (by decide)
    rw [hout]
    rfl
  · obtain ⟨out, hout, _⟩ := compute_orientation_deviation_ok (fun _ => -1) (fun x => 1 - x)
      (fun x => 90 * x) (fun _ _ => (1 : ℚ)) 1 up_normal (by decide) (by decide)
    rw [hout]
    rfl

/-- C7, amended: `compute_position_deviation` fails for every patch size below 3
other than 1, every even patch size, every patch size above
`min(n_rows, n_cols)` and every pair of position/normal fields of different
dimensions; `compute_orientation_deviation` fails for every patch size below 3
other than 1, every even patch size and every patch size above
`min(n_rows, n_cols)`. -/
theorem filters_reject_bad_arguments {α : Type} [LinearOrderedField α]
    (div_by_zero acos radian2degree : α → α) (fresh : Int → Int → α) (p : Int)
    (position surface_normal : DeVAS_image (DeVAS_XYZ α)) :
    (((p < 3 ∧ p ≠ 1) ∨ Even p ∨ p > min position.n_rows position.n_cols ∨
        ¬ (position.n_rows = surface_normal.n_rows ∧
          position.n_cols = surface_normal.n_cols)) →
      fails (compute_position_deviation fresh p position surface_normal) = true) ∧
    (((p < 3 ∧ p ≠ 1) ∨ Even p ∨ p > min surface_normal.n_rows surface_normal.n_cols) →
      fails (compute_orientation_deviation div_by_zero acos radian2degree fresh p surface_normal)
        = true) := by
  constructor
  · intro h
    rw [compute_position_deviation_fails_iff, imin_eq_min]
    rintro ⟨hs, hle, hodd⟩
    simp only [DeVAS_image_samesize, Bool.and_eq_true, decide_eq_true_eq] at hs
    rcases h with h | h | h | h
    · exact tmod_two_ne_one_of_bad (Or.inl h) hodd
    · exact tmod_two_ne_one_of_bad (Or.inr h) hodd
    · exact absurd hle (not_le.mpr h)
    · exact h hs
  · intro h
    rw [compute_orientation_deviation_fails_iff, imin_eq_min]
    rintro ⟨hle, hodd⟩
    rcases h with h | h | h
    · exact tmod_two_ne_one_of_bad (Or.inl h) hodd
    · exact tmod_two_ne_one_of_bad (Or.inr h) hodd
    · exact absurd hle (not_le.mpr h)

/-- C7, amended, at concrete calls on the 3x3 scene: patch size 2 (even), patch
size -1 (below 3, not 1) and patch size 5 (above the grid size) are rejected,
and the position filter rejects a 5x5 normal field. -/
theorem filters_reject_bad_arguments_witness :
    fails (compute_position_deviation (fun _ _ => (1 : ℚ)) 2 flat_position up_normal) = true ∧
    fails (compute_orientation_deviation (fun _ => -1) (fun x => 1 - x) (fun x => 90 * x)
      (fun _ _ => (1 : ℚ)) 2 up_normal) = true ∧
    fails (compute_position_deviation (fun _ _ => (1 : ℚ)) (-1) flat_position up_normal)
      = true ∧
    fails (compute_orientation_deviation (fun _ => -1) (fun x => 1 - x) (fun x => 90 * x)
      (fun _ _ => (1 : ℚ)) 5 up_normal) = true ∧
    fails (compute_position_deviation (fun _ _ => (1 : ℚ)) 3 flat_position up_normal_5x5)
      = true :=
  ⟨(filters_reject_bad_arguments (fun _ => -1) (fun x => 1 - x) (fun x => 90 * x)
      (fun _ _ => (1 : ℚ)) 2
      flat_position up_normal).1 (Or.inr (Or.inl (by decide))),
   (filters_reject_bad_arguments (fun _ => -1) (fun x => 1 - x) (fun x => 90 * x)
       (fun _ _ => (1 : ℚ)) 2
      flat_position up_normal).2 (Or.inr (Or.inl (by decide))),
   (filters_reject_bad_arguments (fun _ => -1) (fun x => 1 - x) (fun x => 90 * x)
       (fun _ _ => (1 : ℚ)) (-1)
      flat_position up_normal).1 (Or.inl (by decide)),
   (filters_reject_bad_arguments (fun _ => -1) (fun x => 1 - x) (fun x => 90 * x)
       (fun _ _ => (1 : ℚ)) 5
      flat_position up_normal).2 (Or.inr (Or.inr (by decide))),
   (filters_reject_bad_arguments (fun _ => -1) (fun x => 1 - x) (fun x => 90 * x)
       (fun _ _ => (1 : ℚ)) 3
      flat_position up_normal_5x5).1 (Or.inr (Or.inr (Or.inr (by decide))))⟩

/-- `DeVAS_gray_or` fails on images of different dimensions. -/
theorem DeVAS_gray_or_mismatch (fresh : Int → Int → Nat) (i1 i2 : DeVAS_image Nat)
    (hs : DeVAS_image_samesize i1 i2 = false) :
    DeVAS_gray_or fresh i1 i2 = .error .gray_or_size_mismatch := by
  simp [DeVAS_gray_or, hs]

/-- `a || b` is non-zero exactly when one operand is. -/
theorem logical_or_ne_zero (a b : Nat) : logical_or a b ≠ 0 ↔ a ≠ 0 ∨ b ≠ 0 := by
  unfold logical_or
  split_ifs with h
  · simp [h]
  · simp [h]

/-- `a || b` and `b || a` are the same value. -/
theorem logical_or_comm (a b : Nat) : logical_or a b = logical_or b a := by
  unfold logical_or
  simp only [or_comm]

/-- `a || a` is 0 for 0 and 1 for every other value. -/
theorem logical_or_self (a : Nat) : logical_or a a = if a = 0 then 0 else 1 := by
  unfold logical_or
  by_cases h : a = 0 <;> simp [h]

/-- C8: for all masks `i1`, `i2` of equal dimensions, `DeVAS_gray_or ( i1, i2 )`
has the same dimensions and its pixel at `(r, c)` is TRUE (non-zero) if and only
if `i1(r, c)` is TRUE or `i2(r, c)` is TRUE; for masks of different dimensions
it fails. -/
theorem DeVAS_gray_or_spec (fresh : Int → Int → Nat) (i1 i2 : DeVAS_image Nat) :
    ((i1.n_rows = i2.n_rows ∧ i1.n_cols = i2.n_cols) →
      ∃ out, DeVAS_gray_or fresh i1 i2 = .ok out ∧
        out.n_rows = i1.n_rows ∧ out.n_cols = i1.n_cols ∧
        ∀ r c, 0 ≤ r → r < out.n_rows → 0 ≤ c → c < out.n_cols →
          (out.data r c ≠ 0 ↔ i1.data r c ≠ 0 ∨ i2.data r c ≠ 0)) ∧
    (¬ (i1.n_rows = i2.n_rows ∧ i1.n_cols = i2.n_cols) →
      fails (DeVAS_gray_or fresh i1 i2) = true) := by
  constructor
  · rintro ⟨h1, h2⟩
    obtain ⟨out, hout, hr, hc, hdata⟩ := DeVAS_gray_or_ok fresh i1 i2
      (by simp [DeVAS_image_samesize, h1, h2])
    refine ⟨out, hout, hr, hc, ?_⟩
    intro r c hr0 hr1 hc0 hc1
    rw [hr] at hr1
    rw [hc] at hc1
    rw [hdata, if_pos ⟨hr0, hr1, hc0, hc1⟩]
    exact logical_or_ne_zero _ _
  · intro hne
    have hs : DeVAS_image_samesize i1 i2 = false := by
      simp only [DeVAS_image_samesize, Bool.and_eq_false_imp, decide_eq_true_eq,
        decide_eq_false_iff_not]
      intro h1 h2
      exact hne ⟨h1, h2⟩
    rw [DeVAS_gray_or_mismatch fresh i1 i2 hs]
    rfl

/-- C8 at concrete masks: two 2x2 masks are combined, a 2x2 mask and a 1x1 mask
are rejected. -/
theorem DeVAS_gray_or_spec_witness :
    (∃ out, DeVAS_gray_or (fun _ _ => 7) mask_a mask_b = .ok out ∧
        out.n_rows = mask_a.n_rows ∧ out.n_cols = mask_a.n_cols ∧
        ∀ r c, 0 ≤ r → r < out.n_rows → 0 ≤ c → c < out.n_cols →
          (out.data r c ≠ 0 ↔ mask_a.data r c ≠ 0 ∨ mask_b.data r c ≠ 0)) ∧
    fails (DeVAS_gray_or (fun _ _ => 7) mask_a white_mask) = true :=
  ⟨(DeVAS_gray_or_spec (fun _ _ => 7) mask_a mask_b).1 ⟨rfl, rfl⟩,
   (DeVAS_gray_or_spec (fun _ _ => 7) mask_a white_mask).2 (by decide)⟩

/-- C9: `DeVAS_gray_or` is commutative: for all masks `a`, `b` of equal
dimensions, `DeVAS_gray_or ( a, b )` and `DeVAS_gray_or ( b, a )` both succeed,
have the same dimensions and are equal pixel for pixel. -/
theorem DeVAS_gray_or_comm (fresh1 fresh2 : Int → Int → Nat) (a b : DeVAS_image Nat)
    (hrows : a.n_rows = b.n_rows) (hcols : a.n_cols = b.n_cols) :
    ∃ o1 o2, DeVAS_gray_or fresh1 a b = .ok o1 ∧ DeVAS_gray_or fresh2 b a = .ok o2 ∧
      o1.n_rows = o2.n_rows ∧ o1.n_cols = o2.n_cols ∧
      ∀ r c, 0 ≤ r → r < o1.n_rows → 0 ≤ c → c < o1.n_cols → o1.data r c = o2.data r c := by
  obtain ⟨o1, ho1, hr1, hc1, hd1⟩ := DeVAS_gray_or_ok fresh1 a b
    (by simp [DeVAS_image_samesize, hrows, hcols])
  obtain ⟨o2, ho2, hr2, hc2, hd2⟩ := DeVAS_gray_or_ok fresh2 b a
    (by simp [DeVAS_image_samesize, hrows, hcols])
  refine ⟨o1, o2, ho1, ho2, by rw [hr1, hr2, hrows], by rw [hc1, hc2, hcols], ?_⟩
  intro r c hr0 hrn hc0 hcn
  rw [hr1] at hrn
  rw [hc1] at hcn
  rw [hd1, hd2, if_pos ⟨hr0, hrn, hc0, hcn⟩,
    if_pos ⟨hr0, by rw [← hrows]; exact hrn, hc0, by rw [← hcols]; exact hcn⟩]
  exact logical_or_comm _ _

/-- C9 at the two concrete 2x2 masks. -/
theorem DeVAS_gray_or_comm_witness :
    mask_a.n_rows = mask_b.n_rows ∧ mask_a.n_cols = mask_b.n_cols ∧
    ∃ o1 o2, DeVAS_gray_or (fun _ _ => 7) mask_a mask_b = .ok o1 ∧
      DeVAS_gray_or (fun _ _ => 9) mask_b mask_a = .ok o2 ∧
      o1.n_rows = o2.n_rows ∧ o1.n_cols = o2.n_cols ∧
      ∀ r c, 0 ≤ r → r < o1.n_rows → 0 ≤ c → c < o1.n_cols → o1.data r c = o2.data r c :=
  ⟨rfl, rfl, DeVAS_gray_or_comm (fun _ _ => 7) (fun _ _ => 9) mask_a mask_b rfl rfl⟩

/-- C10, counterexample: the 1x1 mask whose pixel is the 8-bit value 255 is not
reproduced by `DeVAS_gray_or ( m, m )`, whose pixel is 1. -/
theorem DeVAS_gray_or_self_white :
    white_mask.data 0 0 < 256 ∧
    ∃ out, DeVAS_gray_or (fun _ _ => 7) white_mask white_mask = .ok out ∧
      out.data 0 0 = 1 ∧ out.data 0 0 ≠ white_mask.data 0 0 := by
  obtain ⟨out, hout, _, _, hdata⟩ := DeVAS_gray_or_ok (fun _ _ => 7) white_mask white_mask
    (by decide)
  have h00 : out.data 0 0 = 1 := by
    rw [hdata, if_pos (by decide)]
    decide
  refine ⟨by decide, out, hout, h00, ?_⟩
  rw [h00]
  decide

/-- C10, amended: for every mask `m`, `DeVAS_gray_or ( m, m )` succeeds with the
dimensions of `m`; its pixel is 0 where the pixel of `m` is 0 and 1 where the
pixel of `m` is non-zero, so it equals the pixel of `m` exactly where that pixel
is 0 or 1.  In particular `DeVAS_gray_or ( m, m )` equals `m` pixel for pixel
for every mask whose pixels are all 0 or 1. -/
theorem DeVAS_gray_or_self (fresh : Int → Int → Nat) (m : DeVAS_image Nat) :
    ∃ out, DeVAS_gray_or fresh m m = .ok out ∧
      out.n_rows = m.n_rows ∧ out.n_cols = m.n_cols ∧
      (∀ r c, 0 ≤ r → r < out.n_rows → 0 ≤ c → c < out.n_cols →
        out.data r c = (if m.data r c = 0 then 0 else 1) ∧
        (out.data r c = m.data r c ↔ m.data r c ≤ 1)) ∧
      ((∀ r c, 0 ≤ r → r < m.n_rows → 0 ≤ c → c < m.n_cols → m.data r c ≤ 1) →
        ∀ r c, 0 ≤ r → r < out.n_rows → 0 ≤ c → c < out.n_cols →
          out.data r c = m.data r c) := by
  obtain ⟨out, hout, hr, hc, hdata⟩ := DeVAS_gray_or_ok fresh m m
    (by simp [DeVAS_image_samesize])
  have key : ∀ r c, 0 ≤ r → r < out.n_rows → 0 ≤ c → c < out.n_cols →
      out.data r c = (if m.data r c = 0 then 0 else 1) := by
    intro r c hr0 hrn hc0 hcn
    rw [hr] at hrn
    rw [hc] at hcn
    rw [hdata, if_pos ⟨hr0, hrn, hc0, hcn⟩, logical_or_self]
  refine ⟨out, hout, hr, hc, ?_, ?_⟩
  · intro r c hr0 hrn hc0 hcn
    refine ⟨key r c hr0 hrn hc0 hcn, ?_⟩
    rw [key r c hr0 hrn hc0 hcn]
    split_ifs with h0 <;> omega
  · intro hbool r c hr0 hrn hc0 hcn
    have hle := hbool r c hr0 (by rw [← hr]; exact hrn) hc0 (by rw [← hc]; exact hcn)
    rw [key r c hr0 hrn hc0 hcn]
    split_ifs with h0 <;> omega

/-- C10, amended, at the concrete 2x2 mask with pixels in `{0, 1}`: the mask is
reproduced pixel for pixel. -/
theorem DeVAS_gray_or_self_witness :
    (∀ r c, 0 ≤ r → r < mask_a.n_rows → 0 ≤ c → c < mask_a.n_cols → mask_a.data r c ≤ 1) ∧
    ∃ out, DeVAS_gray_or (fun _ _ => 7) mask_a mask_a = .ok out ∧
      out.n_rows = mask_a.n_rows ∧ out.n_cols = mask_a.n_cols ∧
      ∀ r c, 0 ≤ r → r < out.n_rows → 0 ≤ c → c < out.n_cols →
        out.data r c = mask_a.data r c := by
  have hbool : ∀ r c, 0 ≤ r → r < mask_a.n_rows → 0 ≤ c → c < mask_a.n_cols →
      mask_a.data r c ≤ 1 := by
    intro r c _ _ _ _
    simp only [mask_a]
    split_ifs <;> decide
  obtain ⟨out, hout, hr, hc, _, h⟩ := DeVAS_gray_or_self (fun _ _ => 7) mask_a
  exact ⟨hbool, out, hout, hr, hc, h hbool⟩

/-- `0 || a` is 0 for 0 and 1 for every other value. -/
theorem logical_or_zero_left (a : Nat) : logical_or 0 a = if a = 0 then 0 else 1 := by
  unfold logical_or
  by_cases h : a = 0 <;> simp [h]

/-- C11, counterexample: with the 1x1 zero mask `z` and the 1x1 mask `m` whose
pixel is the 8-bit value 255, `DeVAS_gray_or ( z, m )` holds 1, not 255. -/
theorem DeVAS_gray_or_zero_white :
    white_mask.data 0 0 < 256 ∧
    ∃ out, DeVAS_gray_or (fun _ _ => 7) (zero_mask 1 1) white_mask = .ok out ∧
      out.data 0 0 = 1 ∧ out.data 0 0 ≠ white_mask.data 0 0 := by
  obtain ⟨out, hout, _, _, hdata⟩ := DeVAS_gray_or_ok (fun _ _ => 7) (zero_mask 1 1)
    white_mask (by decide)
  have h00 : out.data 0 0 = 1 := by
    rw [hdata, if_pos (by decide)]
    decide
  refine ⟨by decide, out, hout, h00, ?_⟩
  rw [h00]
  decide

/-- C11, amended: for every mask `m` and the zero mask `z` of the same
dimensions, `DeVAS_gray_or ( z, m )` succeeds with the dimensions of `m`; its
pixel is 0 where the pixel of `m` is 0 and 1 where the pixel of `m` is
non-zero, so it equals the pixel of `m` exactly where that pixel is 0 or 1.  In
particular `DeVAS_gray_or ( z, m )` equals `m` pixel for pixel for every mask
whose pixels are all 0 or 1. -/
theorem DeVAS_gray_or_zero_left (fresh : Int → Int → Nat) (m : DeVAS_image Nat) :
    ∃ out, DeVAS_gray_or fresh (zero_mask m.n_rows m.n_cols) m = .ok out ∧
      out.n_rows = m.n_rows ∧ out.n_cols = m.n_cols ∧
      (∀ r c, 0 ≤ r → r < out.n_rows → 0 ≤ c → c < out.n_cols →
        out.data r c = (if m.data r c = 0 then 0 else 1) ∧
        (out.data r c = m.data r c ↔ m.data r c ≤ 1)) ∧
      ((∀ r c, 0 ≤ r → r < m.n_rows → 0 ≤ c → c < m.n_cols → m.data r c ≤ 1) →
        ∀ r c, 0 ≤ r → r < out.n_rows → 0 ≤ c → c < out.n_cols →
          out.data r c = m.data r c) := by
  obtain ⟨out, hout, hr, hc, hdata⟩ := DeVAS_gray_or_ok fresh (zero_mask m.n_rows m.n_cols) m
    (by simp [DeVAS_image_samesize, zero_mask])
  have hr' : out.n_rows = m.n_rows := hr
  have hc' : out.n_cols = m.n_cols := hc
  have key : ∀ r c, 0 ≤ r → r < out.n_rows → 0 ≤ c → c < out.n_cols →
      out.data r c = (if m.data r c = 0 then 0 else 1) := by
    intro r c hr0 hrn hc0 hcn
    rw [hr] at hrn
    rw [hc] at hcn
    rw [hdata, if_pos ⟨hr0, hrn, hc0, hcn⟩]
    exact logical_or_zero_left _
  refine ⟨out, hout, hr', hc', ?_, ?_⟩
  · intro r c hr0 hrn hc0 hcn
    refine ⟨key r c hr0 hrn hc0 hcn, ?_⟩
    rw [key r c hr0 hrn hc0 hcn]
    split_ifs with h0 <;> omega
  · intro hbool r c hr0 hrn hc0 hcn
    have hle := hbool r c hr0 (by rw [← hr']; exact hrn) hc0 (by rw [← hc']; exact hcn)
    rw [key r c hr0 hrn hc0 hcn]
    split_ifs with h0 <;> omega

/-- C11, amended, at the concrete 2x2 mask with pixels in `{0, 1}`: combining it
with the 2x2 zero mask reproduces it pixel for pixel. -/
theorem DeVAS_gray_or_zero_left_witness :
    (∀ r c, 0 ≤ r → r < mask_a.n_rows → 0 ≤ c → c < mask_a.n_cols → mask_a.data r c ≤ 1) ∧
    ∃ out, DeVAS_gray_or (fun _ _ => 7) (zero_mask mask_a.n_rows mask_a.n_cols) mask_a
        = .ok out ∧
      out.n_rows = mask_a.n_rows ∧ out.n_cols = mask_a.n_cols ∧
      ∀ r c, 0 ≤ r → r < out.n_rows → 0 ≤ c → c < out.n_cols →
        out.data r c = mask_a.data r c := by
  have hbool : ∀ r c, 0 ≤ r → r < mask_a.n_rows → 0 ≤ c → c < mask_a.n_cols →
      mask_a.data r c ≤ 1 := by
    intro r c _ _ _ _
    simp only [mask_a]
    split_ifs <;> decide
  obtain ⟨out, hout, hr, hc, _, h⟩ := DeVAS_gray_or_zero_left (fun _ _ => 7) mask_a
  exact ⟨hbool, out, hout, hr, hc, h hbool⟩

/-! ## Accumulating loops as sums -/

/-- The closed interval of offsets `[-h, h]` is the range of the loop
`for ( i = -h; i <= h; i++ )`. -/
theorem Icc_eq_Ico_succ (lo hi : Int) : Finset.Icc lo hi = Finset.Ico lo (hi + 1) := by
  ext x
  simp only [Finset.mem_Ico, Finset.mem_Icc]
  omega

/-- A loop that adds `f x` to an accumulator computes the sum of `f` over its
range. -/
theorem forLoop_add_eq_sum {α : Type} [LinearOrderedField α] (lo hi : Int) (f : Int → α)
    (s : α) :
    forLoop lo hi (fun x t => t + f x) s = s + ∑ x ∈ Finset.Ico lo hi, f x := by
  rcases le_or_lt lo hi with hle | hlt
  · refine forLoop_inv lo hi _ s (fun y t => t = s + ∑ x ∈ Finset.Ico lo y, f x) hle ?_ ?_
    · simp
    · intro y t hy1 _ ht
      have hins : Finset.Ico lo (y + 1) = insert y (Finset.Ico lo y) := by
        ext x
        simp only [Finset.mem_Ico, Finset.mem_insert]
        omega
      rw [ht, hins, Finset.sum_insert (by simp)]
      ring
  · rw [forLoop_empty lo hi _ s (le_of_lt hlt), Finset.Ico_eq_empty (by omega)]
    simp

/-- Two nested accumulating loops compute a double sum. -/
theorem forLoop_add_eq_sum_sum {α : Type} [LinearOrderedField α] (lo hi lo2 hi2 : Int)
    (f : Int → Int → α) (s : α) :
    forLoop lo hi (fun i t => forLoop lo2 hi2 (fun j t => t + f i j) t) s =
      s + ∑ i ∈ Finset.Ico lo hi, ∑ j ∈ Finset.Ico lo2 hi2, f i j := by
  have hbody : (fun (i : Int) (t : α) => forLoop lo2 hi2 (fun j t => t + f i j) t) =
      (fun (i : Int) (t : α) => t + ∑ j ∈ Finset.Ico lo2 hi2, f i j) := by
    funext i t
    exact forLoop_add_eq_sum lo2 hi2 (f i) t
  rw [hbody]
  exact forLoop_add_eq_sum lo hi _ s

/-- The accumulated `total_deviation` of the position filter is the sum of the
terms `position_deviation_term` over the whole patch. -/
theorem position_total_deviation_eq_sum {α : Type} [LinearOrderedField α] (h : Int)
    (position surface_normal : DeVAS_image (DeVAS_XYZ α)) (r c : Int) :
    position_total_deviation h position surface_normal r c =
      ∑ i ∈ Finset.Icc (-h) h, ∑ j ∈ Finset.Icc (-h) h,
        position_deviation_term position surface_normal r c i j := by
  have h1 := forLoop_add_eq_sum_sum (-h) (h + 1) (-h) (h + 1)
    (fun i j => position_deviation_term position surface_normal r c i j) 0
  rw [zero_add] at h1
  rw [Icc_eq_Ico_succ, ← h1]
  rfl

/-- The accumulated `total_deviation` of the orientation filter is the sum of
the angles of the compared pairs: the rows above the centre, then the left half
of the centre row. -/
theorem orientation_total_deviation_eq_sum {α : Type} [LinearOrderedField α]
    (acos radian2degree : α → α) (h : Int) (surface_normal : DeVAS_image (DeVAS_XYZ α))
    (r c : Int) :
    orientation_total_deviation acos radian2degree h surface_normal r c =
      (∑ i ∈ Finset.Icc (-h) (-1), ∑ j ∈ Finset.Icc (-h) h,
        deviation_angle acos radian2degree (surface_normal.data (r + i) (c + j))
          (surface_normal.data (r - i) (c - j))) +
      ∑ j ∈ Finset.Icc (-h) (-1),
        deviation_angle acos radian2degree (surface_normal.data r (c + j))
          (surface_normal.data r (c - j)) := by
  have h1 := forLoop_add_eq_sum_sum (-h) 0 (-h) (h + 1)
    (fun i j => deviation_angle acos radian2degree (surface_normal.data (r + i) (c + j))
      (surface_normal.data (r - i) (c - j))) 0
  rw [zero_add] at h1
  have h2 := forLoop_add_eq_sum (-h) 0
    (fun j => deviation_angle acos radian2degree (surface_normal.data r (c + j))
      (surface_normal.data r (c - j)))
    (∑ i ∈ Finset.Ico (-h) 0, ∑ j ∈ Finset.Ico (-h) (h + 1),
      deviation_angle acos radian2degree (surface_normal.data (r + i) (c + j))
        (surface_normal.data (r - i) (c - j)))
  have e1 : Finset.Icc (-h) (-1) = Finset.Ico (-h) 0 := by
    rw [Icc_eq_Ico_succ]
    norm_num
  rw [e1, Icc_eq_Ico_succ, ← h2, ← h1]
  rfl

/-- C12, counterexample: in the 5x5 occlusion scenario, at the interior pixel
`(1, 2)` and the offset `(1, 0)` (the neighbour is the centre pixel at
`z = -10`), the term that the code adds is -10, whereas the stated projection
`dot(normal(r,c), position(r,c) - position(r+i,c+j))` is 10. -/
theorem position_deviation_term_bump :
    position_deviation_term (bump_position (fun _ _ => (0 : ℚ)) (fun _ _ => 0))
      up_normal_5x5 1 2 1 0 = -10 ∧
    v3d_dotprod ((up_normal_5x5 : DeVAS_image (DeVAS_XYZ ℚ)).data 1 2)
      (v3d_subtract ((bump_position (fun _ _ => (0 : ℚ)) (fun _ _ => 0)).data 1 2)
        ((bump_position (fun _ _ => (0 : ℚ)) (fun _ _ => 0)).data (1 + 1) (2 + 0))) = 10 ∧
    position_deviation_term (bump_position (fun _ _ => (0 : ℚ)) (fun _ _ => 0))
      up_normal_5x5 1 2 1 0 ≠
    v3d_dotprod ((up_normal_5x5 : DeVAS_image (DeVAS_XYZ ℚ)).data 1 2)
      (v3d_subtract ((bump_position (fun _ _ => (0 : ℚ)) (fun _ _ => 0)).data 1 2)
        ((bump_position (fun _ _ => (0 : ℚ)) (fun _ _ => 0)).data (1 + 1) (2 + 0))) := by
  have h1 : position_deviation_term (bump_position (fun _ _ => (0 : ℚ)) (fun _ _ => 0))
      up_normal_5x5 1 2 1 0 = -10 := by
    simp [position_deviation_term, v3d_dotprod, v3d_subtract, bump_position, up_normal_5x5]
  have h2 : v3d_dotprod ((up_normal_5x5 : DeVAS_image (DeVAS_XYZ ℚ)).data 1 2)
      (v3d_subtract ((bump_position (fun _ _ => (0 : ℚ)) (fun _ _ => 0)).data 1 2)
        ((bump_position (fun _ _ => (0 : ℚ)) (fun _ _ => 0)).data (1 + 1) (2 + 0))) = 10 := by
    simp [v3d_dotprod, v3d_subtract, bump_position, up_normal_5x5]
  refine ⟨h1, h2, ?_⟩
  rw [h1, h2]
  norm_num

/-- C12, amended: in `compute_position_deviation`, for every pixel `(r, c)` and
every patch offset `(i, j)`, the term that is summed is
`dot(normal(r,c), position(r+i,c+j) - position(r,c))`, the scalar projection
onto the centre normal of the vector from the centre position to the
neighbouring position; it is the negative of
`dot(normal(r,c), position(r,c) - position(r+i,c+j))`. -/
theorem position_deviation_term_spec {α : Type} [LinearOrderedField α] (h : Int)
    (position surface_normal : DeVAS_image (DeVAS_XYZ α)) (r c i j : Int) :
    position_total_deviation h position surface_normal r c =
      forLoop (-h) (h + 1) (fun i t =>
        forLoop (-h) (h + 1) (fun j t =>
          t + position_deviation_term position surface_normal r c i j) t) 0 ∧
    position_deviation_term position surface_normal r c i j =
      v3d_dotprod (surface_normal.data r c)
        (v3d_subtract (position.data (r + i) (c + j)) (position.data r c)) ∧
    position_deviation_term position surface_normal r c i j =
      -v3d_dotprod (surface_normal.data r c)
        (v3d_subtract (position.data r c) (position.data (r + i) (c + j))) := by
  refine ⟨rfl, rfl, ?_⟩
  simp only [position_deviation_term, v3d_dotprod, v3d_subtract]
  ring

/-- Where the divisor fits in `int`, the formula of C17 holds: for every accepted
input with `3 <= patch_size <= 65535` and every interior
pixel `(r, c)` (`h <= r < n_rows - h`, `h <= c < n_cols - h`,
`h = (patch_size - 1) / 2`), `compute_position_deviation` stores
`-S / (h * patch_size)` when `S < 0` and 0 when `S >= 0`, where `S` is the sum
over all offsets `(i, j)` in `[-h, h] x [-h, h]` of
`dot(normal(r,c), position(r+i,c+j) - position(r,c))`. -/
theorem position_deviation_interior_value {α : Type} [LinearOrderedField α]
    (fresh : Int → Int → α) (p : Int) (position surface_normal : DeVAS_image (DeVAS_XYZ α))
    (r c : Int)
    (hs : DeVAS_image_samesize position surface_normal = true) (h3 : 3 ≤ p) (hmax : p ≤ 65535)
    (hle : p ≤ imin position.n_rows position.n_cols) (hodd : p.tmod 2 = 1)
    (hr1 : (p - 1) / 2 ≤ r) (hr2 : r < position.n_rows - (p - 1) / 2)
    (hc1 : (p - 1) / 2 ≤ c) (hc2 : c < position.n_cols - (p - 1) / 2) :
    ∃ out, compute_position_deviation fresh p position surface_normal = .ok out ∧
      ((∑ i ∈ Finset.Icc (-((p - 1) / 2)) ((p - 1) / 2),
          ∑ j ∈ Finset.Icc (-((p - 1) / 2)) ((p - 1) / 2),
            v3d_dotprod (surface_normal.data r c)
              (v3d_subtract (position.data (r + i) (c + j)) (position.data r c))) < 0 →
        out.data r c =
          -(∑ i ∈ Finset.Icc (-((p - 1) / 2)) ((p - 1) / 2),
            ∑ j ∈ Finset.Icc (-((p - 1) / 2)) ((p - 1) / 2),
              v3d_dotprod (surface_normal.data r c)
                (v3d_subtract (position.data (r + i) (c + j)) (position.data r c))) /
            ((((p - 1) / 2 : Int) : α) * (p : α))) ∧
      (0 ≤ (∑ i ∈ Finset.Icc (-((p - 1) / 2)) ((p - 1) / 2),
          ∑ j ∈ Finset.Icc (-((p - 1) / 2)) ((p - 1) / 2),
            v3d_dotprod (surface_normal.data r c)
              (v3d_subtract (position.data (r + i) (c + j)) (position.data r c))) →
        out.data r c = 0) := by
  obtain ⟨out, hout, _, _, hdata⟩ :=
    compute_position_deviation_ok_fits fresh p position surface_normal hs hle hodd hmax
  have hh : (p - 1).tdiv 2 = (p - 1) / 2 := Int.tdiv_eq_ediv (by omega) (by norm_num)
  rw [hh] at hdata
  have hS := position_total_deviation_eq_sum ((p - 1) / 2) position surface_normal r c
  have hval := hdata r c
  rw [if_pos ⟨hr1, hr2, hc1, hc2⟩, hS] at hval
  refine ⟨out, hout, ?_, ?_⟩
  · intro hneg
    rw [hval]
    have hneg' : (∑ i ∈ Finset.Icc (-((p - 1) / 2)) ((p - 1) / 2),
        ∑ j ∈ Finset.Icc (-((p - 1) / 2)) ((p - 1) / 2),
          position_deviation_term position surface_normal r c i j) < 0 := hneg
    rw [if_pos hneg', Int.cast_mul]
    rfl
  · intro hpos
    rw [hval]
    have hpos' : ¬ (∑ i ∈ Finset.Icc (-((p - 1) / 2)) ((p - 1) / 2),
        ∑ j ∈ Finset.Icc (-((p - 1) / 2)) ((p - 1) / 2),
          position_deviation_term position surface_normal r c i j) < 0 := not_lt.mpr hpos
    rw [if_neg hpos']

/-- The formula of the position filter at the 5x5 occlusion scenario over the
rationals (`x = col`, `y = row`),
patch size 3, interior pixel `(1, 2)`: the sum `S` is -10 and the stored value is
`10 / 3`. -/
theorem position_deviation_interior_value_witness :
    DeVAS_image_samesize (bump_position (fun _ c => (c : ℚ)) (fun r _ => (r : ℚ)))
      (up_normal_5x5 : DeVAS_image (DeVAS_XYZ ℚ)) = true ∧
    (3 : Int) ≤ imin (bump_position (fun _ c => (c : ℚ)) (fun r _ => (r : ℚ))).n_rows
      (bump_position (fun _ c => (c : ℚ)) (fun r _ => (r : ℚ))).n_cols ∧
    (3 : Int).tmod 2 = 1 ∧
    ∃ out, compute_position_deviation (fun _ _ => (1 : ℚ)) 3
        (bump_position (fun _ c => (c : ℚ)) (fun r _ => (r : ℚ))) up_normal_5x5 = .ok out ∧
      out.data 1 2 = 10 / 3 := by
  refine ⟨by decide, by decide, by decide, ?_⟩
  obtain ⟨out, hout, hneg, _⟩ := position_deviation_interior_value (fun _ _ => (1 : ℚ)) 3
    (bump_position (fun _ c => (c : ℚ)) (fun r _ => (r : ℚ))) up_normal_5x5 1 2
    (by decide) (by decide) (by decide) (by decide) (by decide) (by decide) (by decide)
    (by decide) (by decide)
  have e : ((3 : Int) - 1) / 2 = 1 := by decide
  rw [e] at hneg
  have htotal : position_total_deviation 1
      (bump_position (fun _ c => (c : ℚ)) (fun r _ => (r : ℚ))) up_normal_5x5 1 2 = -10 := by
    simp [position_total_deviation, forLoop, forLoopAux, v3d_dotprod, v3d_subtract,
      bump_position, up_normal_5x5]
  have hS : (∑ i ∈ Finset.Icc (-1 : Int) 1, ∑ j ∈ Finset.Icc (-1 : Int) 1,
      v3d_dotprod ((up_normal_5x5 : DeVAS_image (DeVAS_XYZ ℚ)).data 1 2)
        (v3d_subtract
          ((bump_position (fun _ c => (c : ℚ)) (fun r _ => (r : ℚ))).data (1 + i) (2 + j))
          ((bump_position (fun _ c => (c : ℚ)) (fun r _ => (r : ℚ))).data 1 2))) = -10 :=
    (position_total_deviation_eq_sum 1
      (bump_position (fun _ c => (c : ℚ)) (fun r _ => (r : ℚ))) up_normal_5x5 1 2).symm.trans
      htotal
  rw [hS] at hneg
  refine ⟨out, hout, ?_⟩
  rw [hneg (by norm_num)]
  norm_num

/-- Where the divisor fits in `int`, the formula of C18 holds: for every accepted
input with `3 <= patch_size <= 65535` and every interior
pixel `(r, c)`, `compute_orientation_deviation` stores
`T / ((patch_size + 1) * h)`, where `T` is the sum of
`angle(normal(r+i,c+j), normal(r-i,c-j))` over all `i` in `[-h, -1]`, `j` in
`[-h, h]`, plus the sum of `angle(normal(r,c+j), normal(r,c-j))` over `j` in
`[-h, -1]`, and `angle(a, b)` is `radian2degree ( acos ( min ( dot(a,b), 1 ) ) )`. -/
theorem orientation_deviation_interior_value {α : Type} [LinearOrderedField α]
    (div_by_zero acos radian2degree : α → α) (fresh : Int → Int → α) (p : Int)
    (surface_normal : DeVAS_image (DeVAS_XYZ α)) (r c : Int) (h3 : 3 ≤ p) (hmax : p ≤ 65535)
    (hle : p ≤ imin surface_normal.n_rows surface_normal.n_cols) (hodd : p.tmod 2 = 1)
    (hr1 : (p - 1) / 2 ≤ r) (hr2 : r < surface_normal.n_rows - (p - 1) / 2)
    (hc1 : (p - 1) / 2 ≤ c) (hc2 : c < surface_normal.n_cols - (p - 1) / 2) :
    ∃ out, compute_orientation_deviation div_by_zero acos radian2degree fresh p surface_normal =
        .ok out ∧
      out.data r c =
        ((∑ i ∈ Finset.Icc (-((p - 1) / 2)) (-1), ∑ j ∈ Finset.Icc (-((p - 1) / 2)) ((p - 1) / 2),
            radian2degree (acos (min (v3d_dotprod (surface_normal.data (r + i) (c + j))
              (surface_normal.data (r - i) (c - j))) 1))) +
          ∑ j ∈ Finset.Icc (-((p - 1) / 2)) (-1),
            radian2degree (acos (min (v3d_dotprod (surface_normal.data r (c + j))
              (surface_normal.data r (c - j))) 1))) /
        (((p : α) + 1) * (((p - 1) / 2 : Int) : α)) := by
  obtain ⟨out, hout, _, _, hdata⟩ :=
    compute_orientation_deviation_ok_fits div_by_zero acos radian2degree fresh p surface_normal hle
        hodd h3 hmax
  have hh : (p - 1).tdiv 2 = (p - 1) / 2 := Int.tdiv_eq_ediv (by omega) (by norm_num)
  rw [hh] at hdata
  have hT := orientation_total_deviation_eq_sum acos radian2degree ((p - 1) / 2)
    surface_normal r c
  refine ⟨out, hout, ?_⟩
  rw [hdata r c, if_pos ⟨hr1, hr2, hc1, hc2⟩, hT, Int.cast_mul, Int.cast_add, Int.cast_one]
  rfl

/-- The formula of the orientation filter at the 5x5 crease scenario over the
rationals (`A = (1, 0, 0)`,
`B = (0, 0, 1)`, seam at column 2, stand-ins `1 - x` and `90 * x` for `acos` and
`radian2degree`), patch size 3, interior pixel `(1, 1)`. -/
theorem orientation_deviation_interior_value_witness :
    (3 : Int) ≤ imin
      (split_normal ({ X := 1, Y := 0, Z := 0 } : DeVAS_XYZ ℚ) { X := 0, Y := 0, Z := 1 } 2).n_rows
      (split_normal ({ X := 1, Y := 0, Z := 0 } : DeVAS_XYZ ℚ) { X := 0, Y := 0, Z := 1 } 2).n_cols ∧
    (3 : Int).tmod 2 = 1 ∧
    ∃ out, compute_orientation_deviation (fun _ => -1) (fun x => 1 - x) (fun x => 90 * x)
        (fun _ _ => 1) 3
        (split_normal ({ X := 1, Y := 0, Z := 0 } : DeVAS_XYZ ℚ) { X := 0, Y := 0, Z := 1 } 2)
        = .ok out ∧
      out.data 1 1 =
        ((∑ i ∈ Finset.Icc (-(((3 : Int) - 1) / 2)) (-1),
            ∑ j ∈ Finset.Icc (-(((3 : Int) - 1) / 2)) (((3 : Int) - 1) / 2),
            (fun x => 90 * x) ((fun x => 1 - x) (min (v3d_dotprod
              ((split_normal ({ X := 1, Y := 0, Z := 0 } : DeVAS_XYZ ℚ)
                { X := 0, Y := 0, Z := 1 } 2).data (1 + i) (1 + j))
              ((split_normal ({ X := 1, Y := 0, Z := 0 } : DeVAS_XYZ ℚ)
                { X := 0, Y := 0, Z := 1 } 2).data (1 - i) (1 - j))) 1))) +
          ∑ j ∈ Finset.Icc (-(((3 : Int) - 1) / 2)) (-1),
            (fun x => 90 * x) ((fun x => 1 - x) (min (v3d_dotprod
              ((split_normal ({ X := 1, Y := 0, Z := 0 } : DeVAS_XYZ ℚ)
                { X := 0, Y := 0, Z := 1 } 2).data 1 (1 + j))
              ((split_normal ({ X := 1, Y := 0, Z := 0 } : DeVAS_XYZ ℚ)
                { X := 0, Y := 0, Z := 1 } 2).data 1 (1 - j))) 1))) /
        (((((3 : Int) : ℚ)) + 1) * ((((3 : Int) - 1) / 2 : Int) : ℚ)) :=
  ⟨by decide, by decide,
    orientation_deviation_interior_value (fun _ => -1) (fun x => 1 - x) (fun x => 90 * x)
        (fun _ _ => 1) 3
      (split_normal ({ X := 1, Y := 0, Z := 0 } : DeVAS_XYZ ℚ) { X := 0, Y := 0, Z := 1 } 2)
      1 1 (by decide) (by decide) (by decide) (by decide) (by decide) (by decide)
      (by decide) (by decide)⟩

/-! ## The orchestrator as a composition -/

/-- The body of `geometry_discontinuities`, step by step: the sanity check, the
position filter, the orientation filter, then `DeVAS_gray_or` of the two masks
returned by the maxima operator. -/
theorem geometry_discontinuities_eq {α : Type} [LinearOrderedField α]
    (div_by_zero acos radian2degree : α → α) (fresh_float : Int → Int → α)
    (fresh_gray : Int → Int → Nat)
    (find_directional_maxima : Int → Int → DeVAS_image α → DeVAS_image Nat)
    (DMAX_PATCH_SIZE : Int) (coordinates : DeVAS_coordinates α)
    (xyz : DeVAS_image (DeVAS_XYZ α)) (dist : DeVAS_image α)
    (nor : DeVAS_image (DeVAS_XYZ α)) (pp op pt ot : Int) :
    geometry_discontinuities div_by_zero acos radian2degree fresh_float fresh_gray
      find_directional_maxima DMAX_PATCH_SIZE coordinates xyz dist nor pp op pt ot =
    match geometry_discontinuities_sanity_check xyz dist nor pp op with
    | .error e => .error e
    | .ok _ =>
      match compute_position_deviation fresh_float pp xyz nor with
      | .error e => .error e
      | .ok pd =>
        match compute_orientation_deviation div_by_zero acos radian2degree fresh_float op nor with
        | .error e => .error e
        | .ok od =>
          DeVAS_gray_or fresh_gray (find_directional_maxima DMAX_PATCH_SIZE pt pd)
            (find_directional_maxima DMAX_PATCH_SIZE ot od) := by
  unfold geometry_discontinuities
  cases geometry_discontinuities_sanity_check xyz dist nor pp op with
  | error e => rfl
  | ok u =>
    cases compute_position_deviation fresh_float pp xyz nor with
    | error e => rfl
    | ok pd =>
      cases compute_orientation_deviation div_by_zero acos radian2degree fresh_float op nor with
      | error e => rfl
      | ok od => rfl

/-- The content of the fresh buffer does not reach the result of
`compute_position_deviation`: the buffer is overwritten by the zero fill. -/
theorem compute_position_deviation_fresh {α : Type} [LinearOrderedField α]
    (fresh1 fresh2 : Int → Int → α) (p : Int)
    (position surface_normal : DeVAS_image (DeVAS_XYZ α)) :
    compute_position_deviation fresh1 p position surface_normal =
      compute_position_deviation fresh2 p position surface_normal := rfl

/-- The content of the fresh buffer does not reach the result of
`compute_orientation_deviation`. -/
theorem compute_orientation_deviation_fresh {α : Type} [LinearOrderedField α]
    (div_by_zero acos radian2degree : α → α) (fresh1 fresh2 : Int → Int → α) (p : Int)
    (surface_normal : DeVAS_image (DeVAS_XYZ α)) :
    compute_orientation_deviation div_by_zero acos radian2degree fresh1 p surface_normal =
      compute_orientation_deviation div_by_zero acos radian2degree fresh2 p surface_normal := rfl

/-- The sanity check reads only the dimensions of the distance field. -/
theorem sanity_check_dist_dims {α : Type} (xyz : DeVAS_image (DeVAS_XYZ α))
    (dist1 dist2 : DeVAS_image α) (nor : DeVAS_image (DeVAS_XYZ α)) (pp op : Int)
    (hrows : dist1.n_rows = dist2.n_rows) (hcols : dist1.n_cols = dist2.n_cols) :
    geometry_discontinuities_sanity_check xyz dist1 nor pp op =
      geometry_discontinuities_sanity_check xyz dist2 nor pp op := by
  unfold geometry_discontinuities_sanity_check
  simp only [DeVAS_image_samesize, hrows, hcols]

/-- C13: whenever the argument validation passes, and the external maxima
operator `M` returns a mask of the dimensions of its input,
`geometry_discontinuities` returns
`DeVAS_gray_or ( M ( DMAX_PATCH_SIZE, position_threshold, P ), M ( DMAX_PATCH_SIZE, orientation_threshold, O ) )`
with `P = compute_position_deviation ( position_patch_size, xyz, nor )` and
`O = compute_orientation_deviation ( orientation_patch_size, nor )`, both of
which succeed; the result has the dimensions of `xyz` and its pixel is TRUE iff
the pixel is TRUE in the position mask or in the orientation mask. -/
theorem geometry_discontinuities_refines {α : Type} [LinearOrderedField α]
    (div_by_zero acos radian2degree : α → α) (fresh_float : Int → Int → α)
    (fresh_gray : Int → Int → Nat)
    (find_directional_maxima : Int → Int → DeVAS_image α → DeVAS_image Nat)
    (DMAX_PATCH_SIZE : Int) (coordinates : DeVAS_coordinates α)
    (xyz : DeVAS_image (DeVAS_XYZ α)) (dist : DeVAS_image α)
    (nor : DeVAS_image (DeVAS_XYZ α)) (pp op pt ot : Int)
    (hcheck : geometry_discontinuities_sanity_check xyz dist nor pp op = .ok ())
    (hM : ∀ a b img, (find_directional_maxima a b img).n_rows = img.n_rows ∧
      (find_directional_maxima a b img).n_cols = img.n_cols) :
    ∃ pd od out,
      compute_position_deviation fresh_float pp xyz nor = .ok pd ∧
      compute_orientation_deviation div_by_zero acos radian2degree fresh_float op nor = .ok od ∧
      DeVAS_gray_or fresh_gray (find_directional_maxima DMAX_PATCH_SIZE pt pd)
        (find_directional_maxima DMAX_PATCH_SIZE ot od) = .ok out ∧
      geometry_discontinuities div_by_zero acos radian2degree fresh_float fresh_gray
        find_directional_maxima DMAX_PATCH_SIZE coordinates xyz dist nor pp op pt ot
          = .ok out ∧
      out.n_rows = xyz.n_rows ∧ out.n_cols = xyz.n_cols ∧
      ∀ r c, 0 ≤ r → r < out.n_rows → 0 ≤ c → c < out.n_cols →
        (out.data r c ≠ 0 ↔
          (find_directional_maxima DMAX_PATCH_SIZE pt pd).data r c ≠ 0 ∨
          (find_directional_maxima DMAX_PATCH_SIZE ot od).data r c ≠ 0) := by
  obtain ⟨-, a2, -, -, a5, a6, a7, a8⟩ := (sanity_check_ok_iff xyz dist nor pp op).mp hcheck
  have hdim := a2
  simp only [DeVAS_image_samesize, Bool.and_eq_true, decide_eq_true_eq] at hdim
  have hle1 : pp ≤ imin xyz.n_rows xyz.n_cols := a7
  have hle2 : op ≤ imin nor.n_rows nor.n_cols := by
    rw [← hdim.1, ← hdim.2]; exact a8
  obtain ⟨pd, hpd, hpr, hpc, -⟩ :=
    compute_position_deviation_ok fresh_float pp xyz nor a2 hle1 a5
  obtain ⟨od, hod, hor, hoc, -⟩ :=
    compute_orientation_deviation_ok div_by_zero acos radian2degree fresh_float op nor hle2 a6
  have hsame : DeVAS_image_samesize (find_directional_maxima DMAX_PATCH_SIZE pt pd)
      (find_directional_maxima DMAX_PATCH_SIZE ot od) = true := by
    simp only [DeVAS_image_samesize, Bool.and_eq_true, decide_eq_true_eq]
    rw [(hM _ _ pd).1, (hM _ _ pd).2, (hM _ _ od).1, (hM _ _ od).2, hpr, hpc, hor, hoc]
    exact hdim
  obtain ⟨out, hout, hr, hc, hdata⟩ := DeVAS_gray_or_ok fresh_gray _ _ hsame
  refine ⟨pd, od, out, hpd, hod, hout, ?_, ?_, ?_, ?_⟩
  · rw [geometry_discontinuities_eq, hcheck, hpd, hod]
    exact hout
  · rw [hr, (hM _ _ pd).1, hpr]
  · rw [hc, (hM _ _ pd).2, hpc]
  · intro r c hr0 hrn hc0 hcn
    rw [hr] at hrn
    rw [hc] at hcn
    rw [hdata, if_pos ⟨hr0, hrn, hc0, hcn⟩]
    exact logical_or_ne_zero _ _

/-- C13 at the 3x3 scene with both patch sizes 3 and the all-FALSE stand-in for
the maxima operator. -/
theorem geometry_discontinuities_refines_witness :
    geometry_discontinuities_sanity_check flat_position unit_dist up_normal 3 3 = .ok () ∧
    ∃ pd od out,
      compute_position_deviation (fun _ _ => 1) 3 flat_position up_normal = .ok pd ∧
      compute_orientation_deviation (fun _ => -1) (fun x => 1 - x) (fun x => 90 * x) (fun _ _ => 1)
          3
        up_normal = .ok od ∧
      DeVAS_gray_or (fun _ _ => 7) (no_maxima 3 2 pd) (no_maxima 3 20 od) = .ok out ∧
      geometry_discontinuities (fun _ => -1) (fun x => 1 - x) (fun x => 90 * x) (fun _ _ => 1)
        (fun _ _ => 7) no_maxima 3 feet_coordinates flat_position unit_dist up_normal
        3 3 2 20 = .ok out ∧
      out.n_rows = flat_position.n_rows ∧ out.n_cols = flat_position.n_cols ∧
      ∀ r c, 0 ≤ r → r < out.n_rows → 0 ≤ c → c < out.n_cols →
        (out.data r c ≠ 0 ↔
          (no_maxima 3 2 pd).data r c ≠ 0 ∨ (no_maxima 3 20 od).data r c ≠ 0) := by
  have hcheck :
      geometry_discontinuities_sanity_check flat_position unit_dist up_normal 3 3 = .ok () :=
    (sanity_check_ok_iff flat_position unit_dist up_normal 3 3).mpr
      ⟨by decide, by decide, by decide, by decide, by decide, by decide, by decide,
        by decide⟩
  exact ⟨hcheck,
    geometry_discontinuities_refines (fun _ => -1) (fun x => 1 - x) (fun x => 90 * x) (fun _ _ => 1)
      (fun _ _ => 7) no_maxima 3 feet_coordinates flat_position unit_dist up_normal
      3 3 2 20 hcheck (fun _ _ _ => ⟨rfl, rfl⟩)⟩

/-- C14: the result of `geometry_discontinuities` does not depend on the
coordinates descriptor or on the values of the distance field (nor on what the
fresh buffers held): two calls that agree on `xyz`, `nor`, the two patch sizes
and the two thresholds, and whose `dist` fields have the same dimensions, either
both fail with the same error or both return masks of the same dimensions that
are equal pixel for pixel, the maxima operator being the same function in both
calls. -/
theorem geometry_discontinuities_ignores_coordinates_and_dist {α : Type}
    [LinearOrderedField α] (div_by_zero acos radian2degree : α → α)
    (fresh_float1 fresh_float2 : Int → Int → α) (fresh_gray1 fresh_gray2 : Int → Int → Nat)
    (find_directional_maxima : Int → Int → DeVAS_image α → DeVAS_image Nat)
    (DMAX_PATCH_SIZE : Int) (coordinates1 coordinates2 : DeVAS_coordinates α)
    (xyz : DeVAS_image (DeVAS_XYZ α)) (dist1 dist2 : DeVAS_image α)
    (nor : DeVAS_image (DeVAS_XYZ α)) (pp op pt ot : Int)
    (hrows : dist1.n_rows = dist2.n_rows) (hcols : dist1.n_cols = dist2.n_cols) :
    (∃ e,
      geometry_discontinuities div_by_zero acos radian2degree fresh_float1 fresh_gray1
        find_directional_maxima DMAX_PATCH_SIZE coordinates1 xyz dist1 nor pp op pt ot
          = .error e ∧
      geometry_discontinuities div_by_zero acos radian2degree fresh_float2 fresh_gray2
        find_directional_maxima DMAX_PATCH_SIZE coordinates2 xyz dist2 nor pp op pt ot
          = .error e) ∨
    (∃ o1 o2,
      geometry_discontinuities div_by_zero acos radian2degree fresh_float1 fresh_gray1
        find_directional_maxima DMAX_PATCH_SIZE coordinates1 xyz dist1 nor pp op pt ot
          = .ok o1 ∧
      geometry_discontinuities div_by_zero acos radian2degree fresh_float2 fresh_gray2
        find_directional_maxima DMAX_PATCH_SIZE coordinates2 xyz dist2 nor pp op pt ot
          = .ok o2 ∧
      o1.n_rows = o2.n_rows ∧ o1.n_cols = o2.n_cols ∧
      ∀ r c, 0 ≤ r → r < o1.n_rows → 0 ≤ c → c < o1.n_cols →
        o1.data r c = o2.data r c) := by
  rw [geometry_discontinuities_eq, geometry_discontinuities_eq,
    sanity_check_dist_dims xyz dist1 dist2 nor pp op hrows hcols,
    compute_position_deviation_fresh fresh_float1 fresh_float2,
    compute_orientation_deviation_fresh div_by_zero acos radian2degree fresh_float1 fresh_float2]
  cases geometry_discontinuities_sanity_check xyz dist2 nor pp op with
  | error e => exact Or.inl ⟨e, rfl, rfl⟩
  | ok u =>
    cases compute_position_deviation fresh_float2 pp xyz nor with
    | error e => exact Or.inl ⟨e, rfl, rfl⟩
    | ok pd =>
      cases compute_orientation_deviation div_by_zero acos radian2degree fresh_float2 op nor with
      | error e => exact Or.inl ⟨e, rfl, rfl⟩
      | ok od =>
        dsimp only
        cases hsame : DeVAS_image_samesize (find_directional_maxima DMAX_PATCH_SIZE pt pd)
            (find_directional_maxima DMAX_PATCH_SIZE ot od) with
        | false =>
          exact Or.inl ⟨.gray_or_size_mismatch, DeVAS_gray_or_mismatch _ _ _ hsame,
            DeVAS_gray_or_mismatch _ _ _ hsame⟩
        | true =>
          obtain ⟨o1, ho1, hr1, hc1, hd1⟩ := DeVAS_gray_or_ok fresh_gray1 _ _ hsame
          obtain ⟨o2, ho2, hr2, hc2, hd2⟩ := DeVAS_gray_or_ok fresh_gray2 _ _ hsame
          refine Or.inr ⟨o1, o2, ho1, ho2, hr1.trans hr2.symm, hc1.trans hc2.symm, ?_⟩
          intro r c hr0 hrn hc0 hcn
          rw [hr1] at hrn
          rw [hc1] at hcn
          rw [hd1, hd2, if_pos ⟨hr0, hrn, hc0, hcn⟩, if_pos ⟨hr0, hrn, hc0, hcn⟩]

/-- C14 at the 3x3 scene: a call with the feet descriptor and the distance field
of 1s, and a call with the meters descriptor and the distance field of 500s. -/
theorem geometry_discontinuities_ignores_coordinates_and_dist_witness :
    unit_dist.n_rows = far_dist.n_rows ∧ unit_dist.n_cols = far_dist.n_cols ∧
    ((∃ e,
      geometry_discontinuities (fun _ => -1) (fun x => 1 - x) (fun x => 90 * x) (fun _ _ => 1)
        (fun _ _ => 7) no_maxima 3 feet_coordinates flat_position unit_dist up_normal
        3 3 2 20 = .error e ∧
      geometry_discontinuities (fun _ => -1) (fun x => 1 - x) (fun x => 90 * x) (fun _ _ => 2)
        (fun _ _ => 9) no_maxima 3 meters_coordinates flat_position far_dist up_normal
        3 3 2 20 = .error e) ∨
    (∃ o1 o2,
      geometry_discontinuities (fun _ => -1) (fun x => 1 - x) (fun x => 90 * x) (fun _ _ => 1)
        (fun _ _ => 7) no_maxima 3 feet_coordinates flat_position unit_dist up_normal
        3 3 2 20 = .ok o1 ∧
      geometry_discontinuities (fun _ => -1) (fun x => 1 - x) (fun x => 90 * x) (fun _ _ => 2)
        (fun _ _ => 9) no_maxima 3 meters_coordinates flat_position far_dist up_normal
        3 3 2 20 = .ok o2 ∧
      o1.n_rows = o2.n_rows ∧ o1.n_cols = o2.n_cols ∧
      ∀ r c, 0 ≤ r → r < o1.n_rows → 0 ≤ c → c < o1.n_cols →
        o1.data r c = o2.data r c)) :=
  ⟨rfl, rfl,
    geometry_discontinuities_ignores_coordinates_and_dist (fun _ => -1) (fun x => 1 - x)
        (fun x => 90 * x)
      (fun _ _ => 1) (fun _ _ => 2) (fun _ _ => 7) (fun _ _ => 9) no_maxima 3
      feet_coordinates meters_coordinates flat_position unit_dist far_dist up_normal
      3 3 2 20 rfl rfl⟩

/-! ## Unit standardisation -/

/-- One scan line of an in-place update: the loop over `col` that replaces the
pixel at `(row, col)` by `g` of its value. -/
theorem forLoop_update_row {β : Type} (g : β → β) (row c0 c1 : Int) (img : DeVAS_image β) :
    (forLoop c0 c1 (fun col im => im.set row col (g (im.data row col))) img).n_rows
      = img.n_rows ∧
    (forLoop c0 c1 (fun col im => im.set row col (g (im.data row col))) img).n_cols
      = img.n_cols ∧
    ∀ r c, (forLoop c0 c1 (fun col im => im.set row col (g (im.data row col))) img).data r c =
      if r = row ∧ c0 ≤ c ∧ c < c1 then g (img.data r c) else img.data r c := by
  rcases le_or_lt c0 c1 with hle | hlt
  · refine forLoop_inv c0 c1 _ img (fun y t => t.n_rows = img.n_rows ∧
      t.n_cols = img.n_cols ∧ ∀ r c, t.data r c =
        if r = row ∧ c0 ≤ c ∧ c < y then g (img.data r c) else img.data r c) hle ?_ ?_
    · refine ⟨rfl, rfl, ?_⟩
      intro r c
      have : ¬ (r = row ∧ c0 ≤ c ∧ c < c0) := by omega
      simp [this]
    · rintro y t hy1 hy2 ⟨hr, hc, hd⟩
      refine ⟨hr, hc, ?_⟩
      intro r c
      have hy : t.data row y = img.data row y := by
        rw [hd, if_neg (by omega)]
      simp only [DeVAS_image.set, hd, hy]
      by_cases h1 : r = row ∧ c = y
      · obtain ⟨h1a, h1b⟩ := h1
        subst h1a h1b
        have : c0 ≤ c ∧ c < c + 1 := by omega
        simp [this]
      · rw [if_neg h1]
        by_cases h2 : r = row ∧ c0 ≤ c ∧ c < y
        · have : r = row ∧ c0 ≤ c ∧ c < y + 1 := by omega
          rw [if_pos h2, if_pos this]
        · have : ¬ (r = row ∧ c0 ≤ c ∧ c < y + 1) := by
            rintro ⟨a, b, c'⟩
            rcases eq_or_lt_of_le (Int.lt_add_one_iff.mp c') with h3 | h3
            · exact h1 ⟨a, h3⟩
            · exact h2 ⟨a, b, h3⟩
          rw [if_neg h2, if_neg this]
  · rw [forLoop_empty c0 c1 _ img (le_of_lt hlt)]
    refine ⟨rfl, rfl, ?_⟩
    intro r c
    have : ¬ (r = row ∧ c0 ≤ c ∧ c < c1) := by omega
    simp [this]

/-- The in-place raster scan: every pixel of the grid is replaced by `g` of its
value, the dimensions are kept. -/
theorem forLoop_update_rect {β : Type} (g : β → β) (img : DeVAS_image β) :
    (forLoop 0 img.n_rows (fun row im =>
      forLoop 0 im.n_cols (fun col im => im.set row col (g (im.data row col))) im) img).n_rows
        = img.n_rows ∧
    (forLoop 0 img.n_rows (fun row im =>
      forLoop 0 im.n_cols (fun col im => im.set row col (g (im.data row col))) im) img).n_cols
        = img.n_cols ∧
    ∀ r c, (forLoop 0 img.n_rows (fun row im =>
      forLoop 0 im.n_cols (fun col im => im.set row col (g (im.data row col))) im) img).data r c =
      if 0 ≤ r ∧ r < img.n_rows ∧ 0 ≤ c ∧ c < img.n_cols then g (img.data r c)
      else img.data r c := by
  rcases le_or_lt 0 img.n_rows with hle | hlt
  · refine forLoop_inv 0 img.n_rows _ img (fun y t => t.n_rows = img.n_rows ∧
      t.n_cols = img.n_cols ∧ ∀ r c, t.data r c =
        if 0 ≤ r ∧ r < y ∧ 0 ≤ c ∧ c < img.n_cols then g (img.data r c)
        else img.data r c) hle ?_ ?_
    · refine ⟨rfl, rfl, ?_⟩
      intro r c
      have : ¬ (0 ≤ r ∧ r < 0 ∧ 0 ≤ c ∧ c < img.n_cols) := by omega
      simp [this]
    · rintro y t hy1 hy2 ⟨hr, hc, hd⟩
      obtain ⟨h1, h2, h3⟩ := forLoop_update_row g y 0 t.n_cols t
      refine ⟨h1.trans hr, h2.trans hc, ?_⟩
      intro r c
      rw [h3, hd, hc]
      by_cases ha : r = y ∧ 0 ≤ c ∧ c < img.n_cols
      · have hb : ¬ (0 ≤ r ∧ r < y ∧ 0 ≤ c ∧ c < img.n_cols) := by omega
        have : 0 ≤ r ∧ r < y + 1 ∧ 0 ≤ c ∧ c < img.n_cols := by omega
        rw [if_pos ha, if_neg hb, if_pos this]
      · rw [if_neg ha]
        by_cases hb : 0 ≤ r ∧ r < y ∧ 0 ≤ c ∧ c < img.n_cols
        · have : 0 ≤ r ∧ r < y + 1 ∧ 0 ≤ c ∧ c < img.n_cols := by omega
          rw [if_pos hb, if_pos this]
        · have : ¬ (0 ≤ r ∧ r < y + 1 ∧ 0 ≤ c ∧ c < img.n_cols) := by omega
          rw [if_neg hb, if_neg this]
  · rw [forLoop_empty 0 img.n_rows _ img (le_of_lt hlt)]
    refine ⟨rfl, rfl, ?_⟩
    intro r c
    have : ¬ (0 ≤ r ∧ r < img.n_rows ∧ 0 ≤ c ∧ c < img.n_cols) := by omega
    simp [this]

/-- The three component assignments of `standard_units_3D` at one pixel amount
to one assignment of the scaled vector, so the function is an in-place raster
scan. -/
theorem standard_units_3D_eq {α : Type} [LinearOrderedField α]
    (threeDgeom : DeVAS_image (DeVAS_XYZ α)) (coordinates : DeVAS_coordinates α) :
    standard_units_3D threeDgeom coordinates =
      forLoop 0 threeDgeom.n_rows (fun row im =>
        forLoop 0 im.n_cols (fun col im => im.set row col
          ((fun v : DeVAS_XYZ α =>
            { X := v.X * coordinates.convert_to_centimeters,
              Y := v.Y * coordinates.convert_to_centimeters,
              Z := v.Z * coordinates.convert_to_centimeters }) (im.data row col))) im)
        threeDgeom := by
  unfold standard_units_3D
  dsimp only
  congr 1
  funext row im
  congr 1
  funext col im2
  simp only [DeVAS_image.set, and_self, if_true]
  congr 1
  funext r c
  by_cases h : r = row ∧ c = col <;> simp [h]

/-- C15: for every field and every coordinates descriptor with conversion factor
`k`, `standard_units_3D` replaces each of the `X`, `Y`, `Z` components of every
pixel by `k` times its previous value and `standard_units_1D` replaces every
scalar pixel by `k` times its previous value, leaving the dimensions unchanged;
in particular the single pixel `(1, 1, 1)` with the feet factor 30.48 becomes
`(30.48, 30.48, 30.48)`. -/
theorem standard_units_scale {α : Type} [LinearOrderedField α]
    (threeDgeom : DeVAS_image (DeVAS_XYZ α)) (oneDgeom : DeVAS_image α)
    (coordinates : DeVAS_coordinates α) :
    ((standard_units_3D threeDgeom coordinates).n_rows = threeDgeom.n_rows ∧
      (standard_units_3D threeDgeom coordinates).n_cols = threeDgeom.n_cols ∧
      ∀ r c, 0 ≤ r → r < threeDgeom.n_rows → 0 ≤ c → c < threeDgeom.n_cols →
        ((standard_units_3D threeDgeom coordinates).data r c).X =
          coordinates.convert_to_centimeters * (threeDgeom.data r c).X ∧
        ((standard_units_3D threeDgeom coordinates).data r c).Y =
          coordinates.convert_to_centimeters * (threeDgeom.data r c).Y ∧
        ((standard_units_3D threeDgeom coordinates).data r c).Z =
          coordinates.convert_to_centimeters * (threeDgeom.data r c).Z) ∧
    ((standard_units_1D oneDgeom coordinates).n_rows = oneDgeom.n_rows ∧
      (standard_units_1D oneDgeom coordinates).n_cols = oneDgeom.n_cols ∧
      ∀ r c, 0 ≤ r → r < oneDgeom.n_rows → 0 ≤ c → c < oneDgeom.n_cols →
        (standard_units_1D oneDgeom coordinates).data r c =
          coordinates.convert_to_centimeters * oneDgeom.data r c) ∧
    (((standard_units_3D (single_pixel : DeVAS_image (DeVAS_XYZ α))
        { units := .feet, convert_to_centimeters := 30.48 }).data 0 0).X = 30.48 ∧
      ((standard_units_3D (single_pixel : DeVAS_image (DeVAS_XYZ α))
        { units := .feet, convert_to_centimeters := 30.48 }).data 0 0).Y = 30.48 ∧
      ((standard_units_3D (single_pixel : DeVAS_image (DeVAS_XYZ α))
        { units := .feet, convert_to_centimeters := 30.48 }).data 0 0).Z = 30.48) := by
  have h3D : ∀ (g : DeVAS_image (DeVAS_XYZ α)) (cd : DeVAS_coordinates α),
      (standard_units_3D g cd).n_rows = g.n_rows ∧
      (standard_units_3D g cd).n_cols = g.n_cols ∧
      ∀ r c, 0 ≤ r → r < g.n_rows → 0 ≤ c → c < g.n_cols →
        ((standard_units_3D g cd).data r c).X = cd.convert_to_centimeters * (g.data r c).X ∧
        ((standard_units_3D g cd).data r c).Y = cd.convert_to_centimeters * (g.data r c).Y ∧
        ((standard_units_3D g cd).data r c).Z = cd.convert_to_centimeters * (g.data r c).Z := by
    intro g cd
    rw [standard_units_3D_eq]
    obtain ⟨h1, h2, h3⟩ := forLoop_update_rect
      (fun v : DeVAS_XYZ α =>
        ({ X := v.X * cd.convert_to_centimeters, Y := v.Y * cd.convert_to_centimeters,
           Z := v.Z * cd.convert_to_centimeters } : DeVAS_XYZ α)) g
    refine ⟨h1, h2, ?_⟩
    intro r c hr0 hrn hc0 hcn
    rw [h3, if_pos ⟨hr0, hrn, hc0, hcn⟩]
    exact ⟨mul_comm _ _, mul_comm _ _, mul_comm _ _⟩
  refine ⟨h3D threeDgeom coordinates, ?_, ?_⟩
  · obtain ⟨h1, h2, h3⟩ := forLoop_update_rect
      (fun v : α => v * coordinates.convert_to_centimeters) oneDgeom
    refine ⟨h1, h2, ?_⟩
    intro r c hr0 hrn hc0 hcn
    have h4 := h3 r c
    rw [if_pos ⟨hr0, hrn, hc0, hcn⟩] at h4
    exact h4.trans (mul_comm _ _)
  · obtain ⟨-, -, h⟩ := h3D (single_pixel : DeVAS_image (DeVAS_XYZ α))
      { units := .feet, convert_to_centimeters := 30.48 }
    obtain ⟨hx, hy, hz⟩ := h 0 0 le_rfl (by simp [single_pixel]) le_rfl
      (by simp [single_pixel])
    refine ⟨?_, ?_, ?_⟩
    · rw [hx]; simp [single_pixel]
    · rw [hy]; simp [single_pixel]
    · rw [hz]; simp [single_pixel]

/-- C15 at a concrete scene over the rationals: the 3x3 planar field and the 3x3
distance field with the feet descriptor, at pixel `(2, 1)`. -/
theorem standard_units_scale_witness :
    (0 : Int) ≤ 2 ∧ (2 : Int) < flat_position.n_rows ∧ (1 : Int) < flat_position.n_cols ∧
    ((standard_units_3D flat_position feet_coordinates).data 2 1).X
      = feet_coordinates.convert_to_centimeters * (flat_position.data 2 1).X ∧
    ((standard_units_3D flat_position feet_coordinates).data 2 1).Y
      = feet_coordinates.convert_to_centimeters * (flat_position.data 2 1).Y ∧
    ((standard_units_3D flat_position feet_coordinates).data 2 1).Z
      = feet_coordinates.convert_to_centimeters * (flat_position.data 2 1).Z ∧
    (standard_units_1D unit_dist feet_coordinates).data 2 1
      = feet_coordinates.convert_to_centimeters * unit_dist.data 2 1 :=
  ⟨by decide, by decide, by decide,
    ((standard_units_scale flat_position unit_dist feet_coordinates).1.2.2 2 1
      (by decide) (by decide) (by decide) (by decide)).1,
    ((standard_units_scale flat_position unit_dist feet_coordinates).1.2.2 2 1
      (by decide) (by decide) (by decide) (by decide)).2.1,
    ((standard_units_scale flat_position unit_dist feet_coordinates).1.2.2 2 1
      (by decide) (by decide) (by decide) (by decide)).2.2,
    (standard_units_scale flat_position unit_dist feet_coordinates).2.1.2.2 2 1
      (by decide) (by decide) (by decide) (by decide)⟩

/-- C16: the unit selection of `DeVAS_coordinates_from_file` maps the unit string
"centimeters" to `(centimeters, 1.0)`, "meters" to `(meters, 100.0)`, "inches" to
`(inches, 2.54)` and "feet" to `(feet, 30.48)`, and fails for every other unit
string; hence every descriptor it returns has a strictly positive conversion
factor, the one that belongs to its unit. -/
theorem units_selection_spec {α : Type} [LinearOrderedField α] (units_string : String) :
    (DeVAS_coordinates_from_file_units "centimeters" =
      .ok ({ units := .centimeters, convert_to_centimeters := 1.0 } : DeVAS_coordinates α)) ∧
    (DeVAS_coordinates_from_file_units "meters" =
      .ok ({ units := .meters, convert_to_centimeters := 100.0 } : DeVAS_coordinates α)) ∧
    (DeVAS_coordinates_from_file_units "inches" =
      .ok ({ units := .inches, convert_to_centimeters := 2.54 } : DeVAS_coordinates α)) ∧
    (DeVAS_coordinates_from_file_units "feet" =
      .ok ({ units := .feet, convert_to_centimeters := 30.48 } : DeVAS_coordinates α)) ∧
    (units_string ≠ "centimeters" → units_string ≠ "meters" → units_string ≠ "inches" →
      units_string ≠ "feet" →
      (DeVAS_coordinates_from_file_units units_string :
        Except ExitFailure (DeVAS_coordinates α)) = .error .invalid_units) ∧
    (∀ d : DeVAS_coordinates α, DeVAS_coordinates_from_file_units units_string = .ok d →
      0 < d.convert_to_centimeters ∧
      ((d.units = .centimeters ∧ d.convert_to_centimeters = 1.0) ∨
        (d.units = .meters ∧ d.convert_to_centimeters = 100.0) ∨
        (d.units = .inches ∧ d.convert_to_centimeters = 2.54) ∨
        (d.units = .feet ∧ d.convert_to_centimeters = 30.48))) := by
  refine ⟨?_, ?_, ?_, ?_, ?_, ?_⟩
  · simp [DeVAS_coordinates_from_file_units]
  · simp [DeVAS_coordinates_from_file_units]
  · simp [DeVAS_coordinates_from_file_units]
  · simp [DeVAS_coordinates_from_file_units]
  · intro h1 h2 h3 h4
    simp [DeVAS_coordinates_from_file_units, h1, h2, h3, h4]
  · intro d hd
    unfold DeVAS_coordinates_from_file_units at hd
    split_ifs at hd with h1 h2 h3 h4
    · cases hd
      exact ⟨by norm_num, Or.inl ⟨rfl, rfl⟩⟩
    · cases hd
      exact ⟨by norm_num, Or.inr (Or.inl ⟨rfl, rfl⟩)⟩
    · cases hd
      exact ⟨by norm_num, Or.inr (Or.inr (Or.inl ⟨rfl, rfl⟩))⟩
    · cases hd
      exact ⟨by norm_num, Or.inr (Or.inr (Or.inr ⟨rfl, rfl⟩))⟩

/-- C16 at concrete unit strings over the rationals: "furlongs" is rejected, and
the descriptor returned for "feet" has the positive factor 30.48. -/
theorem units_selection_spec_witness :
    (DeVAS_coordinates_from_file_units "furlongs" :
      Except ExitFailure (DeVAS_coordinates ℚ)) = .error .invalid_units ∧
    (0 : ℚ) < feet_coordinates.convert_to_centimeters ∧
    ((feet_coordinates.units = .centimeters ∧ feet_coordinates.convert_to_centimeters = 1.0) ∨
      (feet_coordinates.units = .meters ∧ feet_coordinates.convert_to_centimeters = 100.0) ∨
      (feet_coordinates.units = .inches ∧ feet_coordinates.convert_to_centimeters = 2.54) ∨
      (feet_coordinates.units = .feet ∧ feet_coordinates.convert_to_centimeters = 30.48)) :=
  ⟨(units_selection_spec "furlongs").2.2.2.2.1 (by decide) (by decide) (by decide)
      (by decide),
    ((units_selection_spec "feet").2.2.2.2.2 feet_coordinates
      (units_selection_spec "feet").2.2.2.1).1,
    ((units_selection_spec "feet").2.2.2.2.2 feet_coordinates
      (units_selection_spec "feet").2.2.2.1).2⟩

/-! ## The comparisons of the orientation filter -/

/-- Two loops over the same range whose bodies keep a relation between their
states end in related states. -/
theorem forLoopAux_rel {σ τ : Type} (R : σ → τ → Prop) (b1 : Int → σ → σ)
    (b2 : Int → τ → τ) :
    ∀ (n : Nat) (x : Int) (s : σ) (t : τ), R s t →
      (∀ y s t, x ≤ y → y < x + n → R s t → R (b1 y s) (b2 y t)) →
      R (forLoopAux b1 n x s) (forLoopAux b2 n x t) := by
  intro n
  induction n with
  | zero =>
    intro x s t h0 _
    simpa [forLoopAux] using h0
  | succ k ih =>
    intro x s t h0 hstep
    have h1 : R (b1 x s) (b2 x t) := hstep x s t le_rfl (by push_cast; omega) h0
    exact ih (x + 1) (b1 x s) (b2 x t) h1 (fun y s t hy1 hy2 hR =>
      hstep y s t (by omega) (by push_cast; omega) hR)

/-- Relational rule for two `for` loops over the same range. -/
theorem forLoop_rel {σ τ : Type} (R : σ → τ → Prop) (lo hi : Int) (b1 : Int → σ → σ)
    (b2 : Int → τ → τ) (s : σ) (t : τ) (h0 : R s t)
    (hstep : ∀ y s t, lo ≤ y → y < hi → R s t → R (b1 y s) (b2 y t)) :
    R (forLoop lo hi b1 s) (forLoop lo hi b2 t) := by
  refine forLoopAux_rel R b1 b2 (hi - lo).toNat lo s t h0 ?_
  intro y s t hy1 hy2 hR
  refine hstep y s t hy1 ?_ hR
  have : ((hi - lo).toNat : Int) ≤ max (hi - lo) 0 := by
    rcases le_or_lt 0 (hi - lo) with h | h
    · rw [Int.toNat_of_nonneg h]; exact le_max_left _ _
    · rw [Int.toNat_eq_zero.mpr (le_of_lt h)]; exact le_max_right _ _
  rcases le_or_lt 0 (hi - lo) with h | h
  · rw [max_eq_left h] at this; omega
  · rw [max_eq_right (le_of_lt h)] at this; omega

/-- A loop that appends `g x` to a trace: length, members and absence of
repetitions of the result. -/
theorem forLoop_snoc_spec {β : Type} (g : Int → β) (lo hi : Int) (l0 : List β)
    (hle : lo ≤ hi) :
    ((forLoop lo hi (fun x l => l ++ [g x]) l0).length : Int) = l0.length + (hi - lo) ∧
    (∀ q, q ∈ forLoop lo hi (fun x l => l ++ [g x]) l0 ↔
      q ∈ l0 ∨ ∃ x, lo ≤ x ∧ x < hi ∧ q = g x) ∧
    (l0.Nodup → (∀ x, lo ≤ x → x < hi → g x ∉ l0) →
      (∀ x y, lo ≤ x → x < hi → lo ≤ y → y < hi → g x = g y → x = y) →
      (forLoop lo hi (fun x l => l ++ [g x]) l0).Nodup) := by
  refine forLoop_inv lo hi _ l0 (fun y l =>
    ((l.length : Int) = l0.length + (y - lo)) ∧
    (∀ q, q ∈ l ↔ q ∈ l0 ∨ ∃ x, lo ≤ x ∧ x < y ∧ q = g x) ∧
    (l0.Nodup → (∀ x, lo ≤ x → x < hi → g x ∉ l0) →
      (∀ x y, lo ≤ x → x < hi → lo ≤ y → y < hi → g x = g y → x = y) → l.Nodup)) hle ?_ ?_
  · refine ⟨by simp, ?_, fun h _ _ => h⟩
    intro q
    constructor
    · intro h; exact Or.inl h
    · rintro (h | ⟨x, h1, h2, _⟩)
      · exact h
      · omega
  · rintro y l hy1 hy2 ⟨hlen, hmem, hnd⟩
    refine ⟨?_, ?_, ?_⟩
    · rw [List.length_append, List.length_singleton]
      push_cast
      rw [hlen]
      ring
    · intro q
      rw [List.mem_append, List.mem_singleton, hmem]
      constructor
      · rintro ((h | ⟨x, h1, h2, h3⟩) | h)
        · exact Or.inl h
        · exact Or.inr ⟨x, h1, by omega, h3⟩
        · exact Or.inr ⟨y, hy1, by omega, h⟩
      · rintro (h | ⟨x, h1, h2, h3⟩)
        · exact Or.inl (Or.inl h)
        · rcases eq_or_lt_of_le (Int.lt_add_one_iff.mp h2) with h4 | h4
          · subst h4
            exact Or.inr h3
          · exact Or.inl (Or.inr ⟨x, h1, h4, h3⟩)
    · intro h1 h2 h3
      refine List.nodup_append.mpr ⟨hnd h1 h2 h3, List.nodup_singleton _, ?_⟩
      intro a ha hb
      rw [List.mem_singleton] at hb
      subst hb
      rcases (hmem _).mp ha with h4 | ⟨x, h5, h6, h7⟩
      · exact h2 y hy1 hy2 h4
      · have := h3 y x hy1 hy2 h5 (by omega) h7
        omega

/-- The trace of the comparisons for a non-negative half patch size: its length,
its members, and the absence of repetitions. -/
theorem orientation_compared_offsets_spec (h : Int) (h0 : 0 ≤ h) :
    ((orientation_compared_offsets h).length : Int) = h * (2 * h + 1) + h ∧
    (∀ q, q ∈ orientation_compared_offsets h ↔
      (-h ≤ q.1 ∧ q.1 ≤ -1 ∧ -h ≤ q.2 ∧ q.2 ≤ h) ∨ (q.1 = 0 ∧ -h ≤ q.2 ∧ q.2 ≤ -1)) ∧
    (orientation_compared_offsets h).Nodup := by
  have hrows : ((forLoop (-h) 0 (fun i trace =>
        forLoop (-h) (h + 1) (fun j trace => trace ++ [(i, j)]) trace)
        ([] : List (Int × Int))).length : Int) = (0 + h) * (2 * h + 1) ∧
      (∀ q, q ∈ forLoop (-h) 0 (fun i trace =>
        forLoop (-h) (h + 1) (fun j trace => trace ++ [(i, j)]) trace)
        ([] : List (Int × Int)) ↔ (-h ≤ q.1 ∧ q.1 < 0 ∧ -h ≤ q.2 ∧ q.2 ≤ h)) ∧
      (forLoop (-h) 0 (fun i trace =>
        forLoop (-h) (h + 1) (fun j trace => trace ++ [(i, j)]) trace)
        ([] : List (Int × Int))).Nodup := by
    refine forLoop_inv (-h) 0 _ ([] : List (Int × Int)) (fun y l =>
      ((l.length : Int) = (y + h) * (2 * h + 1)) ∧
      (∀ q, q ∈ l ↔ (-h ≤ q.1 ∧ q.1 < y ∧ -h ≤ q.2 ∧ q.2 ≤ h)) ∧ l.Nodup)
      (by omega) ?_ ?_
    · refine ⟨by simp, ?_, List.nodup_nil⟩
      intro q
      simp only [List.not_mem_nil, false_iff]
      omega
    · rintro y l hy1 hy2 ⟨hlen, hmem, hnd⟩
      obtain ⟨k1, k2, k3⟩ := forLoop_snoc_spec (fun j : Int => (y, j)) (-h) (h + 1) l
        (by omega)
      refine ⟨?_, ?_, ?_⟩
      · rw [k1, hlen]
        ring
      · intro q
        rw [k2, hmem]
        constructor
        · rintro (⟨a, b, c, d⟩ | ⟨x, a, b, c⟩)
          · exact ⟨a, by omega, c, d⟩
          · rw [c]
            exact ⟨hy1, by simp, a, by simp; omega⟩
        · rintro ⟨a, b, c, d⟩
          rcases eq_or_lt_of_le (Int.lt_add_one_iff.mp b) with e | e
          · exact Or.inr ⟨q.2, c, by omega, by rw [← e]⟩
          · exact Or.inl ⟨a, e, c, d⟩
      · refine k3 hnd ?_ ?_
        · intro x _ _ hx
          have := ((hmem _).mp hx).2.1
          simp at this
        · intro x1 x2 _ _ _ _ hx
          exact (Prod.mk.inj hx).2
  obtain ⟨r1, r2, r3⟩ := hrows
  obtain ⟨k1, k2, k3⟩ := forLoop_snoc_spec (fun j : Int => ((0 : Int), j)) (-h) 0
    (forLoop (-h) 0 (fun i trace =>
      forLoop (-h) (h + 1) (fun j trace => trace ++ [(i, j)]) trace)
      ([] : List (Int × Int))) (by omega)
  refine ⟨?_, ?_, ?_⟩
  · unfold orientation_compared_offsets
    dsimp only
    rw [k1, r1]
    ring
  · intro q
    unfold orientation_compared_offsets
    dsimp only
    rw [k2, r2]
    constructor
    · rintro (⟨a, b, c, d⟩ | ⟨x, a, b, c⟩)
      · exact Or.inl ⟨a, by omega, c, d⟩
      · rw [c]
        exact Or.inr ⟨rfl, a, by simp; omega⟩
    · rintro (⟨a, b, c, d⟩ | ⟨a, b, c⟩)
      · exact Or.inl ⟨a, by omega, c, d⟩
      · exact Or.inr ⟨q.2, b, by omega, Prod.ext a rfl⟩
  · unfold orientation_compared_offsets
    dsimp only
    refine k3 r3 ?_ ?_
    · intro x _ _ hx
      have := ((r2 _).mp hx).2.1
      simp at this
    · intro x1 x2 _ _ _ _ hx
      exact (Prod.mk.inj hx).2

/-- The accumulated `total_deviation` of the orientation filter is the fold of
the angle over the trace of the comparisons: the trace lists exactly the
comparisons that the filter performs, in order. -/
theorem orientation_total_deviation_eq_foldl {α : Type} [LinearOrderedField α]
    (acos radian2degree : α → α) (h : Int) (nor : DeVAS_image (DeVAS_XYZ α)) (r c : Int) :
    orientation_total_deviation acos radian2degree h nor r c =
      (orientation_compared_offsets h).foldl (fun t q =>
        t + deviation_angle acos radian2degree (nor.data (r + q.1) (c + q.2))
          (nor.data (r - q.1) (c - q.2))) 0 := by
  unfold orientation_total_deviation orientation_compared_offsets
  dsimp only
  refine forLoop_rel (fun (t : α) (l : List (Int × Int)) => t = l.foldl (fun t q =>
    t + deviation_angle acos radian2degree (nor.data (r + q.1) (c + q.2))
      (nor.data (r - q.1) (c - q.2))) 0) _ _ _ _ _ _ ?_ ?_
  · refine forLoop_rel (fun (t : α) (l : List (Int × Int)) => t = l.foldl (fun t q =>
      t + deviation_angle acos radian2degree (nor.data (r + q.1) (c + q.2))
        (nor.data (r - q.1) (c - q.2))) 0) _ _ _ _ _ _ rfl ?_
    intro i s t _ _ hR
    refine forLoop_rel (fun (t : α) (l : List (Int × Int)) => t = l.foldl (fun t q =>
      t + deviation_angle acos radian2degree (nor.data (r + q.1) (c + q.2))
        (nor.data (r - q.1) (c - q.2))) 0) _ _ _ _ _ _ hR ?_
    intro j s t _ _ hR2
    rw [List.foldl_append, ← hR2]
    rfl
  · intro j s t _ _ hR
    rw [List.foldl_append, ← hR]
    simp

/-- C19: for every odd `patch_size >= 3` with `h = (patch_size - 1) / 2`,
`compute_orientation_deviation` performs exactly `h * (2h + 1) + h` angle
comparisons per pixel (its `total_deviation` is the fold of the angle over the
trace of compared offsets, which has that length), and the compared offset pairs
`{(i, j), (-i, -j)}` cover every non-centre offset of the patch exactly once
(the trace has no repetition, and of the two offsets `(i, j)` and `(-i, -j)`
exactly one is in it), while the centre offset `(0, 0)` is never compared. -/
theorem orientation_comparisons {α : Type} [LinearOrderedField α]
    (acos radian2degree : α → α) (nor : DeVAS_image (DeVAS_XYZ α)) (r c : Int) (p : Int)
    (h3 : 3 ≤ p) (hodd : Odd p) :
    orientation_total_deviation acos radian2degree ((p - 1).tdiv 2) nor r c =
      (orientation_compared_offsets ((p - 1).tdiv 2)).foldl (fun t q =>
        t + deviation_angle acos radian2degree (nor.data (r + q.1) (c + q.2))
          (nor.data (r - q.1) (c - q.2))) 0 ∧
    ((orientation_compared_offsets ((p - 1).tdiv 2)).length : Int) =
      ((p - 1).tdiv 2) * (2 * ((p - 1).tdiv 2) + 1) + (p - 1).tdiv 2 ∧
    (orientation_compared_offsets ((p - 1).tdiv 2)).Nodup ∧
    (∀ i j, -((p - 1).tdiv 2) ≤ i → i ≤ (p - 1).tdiv 2 →
      -((p - 1).tdiv 2) ≤ j → j ≤ (p - 1).tdiv 2 → ¬ (i = 0 ∧ j = 0) →
      (((i, j) ∈ orientation_compared_offsets ((p - 1).tdiv 2) ∧
          (-i, -j) ∉ orientation_compared_offsets ((p - 1).tdiv 2)) ∨
        ((i, j) ∉ orientation_compared_offsets ((p - 1).tdiv 2) ∧
          (-i, -j) ∈ orientation_compared_offsets ((p - 1).tdiv 2)))) ∧
    ((0, 0) ∉ orientation_compared_offsets ((p - 1).tdiv 2)) ∧
    (∀ q ∈ orientation_compared_offsets ((p - 1).tdiv 2),
      -((p - 1).tdiv 2) ≤ q.1 ∧ q.1 ≤ (p - 1).tdiv 2 ∧
      -((p - 1).tdiv 2) ≤ q.2 ∧ q.2 ≤ (p - 1).tdiv 2) := by
  have htmod : p.tmod 2 = 1 := (tmod_two_eq_one_iff p).mpr ⟨by omega, Int.odd_iff.mp hodd⟩
  have h0 : 0 ≤ (p - 1).tdiv 2 := (half_patch_of_tmod htmod).1
  obtain ⟨hlen, hmem, hnd⟩ := orientation_compared_offsets_spec ((p - 1).tdiv 2) h0
  refine ⟨orientation_total_deviation_eq_foldl acos radian2degree _ nor r c, hlen, hnd,
    ?_, ?_, ?_⟩
  · intro i j hi1 hi2 hj1 hj2 hne
    rw [hmem, hmem]
    simp only
    omega
  · rw [hmem]
    simp only
    omega
  · intro q hq
    have := (hmem q).mp hq
    omega

/-- C19 at patch size 3 (`h = 1`): the four comparisons are at the offsets
`(-1,-1)`, `(-1,0)`, `(-1,1)` and `(0,-1)`, and `1 * (2 * 1 + 1) + 1 = 4`. -/
theorem orientation_comparisons_witness :
    (3 : Int) ≤ 3 ∧ Odd (3 : Int) ∧
    orientation_compared_offsets (((3 : Int) - 1).tdiv 2) =
      [(-1, -1), (-1, 0), (-1, 1), (0, -1)] ∧
    ((orientation_compared_offsets (((3 : Int) - 1).tdiv 2)).length : Int) =
      (((3 : Int) - 1).tdiv 2) * (2 * (((3 : Int) - 1).tdiv 2) + 1)
        + ((3 : Int) - 1).tdiv 2 ∧
    (orientation_compared_offsets (((3 : Int) - 1).tdiv 2)).Nodup ∧
    ((0, 0) ∉ orientation_compared_offsets (((3 : Int) - 1).tdiv 2)) :=
  ⟨by decide, by decide, by decide,
    (orientation_comparisons (fun x : ℚ => 1 - x) (fun x => 90 * x) up_normal 1 1 3
      (by decide) (by decide)).2.1,
    (orientation_comparisons (fun x : ℚ => 1 - x) (fun x => 90 * x) up_normal 1 1 3
      (by decide) (by decide)).2.2.1,
    (orientation_comparisons (fun x : ℚ => 1 - x) (fun x => 90 * x) up_normal 1 1 3
      (by decide) (by decide)).2.2.2.2.1⟩

/-- The dot product of two unit vectors lies in `[-1, 1]`. -/
theorem v3d_dotprod_unit_bounds {α : Type} [LinearOrderedField α] (a b : DeVAS_XYZ α)
    (ha : v3d_dotprod a a = 1) (hb : v3d_dotprod b b = 1) :
    -1 ≤ v3d_dotprod a b ∧ v3d_dotprod a b ≤ 1 := by
  simp only [v3d_dotprod] at *
  constructor
  · nlinarith [sq_nonneg (a.X + b.X), sq_nonneg (a.Y + b.Y), sq_nonneg (a.Z + b.Z)]
  · nlinarith [sq_nonneg (a.X - b.X), sq_nonneg (a.Y - b.Y), sq_nonneg (a.Z - b.Z)]

/-- The angle of two unit vectors is non-negative, when `acos` is non-negative
on `[-1, 1]` and `radian2degree` keeps non-negative values non-negative. -/
theorem deviation_angle_nonneg {α : Type} [LinearOrderedField α]
    (acos radian2degree : α → α) (a b : DeVAS_XYZ α)
    (hacos : ∀ x, -1 ≤ x → x ≤ 1 → 0 ≤ acos x)
    (hdeg : ∀ y, 0 ≤ y → 0 ≤ radian2degree y)
    (ha : v3d_dotprod a a = 1) (hb : v3d_dotprod b b = 1) :
    0 ≤ deviation_angle acos radian2degree a b := by
  obtain ⟨h1, h2⟩ := v3d_dotprod_unit_bounds a b ha hb
  unfold deviation_angle
  rw [min_eq_left h2]
  exact hdeg _ (hacos _ h1 h2)

/-- On a field of unit normals the accumulated `total_deviation` of the
orientation filter is non-negative at every interior pixel. -/
theorem orientation_total_deviation_nonneg {α : Type} [LinearOrderedField α]
    (acos radian2degree : α → α) (h : Int) (surface_normal : DeVAS_image (DeVAS_XYZ α))
    (hacos : ∀ x, -1 ≤ x → x ≤ 1 → 0 ≤ acos x)
    (hdeg : ∀ y, 0 ≤ y → 0 ≤ radian2degree y)
    (hunit : ∀ r c, 0 ≤ r → r < surface_normal.n_rows → 0 ≤ c →
      c < surface_normal.n_cols →
      v3d_dotprod (surface_normal.data r c) (surface_normal.data r c) = 1)
    (h0 : 0 ≤ h) (r c : Int) (hr1 : h ≤ r) (hr2 : r < surface_normal.n_rows - h)
    (hc1 : h ≤ c) (hc2 : c < surface_normal.n_cols - h) :
    0 ≤ orientation_total_deviation acos radian2degree h surface_normal r c := by
  simp only [orientation_total_deviation]
  refine forLoop_preserves _ _ _ _ (fun t => 0 ≤ t) ?_ ?_
  · refine forLoop_preserves _ _ _ _ (fun t => 0 ≤ t) le_rfl ?_
    intro i t hi1 hi2 ht
    refine forLoop_preserves _ _ _ _ (fun t => 0 ≤ t) ht ?_
    intro j u hj1 hj2 hu
    exact add_nonneg hu (deviation_angle_nonneg acos radian2degree _ _ hacos hdeg
      (hunit (r + i) (c + j) (by omega) (by omega) (by omega) (by omega))
      (hunit (r - i) (c - j) (by omega) (by omega) (by omega) (by omega)))
  · intro j u hj1 hj2 hu
    exact add_nonneg hu (deviation_angle_nonneg acos radian2degree _ _ hacos hdeg
      (hunit r (c + j) (by omega) (by omega) (by omega) (by omega))
      (hunit r (c - j) (by omega) (by omega) (by omega) (by omega)))

/-- Where the divisors fit in `int`, the fields are non-negative (C20 up to patch
size 65535): for every accepted input with `3 <= patch_size <= 65535`, every
pixel of the field returned by `compute_position_deviation` is `>= 0`, and, when every normal
of the grid is a unit vector, so is every pixel of the field returned by
`compute_orientation_deviation` (with `acos` non-negative on `[-1, 1]` and
`radian2degree` keeping non-negative values non-negative). -/
theorem deviation_fields_nonneg {α : Type} [LinearOrderedField α]
    (div_by_zero acos radian2degree : α → α) (fresh : Int → Int → α) (p : Int)
    (position surface_normal : DeVAS_image (DeVAS_XYZ α))
    (hs : DeVAS_image_samesize position surface_normal = true) (h3 : 3 ≤ p) (hmax : p ≤ 65535)
    (hle : p ≤ imin surface_normal.n_rows surface_normal.n_cols) (hodd : p.tmod 2 = 1)
    (hacos : ∀ x, -1 ≤ x → x ≤ 1 → 0 ≤ acos x)
    (hdeg : ∀ y, 0 ≤ y → 0 ≤ radian2degree y)
    (hunit : ∀ r c, 0 ≤ r → r < surface_normal.n_rows → 0 ≤ c →
      c < surface_normal.n_cols →
      v3d_dotprod (surface_normal.data r c) (surface_normal.data r c) = 1) :
    (∃ out, compute_position_deviation fresh p position surface_normal = .ok out ∧
      ∀ r c, 0 ≤ r → r < out.n_rows → 0 ≤ c → c < out.n_cols → 0 ≤ out.data r c) ∧
    (∃ out, compute_orientation_deviation div_by_zero acos radian2degree fresh p surface_normal
        = .ok out ∧
      ∀ r c, 0 ≤ r → r < out.n_rows → 0 ≤ c → c < out.n_cols → 0 ≤ out.data r c) := by
  have hdim := hs
  simp only [DeVAS_image_samesize, Bool.and_eq_true, decide_eq_true_eq] at hdim
  have hle1 : p ≤ imin position.n_rows position.n_cols := by
    rw [hdim.1, hdim.2]; exact hle
  have h0 : 0 ≤ (p - 1).tdiv 2 := (half_patch_of_tmod hodd).1
  constructor
  · obtain ⟨out, hout, _, _, hdata⟩ :=
      compute_position_deviation_ok_fits fresh p position surface_normal hs hle1 hodd hmax
    refine ⟨out, hout, ?_⟩
    intro r c _ _ _ _
    rw [hdata]
    split_ifs with h1 h2
    · refine div_nonneg (le_of_lt (neg_pos.mpr h2)) ?_
      exact Int.cast_nonneg.mpr (mul_nonneg h0 (by omega))
    · exact le_rfl
    · exact le_rfl
  · obtain ⟨out, hout, _, _, hdata⟩ :=
      compute_orientation_deviation_ok_fits div_by_zero acos radian2degree fresh p surface_normal
          hle hodd h3 hmax
    refine ⟨out, hout, ?_⟩
    intro r c _ _ _ _
    rw [hdata]
    split_ifs with h1
    · refine div_nonneg ?_ (Int.cast_nonneg.mpr (mul_nonneg (by omega) h0))
      exact orientation_total_deviation_nonneg acos radian2degree _ surface_normal hacos
        hdeg hunit h0 r c h1.1 h1.2.1 h1.2.2.1 h1.2.2.2
    · exact le_rfl

/-- Non-negativity over the reals, with the real arc cosine and the conversion
`x * (180 / pi)`: the 5x5 occlusion scenario with normals `(0, 0, 1)`, patch
size 3. -/
theorem deviation_fields_nonneg_witness :
    (∀ x : ℝ, -1 ≤ x → x ≤ 1 → 0 ≤ Real.arccos x) ∧
    (∀ y : ℝ, 0 ≤ y → 0 ≤ y * (180 / Real.pi)) ∧
    (∃ out, compute_position_deviation (fun _ _ => (1 : ℝ)) 3
        (bump_position (fun _ _ => 0) (fun _ _ => 0)) up_normal_5x5 = .ok out ∧
      ∀ r c, 0 ≤ r → r < out.n_rows → 0 ≤ c → c < out.n_cols → 0 ≤ out.data r c) ∧
    (∃ out, compute_orientation_deviation (fun _ => -1) Real.arccos (fun x => x * (180 / Real.pi))
        (fun _ _ => (1 : ℝ)) 3 up_normal_5x5 = .ok out ∧
      ∀ r c, 0 ≤ r → r < out.n_rows → 0 ≤ c → c < out.n_cols → 0 ≤ out.data r c) :=
  have hacos : ∀ x : ℝ, -1 ≤ x → x ≤ 1 → 0 ≤ Real.arccos x :=
    fun x _ _ => Real.arccos_nonneg x
  have hdeg : ∀ y : ℝ, 0 ≤ y → 0 ≤ y * (180 / Real.pi) :=
    fun y hy => mul_nonneg hy (div_nonneg (by norm_num) (le_of_lt Real.pi_pos))
  ⟨hacos, hdeg,
    deviation_fields_nonneg (fun _ => -1) Real.arccos (fun x => x * (180 / Real.pi))
        (fun _ _ => (1 : ℝ)) 3
      (bump_position (fun _ _ => 0) (fun _ _ => 0)) up_normal_5x5
      (by simp [DeVAS_image_samesize, bump_position, up_normal_5x5]) (by decide) (by decide)
      (by simp [imin, up_normal_5x5]) (by decide) hacos hdeg
      (by intro r c _ _ _ _; simp [v3d_dotprod, up_normal_5x5])⟩

/-! ## Acceptance of the filters -/

/-- The oddness test of the filters fires exactly on the even and on the
negative patch sizes. -/
theorem tmod_two_ne_one_iff (p : Int) : p.tmod 2 ≠ 1 ↔ Even p ∨ p < 0 := by
  rw [Ne, tmod_two_eq_one_iff, Int.even_iff]
  omega

/-- C22: with the truncating remainder of C (`patch_size % 2 != 1` rejects every
even and every negative value), the checks inside `compute_position_deviation`
accept a call if and only if position and normal have the same dimensions and
`patch_size` is a positive odd integer `<= min(n_rows, n_cols)`, and the checks
inside `compute_orientation_deviation` accept if and only if `patch_size` is a
positive odd integer `<= min(n_rows, n_cols)`; in particular `patch_size = 1`
is accepted by both filters on any non-empty grid. -/
theorem filters_accept_iff {α : Type} [LinearOrderedField α]
    (div_by_zero acos radian2degree : α → α) (fresh : Int → Int → α) (p : Int)
    (position surface_normal : DeVAS_image (DeVAS_XYZ α)) :
    (p.tmod 2 ≠ 1 ↔ Even p ∨ p < 0) ∧
    (fails (compute_position_deviation fresh p position surface_normal) = false ↔
      (position.n_rows = surface_normal.n_rows ∧ position.n_cols = surface_normal.n_cols) ∧
      0 < p ∧ Odd p ∧ p ≤ min position.n_rows position.n_cols) ∧
    (fails (compute_orientation_deviation div_by_zero acos radian2degree fresh p surface_normal) =
        false ↔
      0 < p ∧ Odd p ∧ p ≤ min surface_normal.n_rows surface_normal.n_cols) ∧
    (position.n_rows = surface_normal.n_rows → position.n_cols = surface_normal.n_cols →
      0 < surface_normal.n_rows → 0 < surface_normal.n_cols →
      fails (compute_position_deviation fresh 1 position surface_normal) = false ∧
      fails (compute_orientation_deviation div_by_zero acos radian2degree fresh 1 surface_normal)
        = false) := by
  have hpos : ∀ (q : Int) (pos nor : DeVAS_image (DeVAS_XYZ α)),
      fails (compute_position_deviation fresh q pos nor) = false ↔
        (pos.n_rows = nor.n_rows ∧ pos.n_cols = nor.n_cols) ∧
        0 < q ∧ Odd q ∧ q ≤ min pos.n_rows pos.n_cols := by
    intro q pos nor
    rw [← Bool.not_eq_true, compute_position_deviation_fails_iff, not_not, imin_eq_min,
      tmod_two_eq_one_iff, Int.odd_iff]
    simp only [DeVAS_image_samesize, Bool.and_eq_true, decide_eq_true_eq]
    constructor
    · rintro ⟨a, b, c, d⟩
      exact ⟨a, c, d, b⟩
    · rintro ⟨a, c, d, b⟩
      exact ⟨a, b, c, d⟩
  have hori : ∀ (q : Int) (nor : DeVAS_image (DeVAS_XYZ α)),
      fails (compute_orientation_deviation div_by_zero acos radian2degree fresh q nor) = false ↔
        0 < q ∧ Odd q ∧ q ≤ min nor.n_rows nor.n_cols := by
    intro q nor
    rw [← Bool.not_eq_true, compute_orientation_deviation_fails_iff, not_not, imin_eq_min,
      tmod_two_eq_one_iff, Int.odd_iff]
    constructor
    · rintro ⟨b, c, d⟩
      exact ⟨c, d, b⟩
    · rintro ⟨c, d, b⟩
      exact ⟨b, c, d⟩
  refine ⟨tmod_two_ne_one_iff p, hpos p position surface_normal, hori p surface_normal, ?_⟩
  intro h1 h2 h3 h4
  constructor
  · rw [hpos]
    refine ⟨⟨h1, h2⟩, by norm_num, by decide, ?_⟩
    rw [h1, h2]
    exact le_min (by omega) (by omega)
  · rw [hori]
    exact ⟨by norm_num, by decide, le_min (by omega) (by omega)⟩

/-- C22 at the 3x3 scene: patch sizes 1 and 3 are accepted by both filters, and
patch size -3 (odd, negative) does not pass the oddness test. -/
theorem filters_accept_iff_witness :
    fails (compute_position_deviation (fun _ _ => (1 : ℚ)) 1 flat_position up_normal) = false ∧
    fails (compute_orientation_deviation (fun _ => -1) (fun x => 1 - x) (fun x => 90 * x)
      (fun _ _ => (1 : ℚ)) 1 up_normal) = false ∧
    fails (compute_position_deviation (fun _ _ => (1 : ℚ)) 3 flat_position up_normal) = false ∧
    (-3 : Int).tmod 2 ≠ 1 :=
  ⟨((filters_accept_iff (fun _ => -1) (fun x => 1 - x) (fun x => 90 * x) (fun _ _ => (1 : ℚ)) 1
      flat_position up_normal).2.2.2 rfl rfl (by decide) (by decide)).1,
   ((filters_accept_iff (fun _ => -1) (fun x => 1 - x) (fun x => 90 * x) (fun _ _ => (1 : ℚ)) 1
      flat_position up_normal).2.2.2 rfl rfl (by decide) (by decide)).2,
   (filters_accept_iff (fun _ => -1) (fun x => 1 - x) (fun x => 90 * x) (fun _ _ => (1 : ℚ)) 3
      flat_position up_normal).2.1.mpr ⟨⟨rfl, rfl⟩, by decide, by decide, by decide⟩,
   (filters_accept_iff (fun _ => -1) (fun x => 1 - x) (fun x => 90 * x) (fun _ _ => (1 : ℚ)) (-3)
      flat_position up_normal).1.mpr (Or.inr (by decide))⟩

/-- C23: whenever the argument validation of `geometry_discontinuities` passes,
none of the tests that guard the error branches of
`compute_position_deviation ( position_patch_size, xyz, nor )` and of
`compute_orientation_deviation ( orientation_patch_size, nor )` fires, so both
return a field; and provided the external maxima operator returns masks of the
dimensions of its input, the size test of `DeVAS_gray_or` does not fire either
and the whole call returns a mask. -/
theorem geometry_discontinuities_inner_checks_unreachable {α : Type} [LinearOrderedField α]
    (div_by_zero acos radian2degree : α → α) (fresh_float : Int → Int → α)
    (fresh_gray : Int → Int → Nat)
    (find_directional_maxima : Int → Int → DeVAS_image α → DeVAS_image Nat)
    (DMAX_PATCH_SIZE : Int) (coordinates : DeVAS_coordinates α)
    (xyz : DeVAS_image (DeVAS_XYZ α)) (dist : DeVAS_image α)
    (nor : DeVAS_image (DeVAS_XYZ α)) (pp op pt ot : Int)
    (hcheck : geometry_discontinuities_sanity_check xyz dist nor pp op = .ok ()) :
    ((!DeVAS_image_samesize xyz nor) = false ∧ ¬ (pp > imin xyz.n_rows xyz.n_cols) ∧
      ¬ (pp.tmod 2 ≠ 1)) ∧
    (¬ (op > imin nor.n_rows nor.n_cols) ∧ ¬ (op.tmod 2 ≠ 1)) ∧
    ∃ pd od,
      compute_position_deviation fresh_float pp xyz nor = .ok pd ∧
      compute_orientation_deviation div_by_zero acos radian2degree fresh_float op nor = .ok od ∧
      ((∀ a b img, (find_directional_maxima a b img).n_rows = img.n_rows ∧
          (find_directional_maxima a b img).n_cols = img.n_cols) →
        (!DeVAS_image_samesize (find_directional_maxima DMAX_PATCH_SIZE pt pd)
          (find_directional_maxima DMAX_PATCH_SIZE ot od)) = false ∧
        fails (DeVAS_gray_or fresh_gray (find_directional_maxima DMAX_PATCH_SIZE pt pd)
          (find_directional_maxima DMAX_PATCH_SIZE ot od)) = false ∧
        fails (geometry_discontinuities div_by_zero acos radian2degree fresh_float fresh_gray
          find_directional_maxima DMAX_PATCH_SIZE coordinates xyz dist nor pp op pt ot)
            = false) := by
  obtain ⟨-, a2, -, -, a5, a6, a7, a8⟩ := (sanity_check_ok_iff xyz dist nor pp op).mp hcheck
  have hdim := a2
  simp only [DeVAS_image_samesize, Bool.and_eq_true, decide_eq_true_eq] at hdim
  have hle1 : pp ≤ imin xyz.n_rows xyz.n_cols := a7
  have hle2 : op ≤ imin nor.n_rows nor.n_cols := by
    rw [← hdim.1, ← hdim.2]; exact a8
  obtain ⟨pd, hpd, hpr, hpc, -⟩ :=
    compute_position_deviation_ok fresh_float pp xyz nor a2 hle1 a5
  obtain ⟨od, hod, hor, hoc, -⟩ :=
    compute_orientation_deviation_ok div_by_zero acos radian2degree fresh_float op nor hle2 a6
  refine ⟨⟨by rw [a2]; rfl, not_lt.mpr hle1, not_not.mpr a5⟩,
    ⟨not_lt.mpr hle2, not_not.mpr a6⟩, pd, od, hpd, hod, ?_⟩
  intro hM
  have hsame : DeVAS_image_samesize (find_directional_maxima DMAX_PATCH_SIZE pt pd)
      (find_directional_maxima DMAX_PATCH_SIZE ot od) = true := by
    simp only [DeVAS_image_samesize, Bool.and_eq_true, decide_eq_true_eq]
    rw [(hM _ _ pd).1, (hM _ _ pd).2, (hM _ _ od).1, (hM _ _ od).2, hpr, hpc, hor, hoc]
    exact hdim
  obtain ⟨out, hout, -, -, -⟩ := DeVAS_gray_or_ok fresh_gray _ _ hsame
  refine ⟨by rw [hsame]; rfl, by rw [hout]; rfl, ?_⟩
  rw [geometry_discontinuities_eq, hcheck, hpd, hod]
  dsimp only
  rw [hout]
  rfl

/-- C23 at the 3x3 scene with both patch sizes 3 and the all-FALSE stand-in for
the maxima operator: the whole call returns a mask. -/
theorem geometry_discontinuities_inner_checks_unreachable_witness :
    geometry_discontinuities_sanity_check flat_position unit_dist up_normal 3 3 = .ok () ∧
    fails (geometry_discontinuities (fun _ => -1) (fun x => 1 - x) (fun x => 90 * x) (fun _ _ => 1)
      (fun _ _ => 7) no_maxima 3 feet_coordinates flat_position unit_dist up_normal
      3 3 2 20) = false := by
  have hcheck :
      geometry_discontinuities_sanity_check flat_position unit_dist up_normal 3 3 = .ok () :=
    (sanity_check_ok_iff flat_position unit_dist up_normal 3 3).mpr
      ⟨by decide, by decide, by decide, by decide, by decide, by decide, by decide,
        by decide⟩
  obtain ⟨-, -, pd, od, -, -, h⟩ := geometry_discontinuities_inner_checks_unreachable
    (fun _ => -1)
    (fun x => 1 - x) (fun x => 90 * x) (fun _ _ => 1) (fun _ _ => 7) no_maxima 3
    feet_coordinates flat_position unit_dist up_normal 3 3 2 20 hcheck
  exact ⟨hcheck, (h (fun _ _ _ => ⟨rfl, rfl⟩)).2.2⟩

/-- `a || b` is 0 or 1. -/
theorem logical_or_zero_or_one (a b : Nat) : logical_or a b = 0 ∨ logical_or a b = 1 := by
  unfold logical_or
  split_ifs
  · exact Or.inr rfl
  · exact Or.inl rfl

/-- C29: every pixel of the image returned by `DeVAS_gray_or` is exactly 0 or 1,
for all inputs of equal dimensions, including inputs whose pixels hold other
non-zero 8-bit values such as 255; so for every mask `m` with a pixel greater
than 1, `DeVAS_gray_or ( m, m )` differs from `m` at that pixel. -/
theorem DeVAS_gray_or_binary (fresh : Int → Int → Nat) (i1 i2 m : DeVAS_image Nat) :
    ((i1.n_rows = i2.n_rows ∧ i1.n_cols = i2.n_cols) →
      ∃ out, DeVAS_gray_or fresh i1 i2 = .ok out ∧
        ∀ r c, 0 ≤ r → r < out.n_rows → 0 ≤ c → c < out.n_cols →
          (out.data r c = 0 ∨ out.data r c = 1)) ∧
    (∀ r c, 0 ≤ r → r < m.n_rows → 0 ≤ c → c < m.n_cols → 1 < m.data r c →
      ∃ out, DeVAS_gray_or fresh m m = .ok out ∧ out.data r c = 1 ∧
        out.data r c ≠ m.data r c) := by
  constructor
  · rintro ⟨h1, h2⟩
    obtain ⟨out, hout, hr, hc, hdata⟩ := DeVAS_gray_or_ok fresh i1 i2
      (by simp [DeVAS_image_samesize, h1, h2])
    refine ⟨out, hout, ?_⟩
    intro r c hr0 hrn hc0 hcn
    rw [hr] at hrn
    rw [hc] at hcn
    rw [hdata, if_pos ⟨hr0, hrn, hc0, hcn⟩]
    exact logical_or_zero_or_one _ _
  · intro r c hr0 hrn hc0 hcn hgt
    obtain ⟨out, hout, -, -, hdata⟩ := DeVAS_gray_or_ok fresh m m
      (by simp [DeVAS_image_samesize])
    have hv : out.data r c = 1 := by
      rw [hdata, if_pos ⟨hr0, hrn, hc0, hcn⟩, logical_or_self, if_neg (by omega)]
    refine ⟨out, hout, hv, ?_⟩
    rw [hv]
    omega

/-- C29 at concrete masks: the combination of the two 2x2 masks (one of which
holds 255) is binary, and the 1x1 mask holding 255 is not reproduced. -/
theorem DeVAS_gray_or_binary_witness :
    (∃ out, DeVAS_gray_or (fun _ _ => 7) mask_a mask_b = .ok out ∧
      ∀ r c, 0 ≤ r → r < out.n_rows → 0 ≤ c → c < out.n_cols →
        (out.data r c = 0 ∨ out.data r c = 1)) ∧
    (1 < white_mask.data 0 0 ∧
      ∃ out, DeVAS_gray_or (fun _ _ => 7) white_mask white_mask = .ok out ∧
        out.data 0 0 = 1 ∧ out.data 0 0 ≠ white_mask.data 0 0) :=
  ⟨(DeVAS_gray_or_binary (fun _ _ => 7) mask_a mask_b white_mask).1 ⟨rfl, rfl⟩,
    by decide,
    (DeVAS_gray_or_binary (fun _ _ => 7) mask_a mask_b white_mask).2 0 0
      (by decide) (by decide) (by decide) (by decide) (by decide)⟩

/-! ## Related scenes -/

/-- If every term of the patch is `k` times the corresponding term of another
scene, the accumulated `total_deviation` is `k` times the other total. -/
theorem position_total_deviation_scale {α : Type} [LinearOrderedField α] (k : α) (h : Int)
    (pos nor pos' nor' : DeVAS_image (DeVAS_XYZ α)) (r c : Int)
    (hterm : ∀ i j, -h ≤ i → i ≤ h → -h ≤ j → j ≤ h →
      position_deviation_term pos' nor' r c i j = k * position_deviation_term pos nor r c i j) :
    position_total_deviation h pos' nor' r c = k * position_total_deviation h pos nor r c := by
  rw [position_total_deviation_eq_sum, position_total_deviation_eq_sum, Finset.mul_sum]
  refine Finset.sum_congr rfl (fun i hi => ?_)
  rw [Finset.mul_sum]
  refine Finset.sum_congr rfl (fun j hj => ?_)
  rw [Finset.mem_Icc] at hi hj
  exact hterm i j hi.1 hi.2 hj.1 hj.2

/-- Two accepted scenes of the same dimensions whose patch terms differ by a
factor `k >= 0` at every interior pixel have position-deviation fields that
differ by the factor `k` at every pixel. -/
theorem compute_position_deviation_scale_out {α : Type} [LinearOrderedField α]
    (fresh fresh' : Int → Int → α) (p : Int)
    (pos nor pos' nor' : DeVAS_image (DeVAS_XYZ α)) (k : α) (hk : 0 ≤ k)
    (hs : DeVAS_image_samesize pos nor = true) (hs' : DeVAS_image_samesize pos' nor' = true)
    (hrows : pos'.n_rows = pos.n_rows) (hcols : pos'.n_cols = pos.n_cols)
    (hle : p ≤ imin pos.n_rows pos.n_cols) (hodd : p.tmod 2 = 1)
    (hterm : ∀ r c, (p - 1).tdiv 2 ≤ r → r < pos.n_rows - (p - 1).tdiv 2 →
      (p - 1).tdiv 2 ≤ c → c < pos.n_cols - (p - 1).tdiv 2 →
      ∀ i j, -((p - 1).tdiv 2) ≤ i → i ≤ (p - 1).tdiv 2 →
        -((p - 1).tdiv 2) ≤ j → j ≤ (p - 1).tdiv 2 →
        position_deviation_term pos' nor' r c i j
          = k * position_deviation_term pos nor r c i j) :
    ∃ o o', compute_position_deviation fresh p pos nor = .ok o ∧
      compute_position_deviation fresh' p pos' nor' = .ok o' ∧
      o'.n_rows = o.n_rows ∧ o'.n_cols = o.n_cols ∧
      ∀ r c, o'.data r c = k * o.data r c := by
  obtain ⟨o, ho, hr, hc, hd⟩ := compute_position_deviation_ok fresh p pos nor hs hle hodd
  obtain ⟨o', ho', hr', hc', hd'⟩ := compute_position_deviation_ok fresh' p pos' nor' hs'
    (by rw [hrows, hcols]; exact hle) hodd
  refine ⟨o, o', ho, ho', by rw [hr', hr, hrows], by rw [hc', hc, hcols], ?_⟩
  intro r c
  rw [hd, hd', hrows, hcols]
  by_cases hin : (p - 1).tdiv 2 ≤ r ∧ r < pos.n_rows - (p - 1).tdiv 2 ∧
      (p - 1).tdiv 2 ≤ c ∧ c < pos.n_cols - (p - 1).tdiv 2
  · rw [if_pos hin, if_pos hin,
      position_total_deviation_scale k _ pos nor pos' nor' r c
        (hterm r c hin.1 hin.2.1 hin.2.2.1 hin.2.2.2)]
    rcases eq_or_lt_of_le hk with hk0 | hkpos
    · rw [← hk0]
      simp
    · by_cases hneg : position_total_deviation ((p - 1).tdiv 2) pos nor r c < 0
      · rw [if_pos hneg, if_pos (mul_neg_of_pos_of_neg hkpos hneg)]
        ring
      · rw [if_neg hneg, if_neg (not_lt.mpr (mul_nonneg hk (not_lt.mp hneg)))]
        simp
  · rw [if_neg hin, if_neg hin]
    simp

/-- In-place scaling by `standard_units_3D`: dimensions and in-grid pixels. -/
theorem standard_units_3D_spec {α : Type} [LinearOrderedField α]
    (g : DeVAS_image (DeVAS_XYZ α)) (cd : DeVAS_coordinates α) :
    (standard_units_3D g cd).n_rows = g.n_rows ∧
    (standard_units_3D g cd).n_cols = g.n_cols ∧
    ∀ r c, 0 ≤ r → r < g.n_rows → 0 ≤ c → c < g.n_cols →
      (standard_units_3D g cd).data r c =
        { X := (g.data r c).X * cd.convert_to_centimeters,
          Y := (g.data r c).Y * cd.convert_to_centimeters,
          Z := (g.data r c).Z * cd.convert_to_centimeters } := by
  rw [standard_units_3D_eq]
  obtain ⟨h1, h2, h3⟩ := forLoop_update_rect
    (fun v : DeVAS_XYZ α =>
      ({ X := v.X * cd.convert_to_centimeters, Y := v.Y * cd.convert_to_centimeters,
         Z := v.Z * cd.convert_to_centimeters } : DeVAS_XYZ α)) g
  refine ⟨h1, h2, ?_⟩
  intro r c hr0 hrn hc0 hcn
  rw [h3, if_pos ⟨hr0, hrn, hc0, hcn⟩]

/-- C26: `compute_position_deviation` is positively homogeneous in the
positions: for every scale factor `k >= 0`, every accepted input and every
pixel, the deviation computed from the field `k * position` equals `k` times
the deviation computed from `position`, with the same normal field; the same
holds for the field produced by `standard_units_3D` when the conversion factor
of the descriptor is `>= 0`. -/
theorem position_deviation_homogeneous {α : Type} [LinearOrderedField α]
    (fresh fresh' : Int → Int → α) (p : Int)
    (position surface_normal : DeVAS_image (DeVAS_XYZ α)) (k : α)
    (coordinates : DeVAS_coordinates α)
    (hs : DeVAS_image_samesize position surface_normal = true)
    (hle : p ≤ imin position.n_rows position.n_cols) (hodd : p.tmod 2 = 1) :
    (0 ≤ k →
      ∃ o o', compute_position_deviation fresh p position surface_normal = .ok o ∧
        compute_position_deviation fresh' p
          (map_pixels (fun v => { X := k * v.X, Y := k * v.Y, Z := k * v.Z }) position)
          surface_normal = .ok o' ∧
        o'.n_rows = o.n_rows ∧ o'.n_cols = o.n_cols ∧
        ∀ r c, o'.data r c = k * o.data r c) ∧
    (0 ≤ coordinates.convert_to_centimeters →
      ∃ o o', compute_position_deviation fresh p position surface_normal = .ok o ∧
        compute_position_deviation fresh' p (standard_units_3D position coordinates)
          surface_normal = .ok o' ∧
        o'.n_rows = o.n_rows ∧ o'.n_cols = o.n_cols ∧
        ∀ r c, o'.data r c = coordinates.convert_to_centimeters * o.data r c) := by
  have hdim := hs
  simp only [DeVAS_image_samesize, Bool.and_eq_true, decide_eq_true_eq] at hdim
  have h0 : 0 ≤ (p - 1).tdiv 2 := (half_patch_of_tmod hodd).1
  constructor
  · intro hk
    refine compute_position_deviation_scale_out fresh fresh' p position surface_normal _
      surface_normal k hk hs hs rfl rfl hle hodd ?_
    intro r c _ _ _ _ i j _ _ _ _
    simp only [position_deviation_term, map_pixels, v3d_dotprod, v3d_subtract]
    ring
  · intro hk
    obtain ⟨e1, e2, e3⟩ := standard_units_3D_spec position coordinates
    refine compute_position_deviation_scale_out fresh fresh' p position surface_normal _
      surface_normal coordinates.convert_to_centimeters hk hs
      (by simp only [DeVAS_image_samesize, Bool.and_eq_true, decide_eq_true_eq]
          rw [e1, e2]; exact hdim)
      e1 e2 hle hodd ?_
    intro r c hr1 hr2 hc1 hc2 i j hi1 hi2 hj1 hj2
    simp only [position_deviation_term]
    rw [e3 (r + i) (c + j) (by omega) (by omega) (by omega) (by omega),
      e3 r c (by omega) (by omega) (by omega) (by omega)]
    simp only [v3d_dotprod, v3d_subtract]
    ring

/-- C26 at the 5x5 occlusion scenario over the rationals, converted from feet by
`standard_units_3D` (factor 30.48), patch size 3. -/
theorem position_deviation_homogeneous_witness :
    (0 : ℚ) ≤ feet_coordinates.convert_to_centimeters ∧
    ∃ o o', compute_position_deviation (fun _ _ => (1 : ℚ)) 3
        (bump_position (fun _ c => (c : ℚ)) (fun r _ => (r : ℚ))) up_normal_5x5 = .ok o ∧
      compute_position_deviation (fun _ _ => (2 : ℚ)) 3
        (standard_units_3D (bump_position (fun _ c => (c : ℚ)) (fun r _ => (r : ℚ)))
          feet_coordinates) up_normal_5x5 = .ok o' ∧
      o'.n_rows = o.n_rows ∧ o'.n_cols = o.n_cols ∧
      ∀ r c, o'.data r c = feet_coordinates.convert_to_centimeters * o.data r c :=
  have hk : (0 : ℚ) ≤ feet_coordinates.convert_to_centimeters := by
    simp only [feet_coordinates]
    norm_num
  ⟨hk,
    (position_deviation_homogeneous (fun _ _ => (1 : ℚ)) (fun _ _ => (2 : ℚ)) 3
      (bump_position (fun _ c => (c : ℚ)) (fun r _ => (r : ℚ))) up_normal_5x5 2
      feet_coordinates (by decide) (by decide) (by decide)).2 hk⟩

/-- C27: `compute_position_deviation` is invariant under translation of the
scene: for every constant vector `t`, every accepted input and every pixel, the
deviation computed from the field `position + t` (`t` added to every pixel)
equals the deviation computed from `position`, with the same normal field. -/
theorem position_deviation_translation_invariant {α : Type} [LinearOrderedField α]
    (fresh fresh' : Int → Int → α) (p : Int)
    (position surface_normal : DeVAS_image (DeVAS_XYZ α)) (t : DeVAS_XYZ α)
    (hs : DeVAS_image_samesize position surface_normal = true)
    (hle : p ≤ imin position.n_rows position.n_cols) (hodd : p.tmod 2 = 1) :
    ∃ o o', compute_position_deviation fresh p position surface_normal = .ok o ∧
      compute_position_deviation fresh' p
        (map_pixels (fun v => { X := v.X + t.X, Y := v.Y + t.Y, Z := v.Z + t.Z }) position)
        surface_normal = .ok o' ∧
      o'.n_rows = o.n_rows ∧ o'.n_cols = o.n_cols ∧
      ∀ r c, o'.data r c = o.data r c := by
  obtain ⟨o, o', ho, ho', hr, hc, hd⟩ := compute_position_deviation_scale_out fresh fresh' p
    position surface_normal
    (map_pixels (fun v => { X := v.X + t.X, Y := v.Y + t.Y, Z := v.Z + t.Z }) position)
    surface_normal 1 zero_le_one hs hs rfl rfl hle hodd (by
      intro r c _ _ _ _ i j _ _ _ _
      simp only [position_deviation_term, map_pixels, v3d_dotprod, v3d_subtract]
      ring)
  refine ⟨o, o', ho, ho', hr, hc, ?_⟩
  intro r c
  rw [hd, one_mul]

/-- C27 at the 5x5 occlusion scenario over the rationals, moved by
`t = (100, -50, 7)`, patch size 3. -/
theorem position_deviation_translation_invariant_witness :
    DeVAS_image_samesize (bump_position (fun _ c => (c : ℚ)) (fun r _ => (r : ℚ)))
      (up_normal_5x5 : DeVAS_image (DeVAS_XYZ ℚ)) = true ∧
    ∃ o o', compute_position_deviation (fun _ _ => (1 : ℚ)) 3
        (bump_position (fun _ c => (c : ℚ)) (fun r _ => (r : ℚ))) up_normal_5x5 = .ok o ∧
      compute_position_deviation (fun _ _ => (2 : ℚ)) 3
        (map_pixels (fun v => { X := v.X + 100, Y := v.Y + -50, Z := v.Z + 7 })
          (bump_position (fun _ c => (c : ℚ)) (fun r _ => (r : ℚ)))) up_normal_5x5 = .ok o' ∧
      o'.n_rows = o.n_rows ∧ o'.n_cols = o.n_cols ∧
      ∀ r c, o'.data r c = o.data r c :=
  ⟨by decide,
    position_deviation_translation_invariant (fun _ _ => (1 : ℚ)) (fun _ _ => (2 : ℚ)) 3
      (bump_position (fun _ c => (c : ℚ)) (fun r _ => (r : ℚ))) up_normal_5x5
      { X := 100, Y := -50, Z := 7 } (by decide) (by decide) (by decide)⟩

/-- Where the divisor fits in `int`, the position test is one-sided as C28 says:
for every accepted input with `3 <= patch_size <= 65535` and every pixel, the deviation computed with the normal field
and the deviation computed with the negated normal field are never both
non-zero (their product is 0), and at an interior pixel their sum equals
`|S| / (h * patch_size)`, where `S` is the summed projection
`dot(normal(r,c), position(r+i,c+j) - position(r,c))` over the patch. -/
theorem position_deviation_one_sided {α : Type} [LinearOrderedField α]
    (fresh fresh' : Int → Int → α) (p : Int)
    (position surface_normal : DeVAS_image (DeVAS_XYZ α))
    (hs : DeVAS_image_samesize position surface_normal = true) (h3 : 3 ≤ p) (hmax : p ≤ 65535)
    (hle : p ≤ imin position.n_rows position.n_cols) (hodd : p.tmod 2 = 1) :
    ∃ o o', compute_position_deviation fresh p position surface_normal = .ok o ∧
      compute_position_deviation fresh' p position
        (map_pixels (fun v => { X := -v.X, Y := -v.Y, Z := -v.Z }) surface_normal) = .ok o' ∧
      (∀ r c, o.data r c * o'.data r c = 0) ∧
      ∀ r c, (p - 1) / 2 ≤ r → r < position.n_rows - (p - 1) / 2 →
        (p - 1) / 2 ≤ c → c < position.n_cols - (p - 1) / 2 →
        o.data r c + o'.data r c =
          |∑ i ∈ Finset.Icc (-((p - 1) / 2)) ((p - 1) / 2),
            ∑ j ∈ Finset.Icc (-((p - 1) / 2)) ((p - 1) / 2),
              v3d_dotprod (surface_normal.data r c)
                (v3d_subtract (position.data (r + i) (c + j)) (position.data r c))| /
            ((((p - 1) / 2 : Int) : α) * (p : α)) := by
  have hs' : DeVAS_image_samesize position
      (map_pixels (fun v : DeVAS_XYZ α => ({ X := -v.X, Y := -v.Y, Z := -v.Z } : DeVAS_XYZ α))
        surface_normal) = true := hs
  obtain ⟨o, ho, -, -, hd⟩ :=
    compute_position_deviation_ok_fits fresh p position surface_normal hs hle hodd hmax
  obtain ⟨o', ho', -, -, hd'⟩ := compute_position_deviation_ok_fits fresh' p position
    (map_pixels (fun v : DeVAS_XYZ α => ({ X := -v.X, Y := -v.Y, Z := -v.Z } : DeVAS_XYZ α))
      surface_normal) hs' hle hodd hmax
  have hh : (p - 1).tdiv 2 = (p - 1) / 2 := Int.tdiv_eq_ediv (by omega) (by norm_num)
  have htot : ∀ r c, position_total_deviation ((p - 1).tdiv 2) position
      (map_pixels (fun v : DeVAS_XYZ α => ({ X := -v.X, Y := -v.Y, Z := -v.Z } : DeVAS_XYZ α))
        surface_normal) r c =
      -position_total_deviation ((p - 1).tdiv 2) position surface_normal r c := by
    intro r c
    rw [position_total_deviation_scale (-1) _ position surface_normal position _ r c]
    · ring
    · intro i j _ _ _ _
      simp only [position_deviation_term, map_pixels, v3d_dotprod, v3d_subtract]
      ring
  refine ⟨o, o', ho, ho', ?_, ?_⟩
  · intro r c
    rw [hd, hd']
    by_cases hin : (p - 1).tdiv 2 ≤ r ∧ r < position.n_rows - (p - 1).tdiv 2 ∧
        (p - 1).tdiv 2 ≤ c ∧ c < position.n_cols - (p - 1).tdiv 2
    · rw [if_pos hin, if_pos hin, htot]
      by_cases hneg : position_total_deviation ((p - 1).tdiv 2) position surface_normal r c < 0
      · rw [if_pos hneg, if_neg (by rw [neg_lt_zero]; exact not_lt.mpr (le_of_lt hneg))]
        simp
      · rw [if_neg hneg]
        simp
    · rw [if_neg hin]
      simp
  · intro r c hr1 hr2 hc1 hc2
    have hS : (∑ i ∈ Finset.Icc (-((p - 1) / 2)) ((p - 1) / 2),
        ∑ j ∈ Finset.Icc (-((p - 1) / 2)) ((p - 1) / 2),
          v3d_dotprod (surface_normal.data r c)
            (v3d_subtract (position.data (r + i) (c + j)) (position.data r c))) =
        position_total_deviation ((p - 1) / 2) position surface_normal r c :=
      (position_total_deviation_eq_sum ((p - 1) / 2) position surface_normal r c).symm
    have hin : (p - 1) / 2 ≤ r ∧ r < position.n_rows - (p - 1) / 2 ∧
        (p - 1) / 2 ≤ c ∧ c < position.n_cols - (p - 1) / 2 := ⟨hr1, hr2, hc1, hc2⟩
    rw [hS, hd, hd', htot, hh, if_pos hin, if_pos hin, Int.cast_mul]
    by_cases hneg : position_total_deviation ((p - 1) / 2) position surface_normal r c < 0
    · rw [if_pos hneg, if_neg (by rw [neg_lt_zero]; exact not_lt.mpr (le_of_lt hneg)),
        abs_of_neg hneg, add_zero]
    · rw [if_neg hneg, abs_of_nonneg (not_lt.mp hneg), zero_add]
      by_cases hz : position_total_deviation ((p - 1) / 2) position surface_normal r c = 0
      · rw [hz]
        simp
      · have hpos : 0 < position_total_deviation ((p - 1) / 2) position surface_normal r c :=
          lt_of_le_of_ne (not_lt.mp hneg) (Ne.symm hz)
        rw [if_pos (by rw [neg_lt_zero]; exact hpos), neg_neg]

/-- The one-sided test at the 5x5 occlusion scenario over the rationals, patch
size 3. -/
theorem position_deviation_one_sided_witness :
    DeVAS_image_samesize (bump_position (fun _ c => (c : ℚ)) (fun r _ => (r : ℚ)))
      (up_normal_5x5 : DeVAS_image (DeVAS_XYZ ℚ)) = true ∧
    (3 : Int) ≤ 3 ∧ (3 : Int).tmod 2 = 1 ∧
    ∃ o o', compute_position_deviation (fun _ _ => (1 : ℚ)) 3
        (bump_position (fun _ c => (c : ℚ)) (fun r _ => (r : ℚ))) up_normal_5x5 = .ok o ∧
      compute_position_deviation (fun _ _ => (2 : ℚ)) 3
        (bump_position (fun _ c => (c : ℚ)) (fun r _ => (r : ℚ)))
        (map_pixels (fun v => { X := -v.X, Y := -v.Y, Z := -v.Z }) up_normal_5x5) = .ok o' ∧
      (∀ r c, o.data r c * o'.data r c = 0) := by
  obtain ⟨o, o', ho, ho', hprod, -⟩ := position_deviation_one_sided (fun _ _ => (1 : ℚ))
    (fun _ _ => (2 : ℚ)) 3 (bump_position (fun _ c => (c : ℚ)) (fun r _ => (r : ℚ)))
    up_normal_5x5 (by decide) (by decide) (by decide) (by decide) (by decide)
  exact ⟨by decide, by decide, by decide, o, o', ho, ho', hprod⟩

/-! ## Reads of the orientation filter -/

/-- If every compared pair has the same angle in two runs of the orientation
filter (possibly with another `acos`, another `radian2degree` and another normal
field), the accumulated `total_deviation` is the same. -/
theorem orientation_total_deviation_congr {α : Type} [LinearOrderedField α]
    (acos1 acos2 deg1 deg2 : α → α) (h : Int) (nor1 nor2 : DeVAS_image (DeVAS_XYZ α))
    (r c : Int)
    (hrows : ∀ i j, -h ≤ i → i ≤ -1 → -h ≤ j → j ≤ h →
      deviation_angle acos1 deg1 (nor1.data (r + i) (c + j)) (nor1.data (r - i) (c - j)) =
      deviation_angle acos2 deg2 (nor2.data (r + i) (c + j)) (nor2.data (r - i) (c - j)))
    (hcentre : ∀ j, -h ≤ j → j ≤ -1 →
      deviation_angle acos1 deg1 (nor1.data r (c + j)) (nor1.data r (c - j)) =
      deviation_angle acos2 deg2 (nor2.data r (c + j)) (nor2.data r (c - j))) :
    orientation_total_deviation acos1 deg1 h nor1 r c =
      orientation_total_deviation acos2 deg2 h nor2 r c := by
  rw [orientation_total_deviation_eq_sum, orientation_total_deviation_eq_sum]
  congr 1
  · refine Finset.sum_congr rfl (fun i hi => ?_)
    refine Finset.sum_congr rfl (fun j hj => ?_)
    rw [Finset.mem_Icc] at hi hj
    exact hrows i j hi.1 hi.2 hj.1 hj.2
  · refine Finset.sum_congr rfl (fun j hj => ?_)
    rw [Finset.mem_Icc] at hj
    exact hcentre j hj.1 hj.2

/-- Two accepted runs of the orientation filter on fields of the same
dimensions whose compared pairs have the same angles at every interior pixel
return fields that are equal at every pixel. -/
theorem compute_orientation_deviation_congr {α : Type} [LinearOrderedField α]
    (div_by_zero acos1 acos2 deg1 deg2 : α → α) (fresh fresh' : Int → Int → α) (p : Int)
    (nor1 nor2 : DeVAS_image (DeVAS_XYZ α))
    (hr : nor2.n_rows = nor1.n_rows) (hc : nor2.n_cols = nor1.n_cols)
    (hle : p ≤ imin nor1.n_rows nor1.n_cols) (hodd : p.tmod 2 = 1)
    (hpair : ∀ r c, (p - 1).tdiv 2 ≤ r → r < nor1.n_rows - (p - 1).tdiv 2 →
      (p - 1).tdiv 2 ≤ c → c < nor1.n_cols - (p - 1).tdiv 2 →
      ∀ i j, -((p - 1).tdiv 2) ≤ i → i ≤ 0 → -((p - 1).tdiv 2) ≤ j → j ≤ (p - 1).tdiv 2 →
        deviation_angle acos1 deg1 (nor1.data (r + i) (c + j)) (nor1.data (r - i) (c - j)) =
        deviation_angle acos2 deg2 (nor2.data (r + i) (c + j)) (nor2.data (r - i) (c - j))) :
    ∃ o o', compute_orientation_deviation div_by_zero acos1 deg1 fresh p nor1 = .ok o ∧
      compute_orientation_deviation div_by_zero acos2 deg2 fresh' p nor2 = .ok o' ∧
      o'.n_rows = o.n_rows ∧ o'.n_cols = o.n_cols ∧
      ∀ r c, o.data r c = o'.data r c := by
  have h0 : 0 ≤ (p - 1).tdiv 2 := (half_patch_of_tmod hodd).1
  obtain ⟨o, ho, hor, hoc, hd⟩ :=
    compute_orientation_deviation_ok div_by_zero acos1 deg1 fresh p nor1 hle hodd
  obtain ⟨o', ho', hor', hoc', hd'⟩ := compute_orientation_deviation_ok div_by_zero acos2 deg2
      fresh' p nor2
    (by rw [hr, hc]; exact hle) hodd
  refine ⟨o, o', ho, ho', by rw [hor', hor, hr], by rw [hoc', hoc, hc], ?_⟩
  intro r c
  rw [hd, hd', hr, hc]
  by_cases hin : (p - 1).tdiv 2 ≤ r ∧ r < nor1.n_rows - (p - 1).tdiv 2 ∧
      (p - 1).tdiv 2 ≤ c ∧ c < nor1.n_cols - (p - 1).tdiv 2
  · rw [if_pos hin, if_pos hin,
      orientation_total_deviation_congr acos1 acos2 deg1 deg2 _ nor1 nor2 r c
        (fun i j a b c' d => hpair r c hin.1 hin.2.1 hin.2.2.1 hin.2.2.2 i j a (by omega) c' d)
        (fun j a b => by
          have := hpair r c hin.1 hin.2.1 hin.2.2.1 hin.2.2.2 0 j (by omega) le_rfl a (by omega)
          simpa using this)]
  · rw [if_neg hin, if_neg hin]

/-- The reads and the divisors of the filters (what holds of C24): for every odd
`patch_size` with `3 <= patch_size <= min(n_rows, n_cols)` that is an `int`
(`h = (patch_size - 1) / 2`), every pixel read in both filters is inside the
grid: `0 <= row+i, row-i < n_rows` and `0 <= col+j, col-j < n_cols` for every
interior pixel and every offset with `|i|, |j| <= h`, so that the fields returned
by both filters are the same for any two scenes that agree on the grid; both
normalisation divisors, as the code forms them in `int`, are not zero; and up
to patch size 65535 they are strictly positive. -/
theorem filters_read_inside_grid {α : Type} [LinearOrderedField α]
    (div_by_zero acos radian2degree : α → α) (fresh fresh' : Int → Int → α) (p : Int)
    (position surface_normal : DeVAS_image (DeVAS_XYZ α))
    (hs : DeVAS_image_samesize position surface_normal = true)
    (hodd : Odd p) (h3 : 3 ≤ p) (hint : p < 2 ^ 31)
    (hle : p ≤ min position.n_rows position.n_cols) :
    (∀ r c i j, (p - 1) / 2 ≤ r → r < position.n_rows - (p - 1) / 2 →
      (p - 1) / 2 ≤ c → c < position.n_cols - (p - 1) / 2 →
      -((p - 1) / 2) ≤ i → i ≤ (p - 1) / 2 → -((p - 1) / 2) ≤ j → j ≤ (p - 1) / 2 →
      (0 ≤ r + i ∧ r + i < position.n_rows ∧ 0 ≤ r - i ∧ r - i < position.n_rows) ∧
      (0 ≤ c + j ∧ c + j < position.n_cols ∧ 0 ≤ c - j ∧ c - j < position.n_cols)) ∧
    (int_mul ((p - 1).tdiv 2) p ≠ 0 ∧ int_mul (int_add p 1) ((p - 1).tdiv 2) ≠ 0 ∧
      ((int_mul ((p - 1).tdiv 2) p : Int) : α) ≠ 0 ∧
      ((int_mul (int_add p 1) ((p - 1).tdiv 2) : Int) : α) ≠ 0 ∧
      (p ≤ 65535 →
        0 < int_mul ((p - 1).tdiv 2) p ∧ 0 < int_mul (int_add p 1) ((p - 1).tdiv 2))) ∧
    (∀ position' surface_normal' : DeVAS_image (DeVAS_XYZ α),
      position'.n_rows = position.n_rows → position'.n_cols = position.n_cols →
      surface_normal'.n_rows = position.n_rows → surface_normal'.n_cols = position.n_cols →
      (∀ r c, 0 ≤ r → r < position.n_rows → 0 ≤ c → c < position.n_cols →
        position'.data r c = position.data r c ∧
        surface_normal'.data r c = surface_normal.data r c) →
      (∃ o o', compute_position_deviation fresh p position surface_normal = .ok o ∧
        compute_position_deviation fresh' p position' surface_normal' = .ok o' ∧
        ∀ r c, o.data r c = o'.data r c) ∧
      (∃ o o', compute_orientation_deviation div_by_zero acos radian2degree fresh p surface_normal
          = .ok o ∧
        compute_orientation_deviation div_by_zero acos radian2degree fresh' p surface_normal' = .ok
            o' ∧
        ∀ r c, o.data r c = o'.data r c)) := by
  have hdim := hs
  simp only [DeVAS_image_samesize, Bool.and_eq_true, decide_eq_true_eq] at hdim
  have htmod : p.tmod 2 = 1 := (tmod_two_eq_one_iff p).mpr ⟨by omega, Int.odd_iff.mp hodd⟩
  have hh : (p - 1).tdiv 2 = (p - 1) / 2 := Int.tdiv_eq_ediv (by omega) (by norm_num)
  have h1 : 1 ≤ (p - 1) / 2 := by omega
  have hle1 : p ≤ imin position.n_rows position.n_cols := by rw [imin_eq_min]; exact hle
  have hd1 : 0 < (p - 1) / 2 * p := mul_pos (by omega) (by omega)
  have hd2 : 0 < (p + 1) * ((p - 1) / 2) := mul_pos (by omega) (by omega)
  have hn1 := position_divisor_ne_zero p h3 htmod hint
  have hn2 := orientation_divisor_ne_zero p h3 htmod hint
  refine ⟨?_, ⟨hn1, hn2, Int.cast_ne_zero.mpr hn1, Int.cast_ne_zero.mpr hn2, ?_⟩, ?_⟩
  · intro r c i j _ _ _ _ _ _ _ _
    constructor <;> omega
  · intro hmax
    rw [position_divisor_fits p htmod hmax, orientation_divisor_fits p htmod hmax, hh]
    exact ⟨hd1, hd2⟩
  · intro position' surface_normal' e1 e2 e3 e4 hagree
    constructor
    · obtain ⟨o, o', ho, ho', -, -, hd⟩ := compute_position_deviation_scale_out fresh fresh' p
        position surface_normal position' surface_normal' 1 zero_le_one hs
        (by simp only [DeVAS_image_samesize, Bool.and_eq_true, decide_eq_true_eq]
            rw [e1, e2, e3, e4]; exact ⟨rfl, rfl⟩)
        e1 e2 hle1 htmod (by
          intro r c hr1 hr2 hc1 hc2 i j hi1 hi2 hj1 hj2
          rw [hh] at hr1 hr2 hc1 hc2 hi1 hi2 hj1 hj2
          simp only [position_deviation_term]
          rw [(hagree (r + i) (c + j) (by omega) (by omega) (by omega) (by omega)).1,
            (hagree r c (by omega) (by omega) (by omega) (by omega)).1,
            (hagree r c (by omega) (by omega) (by omega) (by omega)).2, one_mul])
      refine ⟨o, o', ho, ho', ?_⟩
      intro r c
      rw [hd, one_mul]
    · obtain ⟨o, o', ho, ho', -, -, hd⟩ := compute_orientation_deviation_congr div_by_zero acos acos
        radian2degree radian2degree fresh fresh' p surface_normal surface_normal'
        (by rw [e3, hdim.1]) (by rw [e4, hdim.2])
        (by rw [← hdim.1, ← hdim.2]; exact hle1) htmod (by
          intro r c hr1 hr2 hc1 hc2 i j hi1 hi2 hj1 hj2
          rw [hh] at hr1 hr2 hc1 hc2 hi1 hj1 hj2
          rw [← hdim.1] at hr2
          rw [← hdim.2] at hc2
          rw [(hagree (r + i) (c + j) (by omega) (by omega) (by omega) (by omega)).2,
            (hagree (r - i) (c - j) (by omega) (by omega) (by omega) (by omega)).2])
      exact ⟨o, o', ho, ho', hd⟩

/-- The reads and the divisors at the 5x5 occlusion scenario over the rationals,
patch size 3
(`h = 1`): the reads of the interior pixel `(1, 3)` at the offset `(-1, 1)` are
inside the grid, and the divisors are positive. -/
theorem filters_read_inside_grid_witness :
    Odd (3 : Int) ∧ (3 : Int) ≤ min
      (bump_position (fun _ c => (c : ℚ)) (fun r _ => (r : ℚ))).n_rows
      (bump_position (fun _ c => (c : ℚ)) (fun r _ => (r : ℚ))).n_cols ∧
    ((0 ≤ (1 : Int) + -1 ∧ (1 : Int) + -1 <
        (bump_position (fun _ c => (c : ℚ)) (fun r _ => (r : ℚ))).n_rows ∧
      0 ≤ (1 : Int) - -1 ∧ (1 : Int) - -1 <
        (bump_position (fun _ c => (c : ℚ)) (fun r _ => (r : ℚ))).n_rows) ∧
     (0 ≤ (3 : Int) + 1 ∧ (3 : Int) + 1 <
        (bump_position (fun _ c => (c : ℚ)) (fun r _ => (r : ℚ))).n_cols ∧
      0 ≤ (3 : Int) - 1 ∧ (3 : Int) - 1 <
        (bump_position (fun _ c => (c : ℚ)) (fun r _ => (r : ℚ))).n_cols)) ∧
    (0 < int_mul (((3 : Int) - 1).tdiv 2) 3 ∧
      0 < int_mul (int_add 3 1) (((3 : Int) - 1).tdiv 2)) :=
  ⟨by decide, by decide,
    (filters_read_inside_grid (fun _ => -1) (fun x => 1 - x) (fun x => 90 * x) (fun _ _ => (1 : ℚ))
      (fun _ _ => (2 : ℚ)) 3 (bump_position (fun _ c => (c : ℚ)) (fun r _ => (r : ℚ)))
      up_normal_5x5 (by decide) (by decide) (by decide) (by decide) (by decide)).1 1 3 (-1) 1
      (by decide) (by decide) (by decide) (by decide) (by decide) (by decide) (by decide)
      (by decide),
    (filters_read_inside_grid (fun _ => -1) (fun x => 1 - x) (fun x => 90 * x) (fun _ _ => (1 : ℚ))
      (fun _ _ => (2 : ℚ)) 3 (bump_position (fun _ c => (c : ℚ)) (fun r _ => (r : ℚ)))
      up_normal_5x5 (by decide) (by decide) (by decide) (by decide)
      (by decide)).2.1.2.2.2.2 (by decide)⟩

/-- The angle is `radian2degree ( acos ( . ) )` of the argument handed to
`acos`. -/
theorem deviation_angle_eq {α : Type} [LinearOrderedField α] (acos radian2degree : α → α)
    (n1 n2 : DeVAS_XYZ α) :
    deviation_angle acos radian2degree n1 n2 = radian2degree (acos (acos_argument n1 n2)) :=
  rfl

/-- C21: in `compute_orientation_deviation` the value passed to `acos` is never
greater than 1 for any input, so replacing `acos` by any function that agrees
with it on the values `<= 1` does not change the returned field; and when every
normal of the grid is a unit vector the value is also never less than -1 at any
comparison of any interior pixel, so `acos` is only evaluated inside `[-1, 1]`:
replacing it by any function that agrees with it on `[-1, 1]` does not change
the returned field. -/
theorem acos_argument_in_domain {α : Type} [LinearOrderedField α]
    (div_by_zero acos acos' radian2degree : α → α) (fresh fresh' : Int → Int → α) (p : Int)
    (surface_normal : DeVAS_image (DeVAS_XYZ α))
    (hle : p ≤ imin surface_normal.n_rows surface_normal.n_cols) (hodd : p.tmod 2 = 1) :
    (∀ n1 n2 : DeVAS_XYZ α,
      deviation_angle acos radian2degree n1 n2 = radian2degree (acos (acos_argument n1 n2)) ∧
      acos_argument n1 n2 ≤ 1) ∧
    ((∀ x, x ≤ 1 → acos' x = acos x) →
      ∃ o o', compute_orientation_deviation div_by_zero acos radian2degree fresh p surface_normal =
          .ok o ∧
        compute_orientation_deviation div_by_zero acos' radian2degree fresh' p surface_normal = .ok
            o' ∧
        ∀ r c, o.data r c = o'.data r c) ∧
    ((∀ r c, 0 ≤ r → r < surface_normal.n_rows → 0 ≤ c → c < surface_normal.n_cols →
        v3d_dotprod (surface_normal.data r c) (surface_normal.data r c) = 1) →
      (∀ r c, (p - 1).tdiv 2 ≤ r → r < surface_normal.n_rows - (p - 1).tdiv 2 →
        (p - 1).tdiv 2 ≤ c → c < surface_normal.n_cols - (p - 1).tdiv 2 →
        ∀ q ∈ orientation_compared_offsets ((p - 1).tdiv 2),
          -1 ≤ acos_argument (surface_normal.data (r + q.1) (c + q.2))
            (surface_normal.data (r - q.1) (c - q.2)) ∧
          acos_argument (surface_normal.data (r + q.1) (c + q.2))
            (surface_normal.data (r - q.1) (c - q.2)) ≤ 1) ∧
      ((∀ x, -1 ≤ x → x ≤ 1 → acos' x = acos x) →
        ∃ o o', compute_orientation_deviation div_by_zero acos radian2degree fresh p surface_normal
            = .ok o ∧
          compute_orientation_deviation div_by_zero acos' radian2degree fresh' p surface_normal
            = .ok o' ∧
          ∀ r c, o.data r c = o'.data r c)) := by
  have h0 : 0 ≤ (p - 1).tdiv 2 := (half_patch_of_tmod hodd).1
  refine ⟨fun n1 n2 => ⟨rfl, min_le_right _ _⟩, ?_, ?_⟩
  · intro hagree
    obtain ⟨o, o', ho, ho', -, -, hd⟩ := compute_orientation_deviation_congr div_by_zero acos acos'
      radian2degree radian2degree fresh fresh' p surface_normal surface_normal rfl rfl hle
      hodd (by
        intro r c _ _ _ _ i j _ _ _ _
        rw [deviation_angle_eq, deviation_angle_eq]
        rw [hagree (acos_argument (surface_normal.data (r + i) (c + j))
          (surface_normal.data (r - i) (c - j))) (min_le_right _ _)])
    exact ⟨o, o', ho, ho', hd⟩
  · intro hunit
    have hbound : ∀ r c, (p - 1).tdiv 2 ≤ r → r < surface_normal.n_rows - (p - 1).tdiv 2 →
        (p - 1).tdiv 2 ≤ c → c < surface_normal.n_cols - (p - 1).tdiv 2 →
        ∀ i j, -((p - 1).tdiv 2) ≤ i → i ≤ (p - 1).tdiv 2 →
          -((p - 1).tdiv 2) ≤ j → j ≤ (p - 1).tdiv 2 →
          -1 ≤ acos_argument (surface_normal.data (r + i) (c + j))
            (surface_normal.data (r - i) (c - j)) ∧
          acos_argument (surface_normal.data (r + i) (c + j))
            (surface_normal.data (r - i) (c - j)) ≤ 1 := by
      intro r c hr1 hr2 hc1 hc2 i j hi1 hi2 hj1 hj2
      obtain ⟨b1, b2⟩ := v3d_dotprod_unit_bounds _ _
        (hunit (r + i) (c + j) (by omega) (by omega) (by omega) (by omega))
        (hunit (r - i) (c - j) (by omega) (by omega) (by omega) (by omega))
      unfold acos_argument
      rw [min_eq_left b2]
      exact ⟨b1, b2⟩
    constructor
    · intro r c hr1 hr2 hc1 hc2 q hq
      obtain ⟨-, hmem, -⟩ := orientation_compared_offsets_spec ((p - 1).tdiv 2) h0
      have hq' := (hmem q).mp hq
      exact hbound r c hr1 hr2 hc1 hc2 q.1 q.2 (by omega) (by omega) (by omega) (by omega)
    · intro hagree
      obtain ⟨o, o', ho, ho', -, -, hd⟩ := compute_orientation_deviation_congr div_by_zero acos
          acos'
        radian2degree radian2degree fresh fresh' p surface_normal surface_normal rfl rfl hle
        hodd (by
          intro r c hr1 hr2 hc1 hc2 i j hi1 hi2 hj1 hj2
          obtain ⟨b1, b2⟩ := hbound r c hr1 hr2 hc1 hc2 i j hi1 (by omega) hj1 hj2
          rw [deviation_angle_eq, deviation_angle_eq]
          rw [hagree (acos_argument (surface_normal.data (r + i) (c + j))
            (surface_normal.data (r - i) (c - j))) b1 b2])
      exact ⟨o, o', ho, ho', hd⟩

/-- C21 over the reals on the 5x5 field of normals `(0, 0, 1)`, patch size 3: the
real arc cosine may be replaced by a function that is arbitrary outside
`[-1, 1]` without changing the field. -/
theorem acos_argument_in_domain_witness :
    (3 : Int) ≤ imin (up_normal_5x5 : DeVAS_image (DeVAS_XYZ ℝ)).n_rows
      (up_normal_5x5 : DeVAS_image (DeVAS_XYZ ℝ)).n_cols ∧ (3 : Int).tmod 2 = 1 ∧
    ∃ o o', compute_orientation_deviation (fun _ => -1) Real.arccos (fun x => x * (180 / Real.pi))
        (fun _ _ => (1 : ℝ)) 3 up_normal_5x5 = .ok o ∧
      compute_orientation_deviation
        (fun _ => -1)
        (fun x => if -1 ≤ x ∧ x ≤ 1 then Real.arccos x else 1000)
        (fun x => x * (180 / Real.pi)) (fun _ _ => (2 : ℝ)) 3 up_normal_5x5 = .ok o' ∧
      ∀ r c, o.data r c = o'.data r c :=
  ⟨by simp [imin, up_normal_5x5], by decide,
    (acos_argument_in_domain (fun _ => -1) Real.arccos
      (fun x => if -1 ≤ x ∧ x ≤ 1 then Real.arccos x else 1000)
      (fun x => x * (180 / Real.pi)) (fun _ _ => (1 : ℝ)) (fun _ _ => (2 : ℝ)) 3
      up_normal_5x5 (by simp [imin, up_normal_5x5]) (by decide)).2.2
      (by intro r c _ _ _ _; simp [v3d_dotprod, up_normal_5x5]) |>.2
      (by intro x h1 h2; simp [h1, h2])⟩

/-! ## The orientation deviation as a mean -/

/-- The sum of a constant over a range of offsets. -/
theorem sum_Icc_const {α : Type} [LinearOrderedField α] (lo hi : Int) (hle : lo ≤ hi + 1)
    (B : α) : ∑ _x ∈ Finset.Icc lo hi, B = ((hi + 1 - lo : Int) : α) * B := by
  rw [Finset.sum_const, Int.card_Icc, nsmul_eq_mul]
  congr 1
  have h1 : (((hi + 1 - lo).toNat : Int) : α) = ((hi + 1 - lo : Int) : α) := by
    rw [Int.toNat_of_nonneg (by omega)]
  rw [← h1, Int.cast_natCast]

/-- The sum of the angles when every compared pair has the same angle `A`. -/
theorem orientation_total_deviation_const {α : Type} [LinearOrderedField α]
    (acos radian2degree : α → α) (h : Int) (nor : DeVAS_image (DeVAS_XYZ α)) (r c : Int)
    (A : α) (h0 : 0 ≤ h)
    (hrows : ∀ i j, -h ≤ i → i ≤ -1 → -h ≤ j → j ≤ h →
      deviation_angle acos radian2degree (nor.data (r + i) (c + j))
        (nor.data (r - i) (c - j)) = A)
    (hcentre : ∀ j, -h ≤ j → j ≤ -1 →
      deviation_angle acos radian2degree (nor.data r (c + j)) (nor.data r (c - j)) = A) :
    orientation_total_deviation acos radian2degree h nor r c =
      ((h * (2 * h + 1) + h : Int) : α) * A := by
  rw [orientation_total_deviation_eq_sum]
  have e1 : (∑ i ∈ Finset.Icc (-h) (-1), ∑ j ∈ Finset.Icc (-h) h,
      deviation_angle acos radian2degree (nor.data (r + i) (c + j))
        (nor.data (r - i) (c - j))) =
      ∑ _i ∈ Finset.Icc (-h) (-1), ∑ _j ∈ Finset.Icc (-h) h, A := by
    refine Finset.sum_congr rfl (fun i hi => ?_)
    refine Finset.sum_congr rfl (fun j hj => ?_)
    rw [Finset.mem_Icc] at hi hj
    exact hrows i j hi.1 hi.2 hj.1 hj.2
  have e2 : (∑ j ∈ Finset.Icc (-h) (-1),
      deviation_angle acos radian2degree (nor.data r (c + j)) (nor.data r (c - j))) =
      ∑ _j ∈ Finset.Icc (-h) (-1), A := by
    refine Finset.sum_congr rfl (fun j hj => ?_)
    rw [Finset.mem_Icc] at hj
    exact hcentre j hj.1 hj.2
  rw [e1, e2, sum_Icc_const (-h) h (by omega) A,
    sum_Icc_const (-h) (-1) (by omega), sum_Icc_const (-h) (-1) (by omega)]
  push_cast
  ring

/-- The sum of the angles when every compared pair has an angle of at most `B`. -/
theorem orientation_total_deviation_le {α : Type} [LinearOrderedField α]
    (acos radian2degree : α → α) (h : Int) (nor : DeVAS_image (DeVAS_XYZ α)) (r c : Int)
    (B : α) (h0 : 0 ≤ h)
    (hrows : ∀ i j, -h ≤ i → i ≤ -1 → -h ≤ j → j ≤ h →
      deviation_angle acos radian2degree (nor.data (r + i) (c + j))
        (nor.data (r - i) (c - j)) ≤ B)
    (hcentre : ∀ j, -h ≤ j → j ≤ -1 →
      deviation_angle acos radian2degree (nor.data r (c + j)) (nor.data r (c - j)) ≤ B) :
    orientation_total_deviation acos radian2degree h nor r c ≤
      ((h * (2 * h + 1) + h : Int) : α) * B := by
  rw [orientation_total_deviation_eq_sum]
  have e1 : (∑ i ∈ Finset.Icc (-h) (-1), ∑ j ∈ Finset.Icc (-h) h,
      deviation_angle acos radian2degree (nor.data (r + i) (c + j))
        (nor.data (r - i) (c - j))) ≤
      ∑ _i ∈ Finset.Icc (-h) (-1), ∑ _j ∈ Finset.Icc (-h) h, B := by
    refine Finset.sum_le_sum (fun i hi => ?_)
    refine Finset.sum_le_sum (fun j hj => ?_)
    rw [Finset.mem_Icc] at hi hj
    exact hrows i j hi.1 hi.2 hj.1 hj.2
  have e2 : (∑ j ∈ Finset.Icc (-h) (-1),
      deviation_angle acos radian2degree (nor.data r (c + j)) (nor.data r (c - j))) ≤
      ∑ _j ∈ Finset.Icc (-h) (-1), B := by
    refine Finset.sum_le_sum (fun j hj => ?_)
    rw [Finset.mem_Icc] at hj
    exact hcentre j hj.1 hj.2
  have e3 : (∑ _i ∈ Finset.Icc (-h) (-1), ∑ _j ∈ Finset.Icc (-h) h, B) +
      ∑ _j ∈ Finset.Icc (-h) (-1), B = ((h * (2 * h + 1) + h : Int) : α) * B := by
    rw [sum_Icc_const (-h) h (by omega) B,
      sum_Icc_const (-h) (-1) (by omega), sum_Icc_const (-h) (-1) (by omega)]
    push_cast
    ring
  rw [← e3]
  exact add_le_add e1 e2

/-- For an accepted patch size the divisor `(patch_size + 1) * h` is the number
`h * (2h + 1) + h` of comparisons. -/
theorem orientation_divisor_eq {p : Int} (hodd : p.tmod 2 = 1) :
    (p + 1) * ((p - 1).tdiv 2) =
      ((p - 1).tdiv 2) * (2 * ((p - 1).tdiv 2) + 1) + (p - 1).tdiv 2 := by
  have hp := (half_patch_of_tmod hodd).2
  generalize (p - 1).tdiv 2 = h at hp
  subst hp
  ring

/-- Where the divisor fits in `int`, the orientation deviation is a mean (C25 up
to patch size 65535): the product `(patch_size + 1) * h` equals the number
`h * (2h + 1) + h` of angle comparisons (the length of the trace of
comparisons), so each interior value is the arithmetic mean of the compared
angles; consequently, for every field of unit normals and every accepted
`patch_size` with `3 <= patch_size <= 65535`, every pixel of the
orientation-deviation field lies in `[0, 180]` degrees (each angle
`radian2degree ( acos x )`, `x` in `[-1, 1]`, being in `[0, 180]`). -/
theorem orientation_deviation_mean_bounded {α : Type} [LinearOrderedField α]
    (div_by_zero acos radian2degree : α → α) (fresh : Int → Int → α) (p : Int)
    (surface_normal : DeVAS_image (DeVAS_XYZ α)) (h3 : 3 ≤ p) (hmax : p ≤ 65535)
    (hle : p ≤ imin surface_normal.n_rows surface_normal.n_cols) (hodd : p.tmod 2 = 1)
    (hangle : ∀ x, -1 ≤ x → x ≤ 1 →
      0 ≤ radian2degree (acos x) ∧ radian2degree (acos x) ≤ 180)
    (hunit : ∀ r c, 0 ≤ r → r < surface_normal.n_rows → 0 ≤ c →
      c < surface_normal.n_cols →
      v3d_dotprod (surface_normal.data r c) (surface_normal.data r c) = 1) :
    (p + 1) * ((p - 1).tdiv 2) =
      ((orientation_compared_offsets ((p - 1).tdiv 2)).length : Int) ∧
    ((p + 1) * ((p - 1).tdiv 2) =
      ((p - 1).tdiv 2) * (2 * ((p - 1).tdiv 2) + 1) + (p - 1).tdiv 2) ∧
    ∃ out, compute_orientation_deviation div_by_zero acos radian2degree fresh p surface_normal =
        .ok out ∧
      (∀ r c, (p - 1).tdiv 2 ≤ r → r < surface_normal.n_rows - (p - 1).tdiv 2 →
        (p - 1).tdiv 2 ≤ c → c < surface_normal.n_cols - (p - 1).tdiv 2 →
        out.data r c =
          (orientation_compared_offsets ((p - 1).tdiv 2)).foldl (fun t q =>
            t + radian2degree (acos (min (v3d_dotprod
              (surface_normal.data (r + q.1) (c + q.2))
              (surface_normal.data (r - q.1) (c - q.2))) 1))) 0 /
            (((orientation_compared_offsets ((p - 1).tdiv 2)).length : Nat) : α)) ∧
      ∀ r c, 0 ≤ r → r < out.n_rows → 0 ≤ c → c < out.n_cols →
        0 ≤ out.data r c ∧ out.data r c ≤ 180 := by
  have h0 : 0 ≤ (p - 1).tdiv 2 := (half_patch_of_tmod hodd).1
  have hp := (half_patch_of_tmod hodd).2
  have h1 : 1 ≤ (p - 1).tdiv 2 := by omega
  obtain ⟨hlen, -, -⟩ := orientation_compared_offsets_spec ((p - 1).tdiv 2) h0
  have hdiv := orientation_divisor_eq hodd
  have hN : (p + 1) * ((p - 1).tdiv 2) =
      ((orientation_compared_offsets ((p - 1).tdiv 2)).length : Int) := by
    rw [hlen]; exact hdiv
  have hNpos : (0 : α) < (((p + 1) * ((p - 1).tdiv 2) : Int) : α) :=
    Int.cast_pos.mpr (mul_pos (by omega) (by omega))
  have hangle' : ∀ a b : DeVAS_XYZ α, v3d_dotprod a a = 1 → v3d_dotprod b b = 1 →
      0 ≤ deviation_angle acos radian2degree a b ∧
      deviation_angle acos radian2degree a b ≤ 180 := by
    intro a b ha hb
    obtain ⟨b1, b2⟩ := v3d_dotprod_unit_bounds a b ha hb
    unfold deviation_angle
    rw [min_eq_left b2]
    exact hangle _ b1 b2
  obtain ⟨out, hout, hr, hc, hdata⟩ :=
    compute_orientation_deviation_ok_fits div_by_zero acos radian2degree fresh p surface_normal hle
        hodd h3 hmax
  refine ⟨hN, hdiv, out, hout, ?_, ?_⟩
  · intro r c hr1 hr2 hc1 hc2
    rw [hdata, if_pos ⟨hr1, hr2, hc1, hc2⟩, orientation_total_deviation_eq_foldl, hN,
      Int.cast_natCast]
    rfl
  · intro r c _ _ _ _
    rw [hdata]
    split_ifs with hin
    · obtain ⟨hr1, hr2, hc1, hc2⟩ := hin
      have hlo : 0 ≤ orientation_total_deviation acos radian2degree ((p - 1).tdiv 2)
          surface_normal r c :=
        orientation_total_deviation_nonneg (fun x => radian2degree (acos x)) (fun y => y)
          ((p - 1).tdiv 2) surface_normal (fun x a b => (hangle x a b).1) (fun y hy => hy)
          hunit h0 r c hr1 hr2 hc1 hc2
      have hhi := orientation_total_deviation_le acos radian2degree ((p - 1).tdiv 2)
        surface_normal r c 180 h0
        (fun i j a b c' d => (hangle' _ _
          (hunit (r + i) (c + j) (by omega) (by omega) (by omega) (by omega))
          (hunit (r - i) (c - j) (by omega) (by omega) (by omega) (by omega))).2)
        (fun j a b => (hangle' _ _
          (hunit r (c + j) (by omega) (by omega) (by omega) (by omega))
          (hunit r (c - j) (by omega) (by omega) (by omega) (by omega))).2)
      rw [← hdiv] at hhi
      exact ⟨div_nonneg hlo (le_of_lt hNpos), (div_le_iff₀' hNpos).mpr hhi⟩
    · exact ⟨le_rfl, by norm_num⟩

/-- The mean over the reals, with the real arc cosine and the conversion
`x * (180 / pi)`: the 5x5 field of normals `(0, 0, 1)`, patch size 3. -/
theorem orientation_deviation_mean_bounded_witness :
    (∀ x : ℝ, -1 ≤ x → x ≤ 1 →
      0 ≤ Real.arccos x * (180 / Real.pi) ∧ Real.arccos x * (180 / Real.pi) ≤ 180) ∧
    ((3 : Int) + 1) * (((3 : Int) - 1).tdiv 2) =
      ((orientation_compared_offsets (((3 : Int) - 1).tdiv 2)).length : Int) ∧
    ∃ out, compute_orientation_deviation (fun _ => -1) Real.arccos (fun x => x * (180 / Real.pi))
        (fun _ _ => (1 : ℝ)) 3 up_normal_5x5 = .ok out ∧
      ∀ r c, 0 ≤ r → r < out.n_rows → 0 ≤ c → c < out.n_cols →
        0 ≤ out.data r c ∧ out.data r c ≤ 180 := by
  have hangle : ∀ x : ℝ, -1 ≤ x → x ≤ 1 →
      0 ≤ Real.arccos x * (180 / Real.pi) ∧ Real.arccos x * (180 / Real.pi) ≤ 180 := by
    intro x _ _
    have hpi := Real.pi_pos
    refine ⟨mul_nonneg (Real.arccos_nonneg x) (div_nonneg (by norm_num) hpi.le), ?_⟩
    calc Real.arccos x * (180 / Real.pi) ≤ Real.pi * (180 / Real.pi) :=
          mul_le_mul_of_nonneg_right (Real.arccos_le_pi x) (div_nonneg (by norm_num) hpi.le)
      _ = 180 := by field_simp
  obtain ⟨hN, -, out, hout, -, hb⟩ := orientation_deviation_mean_bounded (fun _ => -1) Real.arccos
    (fun x => x * (180 / Real.pi)) (fun _ _ => (1 : ℝ)) 3 up_normal_5x5 (by decide)
    (by decide) (by simp [imin, up_normal_5x5]) (by decide) hangle
    (by intro r c _ _ _ _; simp [v3d_dotprod, up_normal_5x5])
  exact ⟨hangle, hN, out, hout, hb⟩

/-- Where the divisor fits in `int`, constancy of the normal field alone does not
give a zero orientation deviation (C30 up to patch size 65535): for a constant
field of a vector `n` with `dot(n, n) < 1` and every accepted `patch_size` with
`3 <= patch_size <= 65535`, `compute_orientation_deviation` returns
`radian2degree ( acos ( dot(n, n) ) )`, which is non-zero, at every interior
pixel; for the constant field of zero vectors `(0, 0, 0)` this is exactly 90
degrees (with `radian2degree ( acos 0 ) = 90`, and `radian2degree ( acos x )`
non-zero for `0 <= x < 1`). -/
theorem orientation_deviation_constant_non_unit {α : Type} [LinearOrderedField α]
    (div_by_zero acos radian2degree : α → α) (fresh : Int → Int → α) (p : Int)
    (surface_normal : DeVAS_image (DeVAS_XYZ α)) (n : DeVAS_XYZ α) (h3 : 3 ≤ p) (hmax : p ≤ 65535)
    (hle : p ≤ imin surface_normal.n_rows surface_normal.n_cols) (hodd : p.tmod 2 = 1)
    (hright : radian2degree (acos 0) = 90)
    (hnz : ∀ x, 0 ≤ x → x < 1 → radian2degree (acos x) ≠ 0)
    (hlt : v3d_dotprod n n < 1)
    (hconst : ∀ r c, 0 ≤ r → r < surface_normal.n_rows → 0 ≤ c →
      c < surface_normal.n_cols → surface_normal.data r c = n) :
    ∃ out, compute_orientation_deviation div_by_zero acos radian2degree fresh p surface_normal =
        .ok out ∧
      ∀ r c, (p - 1).tdiv 2 ≤ r → r < surface_normal.n_rows - (p - 1).tdiv 2 →
        (p - 1).tdiv 2 ≤ c → c < surface_normal.n_cols - (p - 1).tdiv 2 →
        out.data r c = radian2degree (acos (v3d_dotprod n n)) ∧ out.data r c ≠ 0 ∧
        (n = { X := 0, Y := 0, Z := 0 } → out.data r c = 90) := by
  have h0 : 0 ≤ (p - 1).tdiv 2 := (half_patch_of_tmod hodd).1
  have hp := (half_patch_of_tmod hodd).2
  have h1 : 1 ≤ (p - 1).tdiv 2 := by omega
  have hNpos : (0 : α) < (((p + 1) * ((p - 1).tdiv 2) : Int) : α) :=
    Int.cast_pos.mpr (mul_pos (by omega) (by omega))
  have hdd : 0 ≤ v3d_dotprod n n :=
    add_nonneg (add_nonneg (mul_self_nonneg _) (mul_self_nonneg _)) (mul_self_nonneg _)
  have hA : deviation_angle acos radian2degree n n = radian2degree (acos (v3d_dotprod n n)) := by
    unfold deviation_angle
    rw [min_eq_left (le_of_lt hlt)]
  obtain ⟨out, hout, -, -, hdata⟩ :=
    compute_orientation_deviation_ok_fits div_by_zero acos radian2degree fresh p surface_normal hle
        hodd h3 hmax
  refine ⟨out, hout, ?_⟩
  intro r c hr1 hr2 hc1 hc2
  have hval : out.data r c = radian2degree (acos (v3d_dotprod n n)) := by
    rw [hdata, if_pos ⟨hr1, hr2, hc1, hc2⟩,
      orientation_total_deviation_const acos radian2degree _ surface_normal r c
        (radian2degree (acos (v3d_dotprod n n))) h0
        (fun i j a b c' d => by
          rw [hconst (r + i) (c + j) (by omega) (by omega) (by omega) (by omega),
            hconst (r - i) (c - j) (by omega) (by omega) (by omega) (by omega), hA])
        (fun j a b => by
          rw [hconst r (c + j) (by omega) (by omega) (by omega) (by omega),
            hconst r (c - j) (by omega) (by omega) (by omega) (by omega), hA]),
      ← orientation_divisor_eq hodd]
    exact mul_div_cancel_left₀ _ (ne_of_gt hNpos)
  refine ⟨hval, ?_, ?_⟩
  · rw [hval]
    exact hnz _ hdd hlt
  · intro hn
    rw [hval, hn]
    simp only [v3d_dotprod, mul_zero, add_zero]
    exact hright

/-- The constant field over the reals, with the real arc cosine and the conversion
`x * (180 / pi)`: the 5x5 field of zero vectors, patch size 3, interior pixel
`(2, 2)`: the orientation deviation is 90 degrees. -/
theorem orientation_deviation_constant_non_unit_witness :
    Real.arccos 0 * (180 / Real.pi) = 90 ∧
    v3d_dotprod ({ X := 0, Y := 0, Z := 0 } : DeVAS_XYZ ℝ) { X := 0, Y := 0, Z := 0 } < 1 ∧
    ∃ out, compute_orientation_deviation (fun _ => -1) Real.arccos (fun x => x * (180 / Real.pi))
        (fun _ _ => (1 : ℝ)) 3
        (split_normal { X := 0, Y := 0, Z := 0 } { X := 0, Y := 0, Z := 0 } 0) = .ok out ∧
      out.data 2 2 = 90 ∧ out.data 2 2 ≠ 0 := by
  have hright : Real.arccos 0 * (180 / Real.pi) = 90 := by
    rw [Real.arccos_zero]
    have hpi : Real.pi ≠ 0 := Real.pi_ne_zero
    field_simp
    ring
  have hlt : v3d_dotprod ({ X := 0, Y := 0, Z := 0 } : DeVAS_XYZ ℝ)
      { X := 0, Y := 0, Z := 0 } < 1 := by
    simp [v3d_dotprod]
  obtain ⟨out, hout, h⟩ := orientation_deviation_constant_non_unit (fun _ => -1) Real.arccos
    (fun x => x * (180 / Real.pi)) (fun _ _ => (1 : ℝ)) 3
    (split_normal { X := 0, Y := 0, Z := 0 } { X := 0, Y := 0, Z := 0 } 0)
    { X := 0, Y := 0, Z := 0 } (by decide) (by decide) (by simp [imin, split_normal])
    (by decide) hright
    (fun x _ hx => mul_ne_zero (ne_of_gt (Real.arccos_pos.mpr hx))
      (div_ne_zero (by norm_num) Real.pi_ne_zero))
    hlt (by intro r c _ _ _ _; simp [split_normal])
  have hh : ((3 : Int) - 1).tdiv 2 = 1 := by decide
  obtain ⟨-, h2, h3⟩ := h 2 2 (by rw [hh]; decide) (by rw [hh]; simp [split_normal])
    (by rw [hh]; decide) (by rw [hh]; simp [split_normal])
  exact ⟨hright, hlt, out, hout, h3 rfl, h2⟩

/-! ## Patch size 65537: the divisors leave the range of `int` -/

/-- At patch size 65537 on a 65537x65537 scene the one interior pixel is
`(32768, 32768)`; the position filter divides by -2147450880 there. -/
theorem compute_position_deviation_patch_65537 {α : Type} [LinearOrderedField α]
    (fresh : Int → Int → α) (position surface_normal : DeVAS_image (DeVAS_XYZ α))
    (hrows : position.n_rows = 65537) (hcols : position.n_cols = 65537)
    (hs : DeVAS_image_samesize position surface_normal = true) :
    ∃ out, compute_position_deviation fresh 65537 position surface_normal = .ok out ∧
      out.data 32768 32768 =
        if position_total_deviation 32768 position surface_normal 32768 32768 < 0 then
          -position_total_deviation 32768 position surface_normal 32768 32768 / (-2147450880)
        else 0 := by
  obtain ⟨out, hout, -, -, hdata⟩ := compute_position_deviation_ok fresh 65537 position
    surface_normal hs (by rw [hrows, hcols]; decide) (by decide)
  have hh : ((65537 : Int) - 1).tdiv 2 = 32768 := by decide
  have hd : int_mul 32768 65537 = -2147450880 := by decide
  have hin : (32768 : Int) ≤ 32768 ∧ (32768 : Int) < position.n_rows - 32768 ∧
      (32768 : Int) ≤ 32768 ∧ (32768 : Int) < position.n_cols - 32768 := by
    rw [hrows, hcols]; decide
  refine ⟨out, hout, ?_⟩
  rw [hdata, hh, if_pos hin, hd]
  norm_num

/-- At patch size 65537 on a 65537x65537 scene the orientation filter divides
the sum of angles of the interior pixel `(32768, 32768)` by -2147418112. -/
theorem compute_orientation_deviation_patch_65537 {α : Type} [LinearOrderedField α]
    (div_by_zero acos radian2degree : α → α) (fresh : Int → Int → α)
    (surface_normal : DeVAS_image (DeVAS_XYZ α))
    (hrows : surface_normal.n_rows = 65537) (hcols : surface_normal.n_cols = 65537) :
    ∃ out, compute_orientation_deviation div_by_zero acos radian2degree fresh 65537
        surface_normal = .ok out ∧
      out.data 32768 32768 =
        orientation_total_deviation acos radian2degree 32768 surface_normal 32768 32768 /
          (-2147418112) := by
  obtain ⟨out, hout, -, -, hdata⟩ := compute_orientation_deviation_ok div_by_zero acos
    radian2degree fresh 65537 surface_normal (by rw [hrows, hcols]; decide) (by decide)
  have hh : ((65537 : Int) - 1).tdiv 2 = 32768 := by decide
  have hd : int_mul (int_add 65537 1) 32768 = -2147418112 := by decide
  have hin : (32768 : Int) ≤ 32768 ∧ (32768 : Int) < surface_normal.n_rows - 32768 ∧
      (32768 : Int) ≤ 32768 ∧ (32768 : Int) < surface_normal.n_cols - 32768 := by
    rw [hrows, hcols]; decide
  refine ⟨out, hout, ?_⟩
  rw [hdata, hh, if_pos hin, hd, double_div_of_ne _ _ _ (by norm_num)]
  norm_num

/-- On the scene `dent_position_65537` the sum of the projections at the centre
pixel onto a centre normal `(0, 0, k)` is `-k`: the only pixel off the plane is
the right-hand neighbour, at `z = -1`. -/
theorem dent_position_total {α : Type} [LinearOrderedField α]
    (surface_normal : DeVAS_image (DeVAS_XYZ α)) (k : α)
    (hn : surface_normal.data 32768 32768 = { X := 0, Y := 0, Z := k }) :
    position_total_deviation 32768 dent_position_65537 surface_normal 32768 32768 = -k := by
  rw [position_total_deviation_eq_sum]
  have hterm : ∀ i j : Int,
      position_deviation_term dent_position_65537 surface_normal 32768 32768 i j =
        if i = 0 ∧ j = 1 then -k else 0 := by
    intro i j
    have e : (32768 + i = 32768 ∧ 32768 + j = 32769) ↔ (i = 0 ∧ j = 1) := by omega
    simp only [position_deviation_term, dent_position_65537, v3d_dotprod, v3d_subtract, hn, e]
    split_ifs <;> simp_all
  simp only [hterm]
  rw [Finset.sum_eq_single (0 : Int), Finset.sum_eq_single (1 : Int)]
  · simp
  · intro j _ hj
    rw [if_neg]
    rintro ⟨-, h⟩
    exact hj h
  · intro h
    exact absurd (Finset.mem_Icc.mpr ⟨by decide, by decide⟩) h
  · intro i _ hi
    apply Finset.sum_eq_zero
    intro j _
    rw [if_neg]
    rintro ⟨h, -⟩
    exact hi h
  · intro h
    exact absurd (Finset.mem_Icc.mpr ⟨by decide, by decide⟩) h

/-- A sum of non-negative terms over a range of offsets is at least each of its
terms. -/
theorem term_le_sum_Icc {α : Type} [LinearOrderedField α] (lo hi a : Int) (g : Int → α)
    (hnn : ∀ j, 0 ≤ g j) (h1 : lo ≤ a) (h2 : a ≤ hi) : g a ≤ ∑ j ∈ Finset.Icc lo hi, g j :=
  Finset.single_le_sum (fun j _ => hnn j) (Finset.mem_Icc.mpr ⟨h1, h2⟩)

/-- On the crease scene the sum of angles at the centre pixel is positive: the
pair of the left and the right neighbour of the centre is `(A, B)`. -/
theorem split_normal_65537_total_pos {α : Type} [LinearOrderedField α]
    (acos radian2degree : α → α) (A B : DeVAS_XYZ α)
    (hnn : ∀ x, 0 ≤ radian2degree (acos x))
    (hAB : 0 < deviation_angle acos radian2degree A B) :
    0 < orientation_total_deviation acos radian2degree 32768 (split_normal_65537 A B)
      32768 32768 := by
  rw [orientation_total_deviation_eq_sum]
  have h1 : 0 ≤ ∑ i ∈ Finset.Icc (-32768 : Int) (-1), ∑ j ∈ Finset.Icc (-32768 : Int) 32768,
      deviation_angle acos radian2degree ((split_normal_65537 A B).data (32768 + i) (32768 + j))
        ((split_normal_65537 A B).data (32768 - i) (32768 - j)) :=
    Finset.sum_nonneg (fun i _ => Finset.sum_nonneg (fun j _ => hnn _))
  have h3 := term_le_sum_Icc (-32768) (-1) (-1)
    (fun j : Int => deviation_angle acos radian2degree
      ((split_normal_65537 A B).data 32768 (32768 + j))
      ((split_normal_65537 A B).data 32768 (32768 - j)))
    (fun j => hnn _) (by norm_num) (le_refl _)
  have e1 : (split_normal_65537 A B).data 32768 (32768 + -1) = A := by
    simp [split_normal_65537]
  have e2 : (split_normal_65537 A B).data 32768 (32768 - -1) = B := by
    simp [split_normal_65537]
  simp only [e1, e2] at h3
  linarith

/-- The angle of two orthogonal vectors over the reals, with the real arc cosine
and the conversion `x * (180 / pi)`, is 90 degrees. -/
theorem real_angle_of_dot_zero (a b : DeVAS_XYZ ℝ) (h : v3d_dotprod a b = 0) :
    deviation_angle Real.arccos (fun x => x * (180 / Real.pi)) a b = 90 := by
  unfold deviation_angle
  rw [h, min_eq_left (by norm_num : (0 : ℝ) ≤ 1), Real.arccos_zero]
  have hpi : Real.pi ≠ 0 := Real.pi_ne_zero
  field_simp
  ring

/-- Over the reals every angle `arccos x * (180 / pi)` is non-negative. -/
theorem real_angle_nonneg (x : ℝ) : 0 ≤ Real.arccos x * (180 / Real.pi) :=
  mul_nonneg (Real.arccos_nonneg x) (div_nonneg (by norm_num) Real.pi_pos.le)

/-- The orientation deviation stored at the centre pixel of the 65537x65537
field of zero vectors, patch size 65537, over the reals: the sum of the
2147549184 angles of 90 degrees, divided by -2147418112. -/
theorem zero_normal_65537_value (div_by_zero : ℝ → ℝ) (fresh : Int → Int → ℝ) :
    ∃ out, compute_orientation_deviation div_by_zero Real.arccos
        (fun x => x * (180 / Real.pi)) fresh 65537
        (constant_normal_65537 ({ X := 0, Y := 0, Z := 0 } : DeVAS_XYZ ℝ)) = .ok out ∧
      orientation_total_deviation Real.arccos (fun x => x * (180 / Real.pi)) 32768
        (constant_normal_65537 ({ X := 0, Y := 0, Z := 0 } : DeVAS_XYZ ℝ)) 32768 32768 = 2147549184
            * 90 ∧
      out.data 32768 32768 = 2147549184 * 90 / (-2147418112) := by
  obtain ⟨out, hout, hval⟩ := compute_orientation_deviation_patch_65537 div_by_zero
    Real.arccos (fun x => x * (180 / Real.pi)) fresh
    (constant_normal_65537 ({ X := 0, Y := 0, Z := 0 } : DeVAS_XYZ ℝ)) rfl rfl
  have hA : deviation_angle Real.arccos (fun x => x * (180 / Real.pi))
      ({ X := 0, Y := 0, Z := 0 } : DeVAS_XYZ ℝ) { X := 0, Y := 0, Z := 0 } = 90 :=
    real_angle_of_dot_zero _ _ (by simp [v3d_dotprod])
  have hT := orientation_total_deviation_const Real.arccos (fun x => x * (180 / Real.pi))
    32768 (constant_normal_65537 ({ X := 0, Y := 0, Z := 0 } : DeVAS_XYZ ℝ)) 32768 32768 90
    (by decide) (fun i j _ _ _ _ => hA) (fun j _ _ => hA)
  have hN : (((32768 * (2 * 32768 + 1) + 32768 : Int)) : ℝ) = 2147549184 := by norm_num
  rw [hN] at hT
  exact ⟨out, hout, hT, by rw [hval, hT]⟩

/-- C17: the formula fails at patch size 65537.  On the 65537x65537 scene
`dent_position_65537` with the normal `(0, 0, 1)` at every pixel, the sum `S` at
the interior pixel `(32768, 32768)` is -1; the product `32768 * 65537 =
2147516416` does not fit in `int` and the divisor that the code forms is
-2147450880, so the stored value is `-1 / 2147450880` and not
`-S / (h * patch_size) = 1 / 2147516416`. -/
theorem position_deviation_value_patch_65537 :
    DeVAS_image_samesize (dent_position_65537 : DeVAS_image (DeVAS_XYZ ℚ))
      (constant_normal_65537 ({ X := 0, Y := 0, Z := 1 } : DeVAS_XYZ ℚ)) = true ∧
    (3 : Int) ≤ 65537 ∧
    (65537 : Int) ≤ imin (dent_position_65537 : DeVAS_image (DeVAS_XYZ ℚ)).n_rows
      (dent_position_65537 : DeVAS_image (DeVAS_XYZ ℚ)).n_cols ∧
    (65537 : Int).tmod 2 = 1 ∧ ((65537 : Int) - 1) / 2 = 32768 ∧
    (∑ i ∈ Finset.Icc (-32768 : Int) 32768, ∑ j ∈ Finset.Icc (-32768 : Int) 32768,
      v3d_dotprod ((constant_normal_65537 ({ X := 0, Y := 0, Z := 1 } : DeVAS_XYZ ℚ)).data
          32768 32768)
        (v3d_subtract ((dent_position_65537 : DeVAS_image (DeVAS_XYZ ℚ)).data (32768 + i)
          (32768 + j)) ((dent_position_65537 : DeVAS_image (DeVAS_XYZ ℚ)).data 32768 32768)))
      = -1 ∧
    int_mul 32768 65537 = -2147450880 ∧
    ∃ out, compute_position_deviation (fun _ _ => (1 : ℚ)) 65537 dent_position_65537
        (constant_normal_65537 ({ X := 0, Y := 0, Z := 1 } : DeVAS_XYZ ℚ)) = .ok out ∧
      out.data 32768 32768 = -1 / 2147450880 ∧
      out.data 32768 32768 ≠ -(-1) / ((32768 : ℚ) * 65537) := by
  have hT := dent_position_total
    (constant_normal_65537 ({ X := 0, Y := 0, Z := 1 } : DeVAS_XYZ ℚ)) 1 rfl
  have hS := (position_total_deviation_eq_sum 32768
    (dent_position_65537 : DeVAS_image (DeVAS_XYZ ℚ))
    (constant_normal_65537 ({ X := 0, Y := 0, Z := 1 } : DeVAS_XYZ ℚ)) 32768 32768).symm.trans hT
  obtain ⟨out, hout, hval⟩ := compute_position_deviation_patch_65537 (fun _ _ => (1 : ℚ))
    dent_position_65537 (constant_normal_65537 ({ X := 0, Y := 0, Z := 1 } : DeVAS_XYZ ℚ)) rfl rfl
    (by decide)
  rw [hT] at hval
  have hv : out.data 32768 32768 = -1 / 2147450880 := by
    rw [hval]
    norm_num
  refine ⟨by decide, by decide, by decide, by decide, by decide, hS, by decide, out, hout,
    hv, ?_⟩
  rw [hv]
  norm_num

/-- C18: the formula fails at patch size 65537.  On the 65537x65537 field of
zero vectors, over the reals with the real arc cosine and the conversion
`x * (180 / pi)`, the sum `T` at the interior pixel `(32768, 32768)` is
`2147549184 * 90`; the product `65538 * 32768 = 2147549184` does not fit in
`int` and the divisor that the code forms is -2147418112, so the stored value is
`T / -2147418112`, which is negative, and not `T / ((patch_size + 1) * h) = 90`. -/
theorem orientation_deviation_value_patch_65537 :
    (3 : Int) ≤ 65537 ∧
    (65537 : Int) ≤ imin
      (constant_normal_65537 ({ X := 0, Y := 0, Z := 0 } : DeVAS_XYZ ℝ)).n_rows
      (constant_normal_65537 ({ X := 0, Y := 0, Z := 0 } : DeVAS_XYZ ℝ)).n_cols ∧
    (65537 : Int).tmod 2 = 1 ∧ ((65537 : Int) - 1) / 2 = 32768 ∧
    int_mul (int_add 65537 1) 32768 = -2147418112 ∧
    ∃ out, compute_orientation_deviation (fun _ => -1) Real.arccos
        (fun x => x * (180 / Real.pi)) (fun _ _ => 1) 65537
        (constant_normal_65537 ({ X := 0, Y := 0, Z := 0 } : DeVAS_XYZ ℝ)) = .ok out ∧
      ((∑ i ∈ Finset.Icc (-32768 : Int) (-1), ∑ j ∈ Finset.Icc (-32768 : Int) 32768,
          Real.arccos (min (v3d_dotprod
            ((constant_normal_65537 ({ X := 0, Y := 0, Z := 0 } : DeVAS_XYZ ℝ)).data
              (32768 + i) (32768 + j))
            ((constant_normal_65537 ({ X := 0, Y := 0, Z := 0 } : DeVAS_XYZ ℝ)).data
              (32768 - i) (32768 - j))) 1) * (180 / Real.pi)) +
        ∑ j ∈ Finset.Icc (-32768 : Int) (-1),
          Real.arccos (min (v3d_dotprod
            ((constant_normal_65537 ({ X := 0, Y := 0, Z := 0 } : DeVAS_XYZ ℝ)).data
              32768 (32768 + j))
            ((constant_normal_65537 ({ X := 0, Y := 0, Z := 0 } : DeVAS_XYZ ℝ)).data
              32768 (32768 - j))) 1) * (180 / Real.pi)) = 2147549184 * 90 ∧
      out.data 32768 32768 = 2147549184 * 90 / (-2147418112) ∧
      out.data 32768 32768 < 0 ∧
      out.data 32768 32768 ≠ 2147549184 * 90 / (((65537 : ℝ) + 1) * 32768) := by
  obtain ⟨out, hout, hT, hval⟩ := zero_normal_65537_value (fun _ => -1) (fun _ _ => 1)
  have hS := (orientation_total_deviation_eq_sum Real.arccos (fun x => x * (180 / Real.pi))
    32768 (constant_normal_65537 ({ X := 0, Y := 0, Z := 0 } : DeVAS_XYZ ℝ))
    32768 32768).symm.trans hT
  refine ⟨by decide, by decide, by decide, by decide, by decide, out, hout, hS, hval, ?_, ?_⟩
  · rw [hval]
    norm_num
  · rw [hval]
    norm_num

/-- C20: non-negativity fails at patch size 65537, where both divisors are
negative.  On the 65537x65537 scene `dent_position_65537` with the unit normal
`(0, 0, 1)` at every pixel the position deviation at the interior pixel
`(32768, 32768)` is `-1 / 2147450880 < 0`; on the 65537x65537 crease of the
orthogonal unit normals `(1, 0, 0)` and `(0, 0, 1)`, over the reals with the
real arc cosine, the orientation deviation at that pixel is negative. -/
theorem deviation_fields_negative_patch_65537 :
    (3 : Int) ≤ 65537 ∧ (65537 : Int).tmod 2 = 1 ∧
    v3d_dotprod ({ X := 0, Y := 0, Z := 1 } : DeVAS_XYZ ℚ) { X := 0, Y := 0, Z := 1 } = 1 ∧
    v3d_dotprod ({ X := 1, Y := 0, Z := 0 } : DeVAS_XYZ ℝ) { X := 1, Y := 0, Z := 0 } = 1 ∧
    v3d_dotprod ({ X := 0, Y := 0, Z := 1 } : DeVAS_XYZ ℝ) { X := 0, Y := 0, Z := 1 } = 1 ∧
    (∃ out, compute_position_deviation (fun _ _ => (1 : ℚ)) 65537 dent_position_65537
        (constant_normal_65537 ({ X := 0, Y := 0, Z := 1 } : DeVAS_XYZ ℚ)) = .ok out ∧
      out.n_rows = 65537 ∧ out.n_cols = 65537 ∧ out.data 32768 32768 < 0) ∧
    (∃ out, compute_orientation_deviation (fun _ => -1) Real.arccos
        (fun x => x * (180 / Real.pi)) (fun _ _ => 1) 65537
        (split_normal_65537 ({ X := 1, Y := 0, Z := 0 } : DeVAS_XYZ ℝ) { X := 0, Y := 0, Z := 1 })
            = .ok out ∧
      out.data 32768 32768 < 0) := by
  refine ⟨by decide, by decide, by simp [v3d_dotprod], by simp [v3d_dotprod],
    by simp [v3d_dotprod], ?_, ?_⟩
  · obtain ⟨out, hout, hr, hc, -⟩ := compute_position_deviation_ok (fun _ _ => (1 : ℚ)) 65537
      dent_position_65537 (constant_normal_65537 ({ X := 0, Y := 0, Z := 1 } : DeVAS_XYZ ℚ))
          (by decide)
      (by decide) (by decide)
    obtain ⟨out', hout', hval⟩ := compute_position_deviation_patch_65537 (fun _ _ => (1 : ℚ))
      dent_position_65537 (constant_normal_65537 ({ X := 0, Y := 0, Z := 1 } : DeVAS_XYZ ℚ)) rfl rfl
      (by decide)
    have e : out' = out := by
      rw [hout] at hout'
      exact (Except.ok.inj hout').symm
    subst e
    rw [dent_position_total
      (constant_normal_65537 ({ X := 0, Y := 0, Z := 1 } : DeVAS_XYZ ℚ)) 1 rfl] at hval
    refine ⟨out', hout, hr, hc, ?_⟩
    rw [hval]
    norm_num
  · obtain ⟨out, hout, hval⟩ := compute_orientation_deviation_patch_65537 (fun _ => -1)
      Real.arccos (fun x => x * (180 / Real.pi)) (fun _ _ => 1)
      (split_normal_65537 ({ X := 1, Y := 0, Z := 0 } : DeVAS_XYZ ℝ) { X := 0, Y := 0, Z := 1 })
          rfl rfl
    have hpos := split_normal_65537_total_pos Real.arccos (fun x => x * (180 / Real.pi))
      { X := 1, Y := 0, Z := 0 } { X := 0, Y := 0, Z := 1 } (fun x => real_angle_nonneg _)
      (by rw [real_angle_of_dot_zero _ _ (by simp [v3d_dotprod])]; norm_num)
    refine ⟨out, hout, ?_⟩
    rw [hval]
    exact div_neg_of_pos_of_neg hpos (by norm_num)

/-- C24: the divisors are not strictly positive at patch size 65537, an odd
patch size `>= 3` that a 65537x65537 scene admits: the code forms `h *
patch_size = 32768 * 65537` and `(patch_size + 1) * h = 65538 * 32768` in `int`,
where they are -2147450880 and -2147418112.  On the scene `dent_position_65537`
the position filter divides `-S = 1` by the first one. -/
theorem filter_divisors_patch_65537 :
    Odd (65537 : Int) ∧ (3 : Int) ≤ 65537 ∧
    (65537 : Int) ≤ min (dent_position_65537 : DeVAS_image (DeVAS_XYZ ℚ)).n_rows
      (dent_position_65537 : DeVAS_image (DeVAS_XYZ ℚ)).n_cols ∧
    int_mul (((65537 : Int) - 1).tdiv 2) 65537 = -2147450880 ∧
    int_mul (int_add 65537 1) (((65537 : Int) - 1).tdiv 2) = -2147418112 ∧
    ¬ 0 < int_mul (((65537 : Int) - 1).tdiv 2) 65537 ∧
    ¬ 0 < int_mul (int_add 65537 1) (((65537 : Int) - 1).tdiv 2) ∧
    ∃ out, compute_position_deviation (fun _ _ => (1 : ℚ)) 65537 dent_position_65537
        (constant_normal_65537 ({ X := 0, Y := 0, Z := 1 } : DeVAS_XYZ ℚ)) = .ok out ∧
      out.data 32768 32768 =
        1 / ((int_mul (((65537 : Int) - 1).tdiv 2) 65537 : Int) : ℚ) := by
  obtain ⟨out, hout, hval⟩ := compute_position_deviation_patch_65537 (fun _ _ => (1 : ℚ))
    dent_position_65537 (constant_normal_65537 ({ X := 0, Y := 0, Z := 1 } : DeVAS_XYZ ℚ))
    rfl rfl (by decide)
  rw [dent_position_total
    (constant_normal_65537 ({ X := 0, Y := 0, Z := 1 } : DeVAS_XYZ ℚ)) 1 rfl] at hval
  have hd : int_mul (((65537 : Int) - 1).tdiv 2) 65537 = -2147450880 := by decide
  refine ⟨by decide, by decide, by decide, hd, by decide, by decide, by decide, out, hout,
    ?_⟩
  rw [hval, hd]
  norm_num

/-- C25: at patch size 65537 the divisor is not the number of comparisons and
the value is not a mean in `[0, 180]`.  The trace of comparisons has `32768 *
65537 + 32768 = 2147549184` entries, the divisor that the code forms is
-2147418112; on the 65537x65537 crease of the orthogonal unit normals
`(1, 0, 0)` and `(0, 0, 1)`, over the reals with the real arc cosine and the
conversion `x * (180 / pi)`, the orientation deviation at the interior pixel
`(32768, 32768)` is negative. -/
theorem orientation_deviation_mean_patch_65537 :
    (3 : Int) ≤ 65537 ∧ (65537 : Int).tmod 2 = 1 ∧
    (65537 : Int) ≤ imin
      (split_normal_65537 ({ X := 1, Y := 0, Z := 0 } : DeVAS_XYZ ℝ)
        { X := 0, Y := 0, Z := 1 }).n_rows
      (split_normal_65537 ({ X := 1, Y := 0, Z := 0 } : DeVAS_XYZ ℝ)
        { X := 0, Y := 0, Z := 1 }).n_cols ∧
    ((orientation_compared_offsets (((65537 : Int) - 1).tdiv 2)).length : Int) = 2147549184 ∧
    int_mul (int_add 65537 1) (((65537 : Int) - 1).tdiv 2) = -2147418112 ∧
    v3d_dotprod ({ X := 1, Y := 0, Z := 0 } : DeVAS_XYZ ℝ) { X := 1, Y := 0, Z := 0 } = 1 ∧
    v3d_dotprod ({ X := 0, Y := 0, Z := 1 } : DeVAS_XYZ ℝ) { X := 0, Y := 0, Z := 1 } = 1 ∧
    ∃ out, compute_orientation_deviation (fun _ => -1) Real.arccos
        (fun x => x * (180 / Real.pi)) (fun _ _ => 1) 65537
        (split_normal_65537 ({ X := 1, Y := 0, Z := 0 } : DeVAS_XYZ ℝ)
          { X := 0, Y := 0, Z := 1 }) = .ok out ∧
      0 ≤ (32768 : Int) ∧ (32768 : Int) < out.n_rows ∧ (32768 : Int) < out.n_cols ∧
      ¬ (0 ≤ out.data 32768 32768 ∧ out.data 32768 32768 ≤ 180) := by
  have hh : ((65537 : Int) - 1).tdiv 2 = 32768 := by decide
  have hlen := (orientation_compared_offsets_spec 32768 (by decide)).1
  obtain ⟨out, hout, hr, hc, -⟩ := compute_orientation_deviation_ok (fun _ => -1)
    Real.arccos (fun x => x * (180 / Real.pi)) (fun _ _ => 1) 65537
    (split_normal_65537 ({ X := 1, Y := 0, Z := 0 } : DeVAS_XYZ ℝ) { X := 0, Y := 0, Z := 1 })
    (by decide) (by decide)
  obtain ⟨out', hout', hval⟩ := compute_orientation_deviation_patch_65537 (fun _ => -1)
    Real.arccos (fun x => x * (180 / Real.pi)) (fun _ _ => 1)
    (split_normal_65537 ({ X := 1, Y := 0, Z := 0 } : DeVAS_XYZ ℝ) { X := 0, Y := 0, Z := 1 })
    rfl rfl
  have e : out' = out := by
    rw [hout] at hout'
    exact (Except.ok.inj hout').symm
  subst e
  have hpos := split_normal_65537_total_pos Real.arccos (fun x => x * (180 / Real.pi))
    { X := 1, Y := 0, Z := 0 } { X := 0, Y := 0, Z := 1 } (fun x => real_angle_nonneg _)
    (by rw [real_angle_of_dot_zero _ _ (by simp [v3d_dotprod])]; norm_num)
  have hneg : out'.data 32768 32768 < 0 := by
    rw [hval]
    exact div_neg_of_pos_of_neg hpos (by norm_num)
  refine ⟨by decide, by decide, by decide, ?_, by decide, by simp [v3d_dotprod],
    by simp [v3d_dotprod], out', hout, by decide, ?_, ?_, ?_⟩
  · rw [hh, hlen]
    decide
  · rw [hr]
    decide
  · rw [hc]
    decide
  · intro hb
    exact absurd hb.1 (not_le.mpr hneg)

/-- C28: the sum of the two deviations is not `|S| / (h * patch_size)` at patch
size 65537.  On the 65537x65537 scene `dent_position_65537` with the normal
`(0, 0, 1)` at every pixel, `S = -1` at the interior pixel `(32768, 32768)`: the
deviation computed with the normal field is `-1 / 2147450880`, the one computed
with the negated field is 0, and their sum is negative where
`|S| / (h * patch_size)` is `1 / 2147516416`. -/
theorem position_deviation_one_sided_patch_65537 :
    DeVAS_image_samesize (dent_position_65537 : DeVAS_image (DeVAS_XYZ ℚ))
      (constant_normal_65537 ({ X := 0, Y := 0, Z := 1 } : DeVAS_XYZ ℚ)) = true ∧
    (3 : Int) ≤ 65537 ∧
    (65537 : Int) ≤ imin (dent_position_65537 : DeVAS_image (DeVAS_XYZ ℚ)).n_rows
      (dent_position_65537 : DeVAS_image (DeVAS_XYZ ℚ)).n_cols ∧
    (65537 : Int).tmod 2 = 1 ∧
    (∑ i ∈ Finset.Icc (-32768 : Int) 32768, ∑ j ∈ Finset.Icc (-32768 : Int) 32768,
      v3d_dotprod ((constant_normal_65537 ({ X := 0, Y := 0, Z := 1 } : DeVAS_XYZ ℚ)).data
          32768 32768)
        (v3d_subtract ((dent_position_65537 : DeVAS_image (DeVAS_XYZ ℚ)).data (32768 + i)
          (32768 + j)) ((dent_position_65537 : DeVAS_image (DeVAS_XYZ ℚ)).data 32768 32768)))
      = -1 ∧
    ∃ o o', compute_position_deviation (fun _ _ => (1 : ℚ)) 65537 dent_position_65537
        (constant_normal_65537 ({ X := 0, Y := 0, Z := 1 } : DeVAS_XYZ ℚ)) = .ok o ∧
      compute_position_deviation (fun _ _ => (2 : ℚ)) 65537 dent_position_65537
        (map_pixels (fun v => { X := -v.X, Y := -v.Y, Z := -v.Z })
          (constant_normal_65537 ({ X := 0, Y := 0, Z := 1 } : DeVAS_XYZ ℚ))) = .ok o' ∧
      o.data 32768 32768 = -1 / 2147450880 ∧ o'.data 32768 32768 = 0 ∧
      o.data 32768 32768 + o'.data 32768 32768 ≠ |(-1 : ℚ)| / ((32768 : ℚ) * 65537) := by
  have hT := dent_position_total
    (constant_normal_65537 ({ X := 0, Y := 0, Z := 1 } : DeVAS_XYZ ℚ)) 1 rfl
  have hT' := dent_position_total
    (map_pixels (fun v : DeVAS_XYZ ℚ => ({ X := -v.X, Y := -v.Y, Z := -v.Z } : DeVAS_XYZ ℚ))
      (constant_normal_65537 ({ X := 0, Y := 0, Z := 1 } : DeVAS_XYZ ℚ))) (-1)
    (by simp [map_pixels, constant_normal_65537])
  have hS := (position_total_deviation_eq_sum 32768
    (dent_position_65537 : DeVAS_image (DeVAS_XYZ ℚ))
    (constant_normal_65537 ({ X := 0, Y := 0, Z := 1 } : DeVAS_XYZ ℚ)) 32768 32768).symm.trans
    hT
  obtain ⟨o, ho, hval⟩ := compute_position_deviation_patch_65537 (fun _ _ => (1 : ℚ))
    dent_position_65537 (constant_normal_65537 ({ X := 0, Y := 0, Z := 1 } : DeVAS_XYZ ℚ))
    rfl rfl (by decide)
  obtain ⟨o', ho', hval'⟩ := compute_position_deviation_patch_65537 (fun _ _ => (2 : ℚ))
    dent_position_65537
    (map_pixels (fun v : DeVAS_XYZ ℚ => ({ X := -v.X, Y := -v.Y, Z := -v.Z } : DeVAS_XYZ ℚ))
      (constant_normal_65537 ({ X := 0, Y := 0, Z := 1 } : DeVAS_XYZ ℚ)))
    rfl rfl (by decide)
  rw [hT] at hval
  rw [hT'] at hval'
  have hv : o.data 32768 32768 = -1 / 2147450880 := by
    rw [hval]
    norm_num
  have hv' : o'.data 32768 32768 = 0 := by
    rw [hval']
    norm_num
  refine ⟨by decide, by decide, by decide, by decide, hS, o, o', ho, ho', hv, hv', ?_⟩
  rw [hv, hv']
  norm_num

/-- C30: the constant field of zero vectors does not give 90 degrees at patch
size 65537.  On the 65537x65537 field of zero vectors, over the reals with the
real arc cosine and the conversion `x * (180 / pi)` (so that
`radian2degree ( acos 0 ) = 90`), the value at the interior pixel
`(32768, 32768)` is `90 * 32769 / -32767`, about -90.0055 degrees: the
2147549184 angles of 90 degrees are divided by -2147418112. -/
theorem orientation_deviation_non_unit_patch_65537 :
    Real.arccos 0 * (180 / Real.pi) = 90 ∧
    v3d_dotprod ({ X := 0, Y := 0, Z := 0 } : DeVAS_XYZ ℝ) { X := 0, Y := 0, Z := 0 } < 1 ∧
    (3 : Int) ≤ 65537 ∧ (65537 : Int).tmod 2 = 1 ∧
    (65537 : Int) ≤ imin
      (constant_normal_65537 ({ X := 0, Y := 0, Z := 0 } : DeVAS_XYZ ℝ)).n_rows
      (constant_normal_65537 ({ X := 0, Y := 0, Z := 0 } : DeVAS_XYZ ℝ)).n_cols ∧
    ∃ out, compute_orientation_deviation (fun _ => -1) Real.arccos
        (fun x => x * (180 / Real.pi)) (fun _ _ => 1) 65537
        (constant_normal_65537 ({ X := 0, Y := 0, Z := 0 } : DeVAS_XYZ ℝ)) = .ok out ∧
      ((65537 : Int) - 1).tdiv 2 ≤ 32768 ∧
      (32768 : Int) < (constant_normal_65537
        ({ X := 0, Y := 0, Z := 0 } : DeVAS_XYZ ℝ)).n_rows - ((65537 : Int) - 1).tdiv 2 ∧
      out.data 32768 32768 = 90 * 32769 / (-32767) ∧ out.data 32768 32768 ≠ 90 := by
  have hright : Real.arccos 0 * (180 / Real.pi) = 90 := by
    rw [Real.arccos_zero]
    have hpi : Real.pi ≠ 0 := Real.pi_ne_zero
    field_simp
    ring
  obtain ⟨out, hout, -, hval⟩ := zero_normal_65537_value (fun _ => -1) (fun _ _ => 1)
  have hv : out.data 32768 32768 = 90 * 32769 / (-32767) := by
    rw [hval]
    norm_num
  refine ⟨hright, by simp [v3d_dotprod], by decide, by decide, by decide, out, hout,
    by decide, by decide, hv, ?_⟩
  rw [hv]
  norm_num

end DeVAS
